import Mathlib

/-!
# RidgeRun taucmd: CRC-16/CCITT engine and Tau frame codec

A shallow embedding of `src/src/tau-utils.c` (`initCrcCcitt16Tab`,
`updateCrcCcitt16`, `crcCcitt16`, `asciiHexToBinary`) and of `src/src/libtau.c`
(`tauBuildRequest`, `tauDecodeResponse`, `tauSendCmd`, `tauReadChar`,
`tauFlushReceivedData`, `tauReadBinary`, `tauReceiveCmd`, `tauDoCmd`,
`tauVerifyCommunication`).

Conventions of the embedding.

* Memory is a `List Nat` of byte patterns (each `< 256`); a `char *` argument
  is the list of the bytes of the object it points to, so the length of the
  list is the real size of the allocation.  A `NULL` pointer is `none`.
* Reading a `char` gives `charVal sgn b`: the pattern itself where plain
  `char` is unsigned (`sgn = false`), the sign-extended value where plain
  `char` is signed (`sgn = true`).
* `short` objects hold `toShort x`, `unsigned short` objects `toUShort x`.
* A status (`tauStatus`) is modelled by its value as a C `int`.
* A run that stops in `assert` gives `Fault.assertion`; a run that leaves the
  objects it was handed (index out of bounds, `NULL` dereference, negative
  `memcpy` size) gives `Fault.undefined`.
* The serial line is a `Transport`: scripts of the answers that `write`, `select`
  followed by `read` of one byte, and `read` of the payload will give, and the log
  of the byte strings handed to `write`.  The functions that use the line take the
  transport and return it.
-/

namespace Tau

/-! ## Machine integers and memory -/

/-- The two ways a C run can fail to return. -/
inductive Fault where
  | assertion
  | undefined
  deriving DecidableEq

/-- Conversion to `short` (16 bit, two's complement). -/
def toShort (x : Int) : Int := (x + 32768) % 65536 - 32768

/-- Conversion to `unsigned short` / `uint16_t`. -/
def toUShort (x : Int) : Nat := (x % 65536).toNat

/-- Conversion to a byte pattern (a store into a `char`). -/
def toByte (x : Int) : Nat := (x % 256).toNat

/-- Value of a `char` whose byte pattern is `b`. -/
def charVal (sgn : Bool) (b : Nat) : Int :=
  if sgn && decide (128 ≤ b) then (b : Int) - 256 else (b : Int)

/-- Load of `buffer[i]`. -/
def readByte (buffer : List Nat) (i : Int) : Except Fault Nat :=
  if 0 ≤ i then
    match buffer[i.toNat]? with
    | some b => .ok b
    | none => .error .undefined
  else .error .undefined

/-- Load of `ntohs(*(uint16_t *)&buffer[i])`: big-endian 16 bit value. -/
def readU16 (buffer : List Nat) (i : Int) : Except Fault Nat :=
  match readByte buffer i with
  | .error e => .error e
  | .ok hi =>
    match readByte buffer (i + 1) with
    | .error e => .error e
    | .ok lo => .ok (hi * 256 + lo)

/-- Store of the bytes `bs` at `&buffer[i]`. -/
def writeBytes (buffer : List Nat) (i : Int) (bs : List Nat) : Except Fault (List Nat) :=
  if 0 ≤ i ∧ i.toNat + bs.length ≤ buffer.length then
    .ok (buffer.take i.toNat ++ bs ++ buffer.drop (i.toNat + bs.length))
  else .error .undefined

/-- Store of `*(uint16_t *)&buffer[i] = htons(v)`: big-endian 16 bit value. -/
def writeU16 (buffer : List Nat) (i : Int) (v : Nat) : Except Fault (List Nat) :=
  writeBytes buffer i [v / 256 % 256, v % 256]

/-- Model of `memcpy(&dst[i], src, n)`; the size is a `size_t`, so a negative
`n` asks for more than any object holds. -/
def memcpy (dst : List Nat) (i : Int) (src : List Nat) (n : Int) : Except Fault (List Nat) :=
  if 0 ≤ n ∧ n.toNat ≤ src.length then writeBytes dst i (src.take n.toNat)
  else .error .undefined

/-! ## tau.h -/

def CAM_OK : Int := 0
def CAM_BUSY : Int := 1
def CAM_NOT_READY : Int := 2
def CAM_RANGE_ERROR : Int := 3
def CAM_CHECKSUM_ERROR : Int := 4
def CAM_UNDEFINED_PROCESS_ERROR : Int := 5
def CAM_UNDEFINED_FUNCTION_ERROR : Int := 6
def CAM_TIMEOUT_ERROR : Int := 7
def CAM_BYTE_COUNT_ERROR : Int := 8
def CAM_FEATURE_NOT_ENABLED : Int := 9
def CAM_COMMUNICATION_ERROR : Int := 100

def NO_OP : Int := 0x00
def SET_DEFAULTS : Int := 0x01
def CAMERA_RESET : Int := 0x02
def GET_REVISION : Int := 0x05
def FFC_MODE_SELECT : Int := 0x0B

def TAU_HEADER_SIZE : Int := 8

/-! ## tau-utils.c: CRC-16/CCITT -/

def P_CCITT : Nat := 0x1021

/-- One pass of the inner `for (j=0; j<8; j++)` loop of `initCrcCcitt16Tab`
on the pair `(crc, c)` of `unsigned short` registers. -/
def initCrcCcitt16TabStep (s : Nat × Nat) : Nat × Nat :=
  (if (s.1 ^^^ s.2) &&& 0x8000 ≠ 0 then ((s.1 <<< 1) ^^^ P_CCITT) % 65536
   else (s.1 <<< 1) % 65536,
   (s.2 <<< 1) % 65536)

/-- Body of the outer loop of `initCrcCcitt16Tab`: the value stored in
`crc_tabccitt[i]`. -/
def initCrcCcitt16TabEntry (i : Nat) : Nat :=
  (initCrcCcitt16TabStep^[8] (0, (i <<< 8) % 65536)).1

/-- The table `crc_tabccitt` as left by `initCrcCcitt16Tab`. -/
def crc_tabccitt : List Nat := (List.range 256).map initCrcCcitt16TabEntry

/-- Model of `updateCrcCcitt16(crc, c)`; `c` is the byte pattern of the `char`
(the mask `0x00ff` removes the sign extension, see `mask_charVal`), and the
table is initialised on first use. -/
def updateCrcCcitt16 (crc : Nat) (c : Nat) : Nat :=
  let crc := crc % 65536
  let short_c := 0x00ff &&& c
  let tmp := (crc >>> 8) ^^^ short_c
  ((crc <<< 8) ^^^ crc_tabccitt.getD tmp 0) % 65536

/-- The loop of `crcCcitt16` over the bytes it visits, from `crc = 0x0000`.  The local
`crc` is a `short` that every pass converts to `unsigned short` and back; the conversions
keep the 16 bit pattern, which is what the model carries. -/
def crcCcitt16Loop (data : List Nat) : Nat := data.foldl updateCrcCcitt16 0

/-- Model of `crcCcitt16(data, length)`; `length` is an `unsigned short`. -/
def crcCcitt16 (data : List Nat) (length : Int) : Except Fault Nat :=
  if toUShort length ≤ data.length then .ok (crcCcitt16Loop (data.take (toUShort length)))
  else .error .undefined

/-! ## libtau.c: frame codec -/

/-- Model of `tauBuildRequest(cmd, buffer, bufferCount, data, dataSize)`:
returns the buffer and `*bufferCount` on exit. -/
def tauBuildRequest (cmd : Int) (buffer : List Nat) (bufferCount : Int)
    (data : Option (List Nat)) (dataSize : Int) : Except Fault (List Nat × Int) :=
  let bufferCount := toShort bufferCount
  let dataSize := toShort dataSize
  if ¬ (bufferCount ≥ TAU_HEADER_SIZE + dataSize + 2) then .error .assertion else
  (writeBytes buffer 0 [0x6E, toByte CAM_OK, 0x00, toByte cmd]).bind fun buffer =>
  (writeU16 buffer 4 (toUShort dataSize)).bind fun buffer =>
  (crcCcitt16 buffer 6).bind fun crc =>
  (writeU16 buffer 6 crc).bind fun buffer =>
  match data with
  | some src =>
    if dataSize ≠ 0 then
      (memcpy buffer 8 src dataSize).bind fun buffer =>
      (crcCcitt16 buffer (TAU_HEADER_SIZE + dataSize)).bind fun crc =>
      (writeU16 buffer (TAU_HEADER_SIZE + dataSize) crc).bind fun buffer =>
      .ok (buffer, toShort (TAU_HEADER_SIZE + dataSize + 2))
    else
      (crcCcitt16 buffer TAU_HEADER_SIZE).bind fun crc =>
      (writeU16 buffer TAU_HEADER_SIZE crc).bind fun buffer =>
      .ok (buffer, toShort (TAU_HEADER_SIZE + 2))
  | none =>
    (crcCcitt16 buffer TAU_HEADER_SIZE).bind fun crc =>
    (writeU16 buffer TAU_HEADER_SIZE crc).bind fun buffer =>
    .ok (buffer, toShort (TAU_HEADER_SIZE + 2))

/-- The part of `tauDecodeResponse` after both CRC checks: the copy of the
payload.  Returns the status, the `data` object and `*dataCount` on exit. -/
def tauDecodeResponseData (status : Int) (buffer : List Nat) (data_len : Int)
    (data : Option (List Nat)) (dataCount : Option Int) :
    Except Fault (Int × Option (List Nat) × Option Int) :=
  match data, dataCount with
  | some dst, some cnt =>
    if data_len ≠ 0 ∧ toShort cnt ≠ 0 then
      if ¬ (toShort cnt ≥ data_len) then .error .assertion else
      (memcpy dst 0 (buffer.drop 8) data_len).bind fun dst =>
      .ok (status, some dst, some data_len)
    else if data_len > 0 then .ok (status, some dst, some 0)
    else .ok (status, some dst, some 0)
  | some dst, none =>
    if data_len ≠ 0 then .error .undefined
    else .ok (status, some dst, none)
  | none, some _ =>
    if data_len > 0 then .ok (status, none, some 0)
    else .ok (status, none, some 0)
  | none, none => .ok (status, none, none)

/-- The part of `tauDecodeResponse` after the header CRC check: the payload
length is read from the header, the CRC of header and payload is checked, and
the payload is copied. -/
def tauDecodeResponseFrame (status : Int) (buffer : List Nat)
    (data : Option (List Nat)) (dataCount : Option Int) :
    Except Fault (Int × Option (List Nat) × Option Int) :=
  (readU16 buffer 4).bind fun n =>
  let data_len := toShort n
  (readU16 buffer (TAU_HEADER_SIZE + data_len)).bind fun fcrc =>
  (crcCcitt16 buffer (TAU_HEADER_SIZE + data_len)).bind fun crc =>
  if fcrc ≠ crc then .ok (CAM_CHECKSUM_ERROR, data, dataCount) else
  tauDecodeResponseData status buffer data_len data dataCount

/-- Model of `tauDecodeResponse(cmd, buffer, bufferSize, data, dataCount)`:
returns the status, the `data` object and `*dataCount` on exit.  `bufferSize`
is not read by the function body. -/
def tauDecodeResponse (sgn : Bool) (cmd : Int) (buffer : List Nat) (bufferSize : Int)
    (data : Option (List Nat)) (dataCount : Option Int) :
    Except Fault (Int × Option (List Nat) × Option Int) :=
  let cmd := toShort cmd
  let _bufferSize := toShort bufferSize
  (readByte buffer 0).bind fun b0 =>
  if charVal sgn b0 ≠ 0x6E then .ok (CAM_COMMUNICATION_ERROR, data, dataCount) else
  (readByte buffer 1).bind fun b1 =>
  let status := charVal sgn b1
  if status ≠ CAM_OK then .ok (status, data, dataCount) else
  (readByte buffer 3).bind fun b3 =>
  if charVal sgn b3 ≠ cmd then .ok (CAM_COMMUNICATION_ERROR, data, dataCount) else
  (readU16 buffer 6).bind fun hcrc =>
  (crcCcitt16 buffer 6).bind fun crc =>
  if hcrc ≠ crc then .ok (CAM_CHECKSUM_ERROR, data, dataCount) else
  tauDecodeResponseFrame status buffer data dataCount

/-! ## The transport: what `write`, `select` and `read` meet -/

/-- Conversion to `int` (32 bit, two's complement). -/
def toInt (x : Int) : Int := (x + 2147483648) % 4294967296 - 2147483648

/-- What one call of `tauReadChar` meets on the descriptor. -/
inductive ReadEvent where
  /-- Case `select` reports the descriptor readable and `read(fd, c, 1)` delivers the
  byte `b`. -/
  | byte (b : Nat)
  /-- Case `select` returns at the deadline with the descriptor not set. -/
  | timeout
  /-- Case `select` returns a negative value. -/
  | error
  /-- Case `select` reports the descriptor readable but `read(fd, c, 1)` does not
  return 1 (end of file, error). -/
  | hangup
  deriving DecidableEq

/-- State of the serial line seen from the library: the answers the operating system
will give, and the log of what was handed to it. -/
structure Transport where
  /-- Values that the calls of `write` still to come return. -/
  writes : List Int
  /-- What the calls of `tauReadChar` still to come meet, one event per call. -/
  reads : List ReadEvent
  /-- Outcomes of the calls of `read(handler, &buffer[8], n)` still to come: the bytes
  the call finds, or `none` when it returns a negative value. -/
  bodies : List (Option (List Nat))
  /-- Log: the byte strings handed to `write` so far, oldest first. -/
  sent : List (List Nat)
  deriving DecidableEq

/-- Model of `write(fd, buffer, count)`: the `count` bytes are logged and the
scripted value is returned (`-1` once the script is exhausted). -/
def write (t : Transport) (buffer : List Nat) (count : Int) : Except Fault (Int × Transport) :=
  if 0 ≤ count ∧ count.toNat ≤ buffer.length then
    match t.writes with
    | [] => .ok (-1, { t with sent := t.sent ++ [buffer.take count.toNat] })
    | w :: ws => .ok (w, { t with writes := ws, sent := t.sent ++ [buffer.take count.toNat] })
  else .error .undefined

/-- Model of `read(fd, &buffer[i], count)` for the payload: at most `count` of the
bytes found are stored and their number is returned; `-1` when the call fails or the
script is exhausted.  A negative `count` is a `size_t` above `SSIZE_MAX`. -/
def read (t : Transport) (buffer : List Nat) (i : Int) (count : Int) :
    Except Fault (Int × List Nat × Transport) :=
  if count < 0 then .error .undefined else
  match t.bodies with
  | [] => .ok (-1, buffer, t)
  | none :: r => .ok (-1, buffer, { t with bodies := r })
  | some bs :: r =>
    (writeBytes buffer i (bs.take count.toNat)).bind fun buffer =>
    .ok (((bs.take count.toNat).length : Int), buffer, { t with bodies := r })

/-- Model of `malloc(size)` for a `short` size: a fresh object of `size` bytes (shown
zeroed; every byte the library reads from it has been stored before); a negative
size is a `size_t` no allocation can satisfy. -/
def malloc (size : Int) : Option (List Nat) :=
  if 0 ≤ size then some (List.replicate size.toNat 0) else none

/-! ## libtau.c: communication routines -/

/-- Model of `tauSendCmd(handler, buffer, bufferSize)`: returns the status as a C
`int` and the transport. -/
def tauSendCmd (t : Transport) (buffer : List Nat) (bufferSize : Int) :
    Except Fault (Int × Transport) :=
  let bufferSize := toShort bufferSize
  (write t buffer bufferSize).bind fun r =>
  let err := toInt r.1
  if err ≠ bufferSize then
    if err < 0 then .ok (err, r.2)
    else .ok (err, r.2)
  else .ok (CAM_OK, r.2)

/-- Model of `tauReadChar(handler, c, msWait)` with `c = &buffer[i]`: returns the
status, the object `c` points into, and the transport.  The deadline `msWait` is
part of the event the call meets; an exhausted script means that nothing more
arrives. -/
def tauReadChar (t : Transport) (buffer : List Nat) (i : Int) :
    Except Fault (Int × List Nat × Transport) :=
  match t.reads with
  | [] => .ok (CAM_TIMEOUT_ERROR, buffer, t)
  | .error :: r => .ok (CAM_COMMUNICATION_ERROR, buffer, { t with reads := r })
  | .timeout :: r => .ok (CAM_TIMEOUT_ERROR, buffer, { t with reads := r })
  | .hangup :: _ => .error .assertion
  | .byte b :: r =>
    (writeBytes buffer i [b]).bind fun buffer => .ok (CAM_OK, buffer, { t with reads := r })

/-- The `while (status == CAM_OK)` loop of `tauFlushReceivedData`, at most `n`
tests of its condition; `data` is the one byte object the characters are read
into. -/
def tauFlushReceivedDataLoop (status : Int) (data : List Nat) (t : Transport) :
    Nat → Except Fault Transport
  | 0 => .error .undefined
  | n + 1 =>
    if status = CAM_OK then
      (tauReadChar t data 0).bind fun r => tauFlushReceivedDataLoop r.1 r.2.1 r.2.2 n
    else .ok t

/-- Model of `tauFlushReceivedData(handler)`.  Every pass of the loop but the last
takes one event of the script, so `t.reads.length + 2` tests of the condition are
enough (`tauFlushReceivedData_eq`). -/
def tauFlushReceivedData (t : Transport) : Except Fault (Int × Transport) :=
  (tauFlushReceivedDataLoop CAM_OK [0] t (t.reads.length + 2)).bind fun t => .ok (CAM_OK, t)

/-- The loop of `tauReadBinary`; the last argument is `readAmount` as the number of
passes left, `i` the offset of the moving pointer `buffer`. -/
def tauReadBinaryLoop (t : Transport) (buffer : List Nat) (i : Int) (status : Int) (len : Int) :
    Nat → Except Fault (Int × List Nat × Transport)
  | 0 => .ok (len, buffer, t)
  | readAmount + 1 =>
    if status = CAM_OK then
      (tauReadChar t buffer i).bind fun r =>
      tauReadBinaryLoop r.2.2 r.2.1 (i + 1) r.1 (if r.1 = CAM_OK then len + 1 else len)
        readAmount
    else .ok (len, buffer, t)

/-- Model of `tauReadBinary(handler, buffer, readAmount, msWait)`: returns `len`, the
buffer and the transport.  A `short` counted down to zero makes
`toUShort readAmount` passes at most. -/
def tauReadBinary (t : Transport) (buffer : List Nat) (readAmount : Int) :
    Except Fault (Int × List Nat × Transport) :=
  tauReadBinaryLoop t buffer 0 CAM_OK 0 (toUShort (toShort readAmount))

/-! ## libtau.c: packet exchange -/

/-- Model of `tauReceiveCmd(handler, buffer, bufferCount, msWait)`: returns the
status, the buffer, `*bufferCount` on exit and the transport. -/
def tauReceiveCmd (t : Transport) (buffer : List Nat) (bufferCount : Int) :
    Except Fault (Int × List Nat × Int × Transport) :=
  let bufferCount := toShort bufferCount
  if ¬ (bufferCount ≥ TAU_HEADER_SIZE) then .error .assertion else
  (tauReadBinary t buffer TAU_HEADER_SIZE).bind fun r =>
  let len := r.1
  let buffer := r.2.1
  let t := r.2.2
  if len < 0 then .ok (CAM_TIMEOUT_ERROR, buffer, 0, t) else
  if len ≠ TAU_HEADER_SIZE then .ok (CAM_TIMEOUT_ERROR, buffer, 0, t) else
  (readU16 buffer 4).bind fun n =>
  let data_len := toShort n
  if ¬ (bufferCount ≥ TAU_HEADER_SIZE + data_len + 2) then .error .assertion else
  (read t buffer TAU_HEADER_SIZE (data_len + 2)).bind fun r =>
  let len := r.1
  let buffer := r.2.1
  let t := r.2.2
  if len < 0 then .ok (CAM_TIMEOUT_ERROR, buffer, TAU_HEADER_SIZE, t) else
  if len ≠ data_len + 2 then .ok (CAM_TIMEOUT_ERROR, buffer, TAU_HEADER_SIZE, t) else
  .ok (CAM_OK, buffer, toShort (TAU_HEADER_SIZE + data_len + 2), t)

/-- Model of `tauDoCmd(handler, cmd, input, input_size, output, output_count)`:
returns the status as a C `int`, the `output` object, `*output_count` on exit and
the transport. -/
def tauDoCmd (sgn : Bool) (t : Transport) (cmd : Int) (input : Option (List Nat))
    (input_size : Int) (output : Option (List Nat)) (output_count : Option Int) :
    Except Fault (Int × Option (List Nat) × Option Int × Transport) :=
  let input_size := toShort input_size
  let msg_size := toShort (10 + input_size)
  let rsp_size :=
    match output_count with
    | some c => toShort (10 + toShort c)
    | none => 10
  match malloc msg_size with
  | none => .ok (CAM_NOT_READY, output, output_count, t)
  | some msg =>
    match malloc rsp_size with
    | none => .ok (CAM_NOT_READY, output, output_count, t)
    | some rsp =>
      (tauBuildRequest cmd msg msg_size input input_size).bind fun m =>
      (tauSendCmd t m.1 m.2).bind fun s =>
      if s.1 ≠ 0 then .ok (s.1, output, output_count, s.2) else
      (tauReceiveCmd s.2 rsp rsp_size).bind fun r =>
      if r.1 ≠ 0 then .ok (r.1, output, output_count, r.2.2.2) else
      (tauDecodeResponse sgn cmd r.2.1 r.2.2.1 output output_count).bind fun d =>
      .ok (d.1, d.2.1, d.2.2, r.2.2.2)

/-- Model of `tauVerifyCommunication(handler)`: returns the status and the
transport. -/
def tauVerifyCommunication (sgn : Bool) (t : Transport) : Except Fault (Int × Transport) :=
  (tauFlushReceivedData t).bind fun f =>
  if f.1 ≠ CAM_OK then .ok (f.1, f.2) else
  (tauDoCmd sgn f.2 NO_OP none 0 none none).bind fun r => .ok (r.1, r.2.2.2)

/-! ## tau-utils.c: ASCII hex -/

/-- Conversion to `char`: the value of the `char` that holds the low byte. -/
def toChar (sgn : Bool) (x : Int) : Int := charVal sgn (toByte x)

/-- Library `toupper` in the "C" locale (the program never calls `setlocale`). -/
def toupper (c : Int) : Int := if 97 ≤ c ∧ c ≤ 122 then c - 32 else c

/-- Library `isblank` in the "C" locale: space and horizontal tab. -/
def isblank (c : Int) : Bool := c == 32 || c == 9

/-- Library `isdigit`. -/
def isdigit (c : Int) : Bool := decide (48 ≤ c) && decide (c ≤ 57)

/-- The `while (*ptr)` loop of `asciiHexToBinary` over the characters left; the end
of the list is the terminating NUL.  Returns the buffer and `count`. -/
def asciiHexToBinaryLoop (sgn : Bool) :
    List Nat → List Nat → Int → Int → Int → Except Fault (List Nat × Int)
  | [], buffer, count, _, _ => .ok (buffer, count)
  | p :: ptr, buffer, count, nibbles, val =>
    if charVal sgn p = 0 then .ok (buffer, count) else
    let c := toChar sgn (toupper (charVal sgn p))
    if isblank c then asciiHexToBinaryLoop sgn ptr buffer count nibbles val else
    let shifted : Option Int :=
      if isdigit c then some (toChar sgn (val * 16 + (c - 48)))
      else if c ≥ 65 ∧ c ≤ 70 then some (toChar sgn (val * 16 + (c - 65 + 10)))
      else none
    match shifted with
    | none => .ok (buffer, count)
    | some val =>
      if nibbles + 1 = 2 then
        (writeBytes buffer count [toByte val]).bind fun buffer =>
        asciiHexToBinaryLoop sgn ptr buffer (count + 1) 0 0
      else asciiHexToBinaryLoop sgn ptr buffer count (nibbles + 1) val

/-- Model of `asciiHexToBinary(buffer, buf_len, ascii_hex)`: returns the buffer and
the count.  `buf_len` is not read by the function body. -/
def asciiHexToBinary (sgn : Bool) (buffer : List Nat) (buf_len : Int) (ascii_hex : List Nat) :
    Except Fault (List Nat × Int) :=
  let _buf_len := toInt buf_len
  asciiHexToBinaryLoop sgn ascii_hex buffer 0 0 0

/-! ## Reference definitions, following the specification -/

/-- Spec side (§4.A): one left shift of the 16 bit register, XOR-ing 0x1021
when the top bit was 1 before the shift. -/
def refShift (r : Nat) : Nat :=
  if r &&& 0x8000 ≠ 0 then ((r <<< 1) ^^^ 0x1021) % 65536 else (r <<< 1) % 65536

/-- Spec side (§4.A): table entry `i`: `i` placed in the high byte, shifted
left 8 times. -/
def refTableEntry (i : Nat) : Nat := refShift^[8] (i <<< 8)

/-- Spec side: bit-by-bit CRC-16/CCITT update with one byte, MSB first. -/
def refCrcByte (crc : Nat) (b : Nat) : Nat := refShift^[8] (crc ^^^ (b <<< 8))

/-- Spec side: bit-by-bit CRC-16/CCITT, register started at 0x0000, no
reflection, no final XOR. -/
def refCrc16 (data : List Nat) : Nat := data.foldl refCrcByte 0

/-- Spec side: value of an ASCII hex digit in either case, `none` for any other
character. -/
def refHexDigit (c : Nat) : Option Nat :=
  if 48 ≤ c ∧ c ≤ 57 then some (c - 48)
  else if 65 ≤ c ∧ c ≤ 70 then some (c - 55)
  else if 97 ≤ c ∧ c ≤ 102 then some (c - 87)
  else none

/-- Spec side: the hex digits of a string read up to its end or the first illegal
character, blanks (space, tab) skipped. -/
def refHexDigits : List Nat → List Nat
  | [] => []
  | c :: s =>
    if c = 32 ∨ c = 9 then refHexDigits s else
    match refHexDigit c with
    | some d => d :: refHexDigits s
    | none => []

/-- Spec side: the bytes given by successive pairs of digits, a trailing unpaired
digit being dropped. -/
def refPairs : List Nat → List Nat
  | a :: b :: r => (a * 16 + b) :: refPairs r
  | _ => []

/-- Spec side: the bytes that a string of ASCII hex denotes. -/
def refHexBytes (s : List Nat) : List Nat := refPairs (refHexDigits s)

/-! ## Auxiliary description of a frame -/

/-- Auxiliary: the six leading bytes that `tauBuildRequest` stores: process code, status,
reserved, function code and the big-endian payload length. -/
def frameHead (cmd : Int) (n : Nat) : List Nat :=
  [0x6E, 0x00, 0x00, toByte cmd, n / 256 % 256, n % 256]

/-- Auxiliary: the eight header bytes that `tauBuildRequest` stores: `frameHead` followed
by its big-endian `crcCcitt16`. -/
def frameHeader (cmd : Int) (n : Nat) : List Nat :=
  frameHead cmd n ++
    [crcCcitt16Loop (frameHead cmd n) / 256 % 256, crcCcitt16Loop (frameHead cmd n) % 256]

/-- Auxiliary: closed form of the bytes that `tauBuildRequest` leaves for function code
`cmd` and payload `P` (proved in `tauBuildRequest_frame`): header, payload and the
big-endian `crcCcitt16` of both. -/
def frameOf (cmd : Int) (P : List Nat) : List Nat :=
  frameHeader cmd P.length ++ P ++
    [crcCcitt16Loop (frameHeader cmd P.length ++ P) / 256 % 256,
     crcCcitt16Loop (frameHeader cmd P.length ++ P) % 256]

/-! ## The CRC engine: table, update and bit-by-bit reference -/

theorem and_8000_ne_zero (x : Nat) : (x &&& 0x8000 ≠ 0) ↔ x.testBit 15 = true := by
  have h := Nat.and_two_pow x 15
  have e : (0x8000 : Nat) = 2 ^ 15 := by norm_num
  rw [e, h]
  cases x.testBit 15 <;> simp

theorem xor_mod_65536 (a b : Nat) : (a ^^^ b) % 65536 = (a % 65536) ^^^ (b % 65536) := by
  have e : (65536 : Nat) = 2 ^ 16 := by norm_num
  rw [e]
  apply Nat.eq_of_testBit_eq
  intro i
  simp only [Nat.testBit_mod_two_pow, Nat.testBit_xor]
  cases decide (i < 16) <;> simp

theorem refShift_eq (x : Nat) :
    refShift x = ((x <<< 1) % 65536) ^^^ (if x.testBit 15 = true then 0x1021 else 0) := by
  unfold refShift
  by_cases h : x.testBit 15 = true
  · rw [if_pos ((and_8000_ne_zero x).2 h), if_pos h, xor_mod_65536]
  · rw [if_neg (fun h' => h ((and_8000_ne_zero x).1 h')), if_neg h]; simp

theorem refShift_lt (x : Nat) : refShift x < 65536 := by
  unfold refShift; split <;> exact Nat.mod_lt _ (by norm_num)

theorem shl1_mod_xor (x y : Nat) :
    ((x ^^^ y) <<< 1) % 65536 = ((x <<< 1) % 65536) ^^^ ((y <<< 1) % 65536) := by
  rw [← xor_mod_65536]
  congr 1
  apply Nat.eq_of_testBit_eq
  intro i
  simp only [Nat.testBit_shiftLeft, Nat.testBit_xor]
  cases decide (i ≥ 1) <;> simp

theorem xor_left_comm3 (a b c : Nat) : a ^^^ (b ^^^ c) = b ^^^ (a ^^^ c) := by
  rw [← Nat.xor_assoc, Nat.xor_comm a b, Nat.xor_assoc]

theorem refShift_xor (x y : Nat) : refShift (x ^^^ y) = refShift x ^^^ refShift y := by
  rw [refShift_eq, refShift_eq, refShift_eq, shl1_mod_xor, Nat.testBit_xor]
  cases x.testBit 15 <;> cases y.testBit 15 <;>
    simp [Nat.xor_assoc, Nat.xor_comm, xor_left_comm3, Nat.xor_cancel_left]

theorem refShift_iter_xor (n x y : Nat) :
    refShift^[n] (x ^^^ y) = refShift^[n] x ^^^ refShift^[n] y := by
  induction n generalizing x y with
  | zero => rfl
  | succ n ih => simp only [Function.iterate_succ, Function.comp_apply, refShift_xor, ih]

theorem refShift_iter_lt (n x : Nat) (hx : x < 65536) : refShift^[n] x < 65536 := by
  induction n with
  | zero => simpa using hx
  | succ n _ => rw [Function.iterate_succ_apply']; exact refShift_lt _

theorem refShift_small (x : Nat) (hx : x < 32768) : refShift x = 2 * x := by
  rw [refShift_eq, Nat.testBit_lt_two_pow (by simpa using hx), Nat.shiftLeft_eq]
  simp
  omega

theorem refShift_iter8_small (l : Nat) (hl : l < 256) : refShift^[8] l = l <<< 8 := by
  simp only [Function.iterate_succ, Function.iterate_zero, Function.comp_apply, id_eq]
  rw [refShift_small l (by omega), refShift_small (2 * l) (by omega),
    refShift_small (2 * (2 * l)) (by omega), refShift_small (2 * (2 * (2 * l))) (by omega),
    refShift_small (2 * (2 * (2 * (2 * l)))) (by omega),
    refShift_small (2 * (2 * (2 * (2 * (2 * l))))) (by omega),
    refShift_small (2 * (2 * (2 * (2 * (2 * (2 * l)))))) (by omega),
    refShift_small (2 * (2 * (2 * (2 * (2 * (2 * (2 * l))))))) (by omega), Nat.shiftLeft_eq]
  omega

theorem tabStep_inv (s : Nat × Nat) :
    (initCrcCcitt16TabStep s).1 ^^^ (initCrcCcitt16TabStep s).2 = refShift (s.1 ^^^ s.2) := by
  rw [refShift_eq, shl1_mod_xor]
  unfold initCrcCcitt16TabStep P_CCITT
  by_cases h : (s.1 ^^^ s.2).testBit 15 = true
  · rw [if_pos ((and_8000_ne_zero _).2 h), if_pos h, xor_mod_65536]
    simp [Nat.xor_assoc, Nat.xor_comm, xor_left_comm3]
  · rw [if_neg (fun h' => h ((and_8000_ne_zero _).1 h')), if_neg h]; simp

theorem tabStep_iter_inv (n : Nat) (s : Nat × Nat) :
    (initCrcCcitt16TabStep^[n] s).1 ^^^ (initCrcCcitt16TabStep^[n] s).2
      = refShift^[n] (s.1 ^^^ s.2) := by
  induction n generalizing s with
  | zero => rfl
  | succ n ih => simp only [Function.iterate_succ, Function.comp_apply, ih, tabStep_inv]

theorem tabStep_iter_snd (n : Nat) (s : Nat × Nat) :
    (initCrcCcitt16TabStep^[n] s).2 = (fun c => (c <<< 1) % 65536)^[n] s.2 := by
  induction n generalizing s with
  | zero => rfl
  | succ n ih => simp only [Function.iterate_succ, Function.comp_apply, ih, initCrcCcitt16TabStep]

theorem tabEntry_eq (i : Nat) :
    initCrcCcitt16TabEntry i = refShift^[8] ((i <<< 8) % 65536) := by
  have h := tabStep_iter_inv 8 (0, (i <<< 8) % 65536)
  have h2 : (initCrcCcitt16TabStep^[8] (0, (i <<< 8) % 65536)).2 = 0 := by
    rw [tabStep_iter_snd]
    simp only [Function.iterate_succ, Function.iterate_zero, Function.comp_apply, id_eq,
      Nat.shiftLeft_eq]
    omega
  rw [h2] at h
  simpa [initCrcCcitt16TabEntry] using h

theorem tab_getD (i : Nat) (hi : i < 256) : crc_tabccitt.getD i 0 = initCrcCcitt16TabEntry i := by
  simp [crc_tabccitt, List.getD_eq_getElem?_getD, hi]

theorem and_ff (c : Nat) : 0x00ff &&& c = c % 256 := by
  rw [Nat.and_comm]
  exact Nat.and_pow_two_sub_one_eq_mod c 8

theorem split_high_low (a s : Nat) :
    a ^^^ (s <<< 8) = (((a >>> 8) ^^^ s) <<< 8) ^^^ (a % 256) := by
  have e : (256 : Nat) = 2 ^ 8 := by norm_num
  rw [e]
  apply Nat.eq_of_testBit_eq
  intro i
  simp only [Nat.testBit_xor, Nat.testBit_shiftLeft, Nat.testBit_shiftRight,
    Nat.testBit_mod_two_pow]
  by_cases h : i < 8
  · have h' : ¬ (i ≥ 8) := by omega
    simp [h, h']
  · have h' : i ≥ 8 := by omega
    have e2 : 8 + (i - 8) = i := by omega
    simp [h, h', e2]

theorem updateCrcCcitt16_eq (crc c : Nat) :
    updateCrcCcitt16 crc c = refCrcByte (crc % 65536) (c % 256) := by
  have hc : crc % 65536 < 65536 := Nat.mod_lt _ (by norm_num)
  have hs : c % 256 < 256 := Nat.mod_lt _ (by norm_num)
  have hhi : (crc % 65536) >>> 8 < 2 ^ 8 := by
    rw [Nat.shiftRight_eq_div_pow]; omega
  have htmp : ((crc % 65536) >>> 8) ^^^ (c % 256) < 256 :=
    Nat.xor_lt_two_pow hhi (by simpa using hs)
  unfold updateCrcCcitt16 refCrcByte
  simp only [and_ff]
  have e1 : ((((crc % 65536) >>> 8) ^^^ (c % 256)) <<< 8) % 65536
      = (((crc % 65536) >>> 8) ^^^ (c % 256)) <<< 8 := by
    rw [Nat.shiftLeft_eq]; omega
  have e2 : ((crc % 65536) <<< 8) % 65536 = ((crc % 65536) % 256) <<< 8 := by
    simp only [Nat.shiftLeft_eq]; omega
  rw [tab_getD _ htmp, tabEntry_eq, e1, split_high_low, refShift_iter_xor,
    refShift_iter8_small _ (Nat.mod_lt _ (by norm_num)), xor_mod_65536, e2,
    Nat.mod_eq_of_lt (refShift_iter_lt _ _ (by rw [Nat.shiftLeft_eq]; omega)), Nat.xor_comm]

theorem updateCrcCcitt16_lt (crc c : Nat) : updateCrcCcitt16 crc c < 65536 := by
  unfold updateCrcCcitt16; exact Nat.mod_lt _ (by norm_num)

theorem refCrcByte_lt (crc c : Nat) (h1 : crc < 65536) (h2 : c < 256) :
    refCrcByte crc c < 65536 := by
  unfold refCrcByte
  apply refShift_iter_lt
  apply @Nat.xor_lt_two_pow _ _ 16 (by simpa using h1)
  rw [Nat.shiftLeft_eq]; norm_num; omega

theorem foldl_update_eq_ref (data : List Nat) (hb : ∀ b ∈ data, b < 256) (s : Nat)
    (hs : s < 65536) : data.foldl updateCrcCcitt16 s = data.foldl refCrcByte s := by
  induction data generalizing s with
  | nil => rfl
  | cons b t ih =>
    have hb0 : b < 256 := hb b (List.mem_cons_self _ _)
    simp only [List.foldl_cons]
    rw [updateCrcCcitt16_eq, Nat.mod_eq_of_lt hs, Nat.mod_eq_of_lt hb0]
    exact ih (fun x hx => hb x (List.mem_cons_of_mem _ hx)) _ (refCrcByte_lt _ _ hs hb0)

theorem crcCcitt16Loop_eq_ref (data : List Nat) (hb : ∀ b ∈ data, b < 256) :
    crcCcitt16Loop data = refCrc16 data :=
  foldl_update_eq_ref data hb 0 (by norm_num)

theorem tab_eq_ref (i : Nat) (hi : i < 256) : crc_tabccitt.getD i 0 = refTableEntry i := by
  rw [tab_getD i hi, tabEntry_eq, refTableEntry]
  congr 1
  rw [Nat.shiftLeft_eq]; omega

/-! ## The CRC engine: a changed byte changes the CRC -/

theorem refShift_testBit_zero (x : Nat) : (refShift x).testBit 0 = x.testBit 15 := by
  have e : (65536 : Nat) = 2 ^ 16 := by norm_num
  rw [refShift_eq, Nat.testBit_xor, e, Nat.testBit_mod_two_pow, Nat.testBit_shiftLeft]
  cases x.testBit 15 <;> simp

theorem testBit_15 (x : Nat) (hx : x < 65536) : x.testBit 15 = decide (32768 ≤ x) := by
  rw [Nat.testBit_to_div_mod]
  congr 1
  apply propext
  norm_num
  constructor <;> intro h <;> omega

theorem refShift_injOn (x y : Nat) (hx : x < 65536) (hy : y < 65536)
    (h : refShift x = refShift y) : x = y := by
  have hb : x.testBit 15 = y.testBit 15 := by
    rw [← refShift_testBit_zero, ← refShift_testBit_zero, h]
  rw [refShift_eq, refShift_eq, hb] at h
  have h2 : (x <<< 1) % 65536 = (y <<< 1) % 65536 := by
    have := congrArg (fun z => z ^^^ (if y.testBit 15 = true then 0x1021 else 0)) h
    simpa [Nat.xor_assoc] using this
  rw [testBit_15 x hx, testBit_15 y hy] at hb
  simp only [Nat.shiftLeft_eq] at h2
  have hb' : 32768 ≤ x ↔ 32768 ≤ y := by simpa using hb
  omega

theorem refShift_iter_injOn (n x y : Nat) (hx : x < 65536) (hy : y < 65536)
    (h : refShift^[n] x = refShift^[n] y) : x = y := by
  induction n generalizing x y with
  | zero => simpa using h
  | succ n ih =>
    rw [Function.iterate_succ_apply, Function.iterate_succ_apply] at h
    exact refShift_injOn x y hx hy (ih _ _ (refShift_lt x) (refShift_lt y) h)

theorem shl8_lt (c : Nat) (hc : c < 256) : c <<< 8 < 2 ^ 16 := by
  rw [Nat.shiftLeft_eq]; omega

theorem refCrcByte_inj_state (a b c : Nat) (ha : a < 65536) (hb : b < 65536) (hc : c < 256)
    (h : refCrcByte a c = refCrcByte b c) : a = b := by
  unfold refCrcByte at h
  have h1 := refShift_iter_injOn 8 _ _
    (@Nat.xor_lt_two_pow _ _ 16 (by simpa using ha) (shl8_lt c hc))
    (@Nat.xor_lt_two_pow _ _ 16 (by simpa using hb) (shl8_lt c hc)) h
  have := congrArg (fun z => z ^^^ (c <<< 8)) h1
  simpa [Nat.xor_assoc] using this

theorem refCrcByte_inj_byte (a c d : Nat) (ha : a < 65536) (hc : c < 256) (hd : d < 256)
    (h : refCrcByte a c = refCrcByte a d) : c = d := by
  unfold refCrcByte at h
  have h1 := refShift_iter_injOn 8 _ _
    (@Nat.xor_lt_two_pow _ _ 16 (by simpa using ha) (shl8_lt c hc))
    (@Nat.xor_lt_two_pow _ _ 16 (by simpa using ha) (shl8_lt d hd)) h
  have h2 := Nat.xor_right_injective h1
  simp only [Nat.shiftLeft_eq] at h2
  omega

theorem foldl_ref_lt (data : List Nat) (hb : ∀ b ∈ data, b < 256) (s : Nat) (hs : s < 65536) :
    data.foldl refCrcByte s < 65536 := by
  induction data generalizing s with
  | nil => simpa using hs
  | cons b t ih =>
    simp only [List.foldl_cons]
    exact ih (fun x hx => hb x (List.mem_cons_of_mem _ hx)) _
      (refCrcByte_lt _ _ hs (hb b (List.mem_cons_self _ _)))

theorem foldl_ref_inj (data : List Nat) (hb : ∀ b ∈ data, b < 256) (s t : Nat)
    (hs : s < 65536) (ht : t < 65536)
    (h : data.foldl refCrcByte s = data.foldl refCrcByte t) : s = t := by
  induction data generalizing s t with
  | nil => simpa using h
  | cons b l ih =>
    have hb0 : b < 256 := hb b (List.mem_cons_self _ _)
    simp only [List.foldl_cons] at h
    exact refCrcByte_inj_state s t b hs ht hb0
      (ih (fun x hx => hb x (List.mem_cons_of_mem _ hx)) _ _
        (refCrcByte_lt _ _ hs hb0) (refCrcByte_lt _ _ ht hb0) h)

/-- Two byte strings that differ in exactly one position have different CRCs. -/
theorem crcCcitt16Loop_single_byte (pre suf : List Nat) (b c : Nat)
    (hpre : ∀ x ∈ pre, x < 256) (hsuf : ∀ x ∈ suf, x < 256) (hb : b < 256) (hc : c < 256)
    (hne : b ≠ c) :
    crcCcitt16Loop (pre ++ b :: suf) ≠ crcCcitt16Loop (pre ++ c :: suf) := by
  have hall : ∀ (z : Nat), z < 256 → ∀ x ∈ pre ++ z :: suf, x < 256 := by
    intro z hz x hx
    rcases List.mem_append.1 hx with h | h
    · exact hpre x h
    · rcases List.mem_cons.1 h with h | h
      · rw [h]; exact hz
      · exact hsuf x h
  rw [crcCcitt16Loop_eq_ref _ (hall b hb), crcCcitt16Loop_eq_ref _ (hall c hc)]
  unfold refCrc16
  simp only [List.foldl_append, List.foldl_cons]
  intro h
  have hs := foldl_ref_lt pre hpre 0 (by norm_num)
  have h1 := foldl_ref_inj suf hsuf _ _ (refCrcByte_lt _ _ hs hb) (refCrcByte_lt _ _ hs hc) h
  exact hne (refCrcByte_inj_byte _ b c hs hb hc h1)

/-! ## Buffers: stores, loads and the request builder -/

theorem toShort_of_range (x : Int) (h1 : -32768 ≤ x) (h2 : x ≤ 32767) : toShort x = x := by
  unfold toShort; omega

theorem toShort_le (x : Int) : toShort x ≤ 32767 := by
  unfold toShort; omega

theorem toUShort_natCast (n : Nat) (h : n < 65536) : toUShort (n : Int) = n := by
  unfold toUShort; omega

theorem writeBytes_mid (a x r bs : List Nat) (i : Int) (hi : i = (a.length : Int))
    (hx : x.length = bs.length) :
    writeBytes (a ++ (x ++ r)) i bs = .ok (a ++ (bs ++ r)) := by
  subst hi
  unfold writeBytes
  rw [if_pos (by simp; omega)]
  simp [hx.symm]

theorem crcCcitt16_append (a r : List Nat) (k : Int) (hk : toUShort k = a.length) :
    crcCcitt16 (a ++ r) k = .ok (crcCcitt16Loop a) := by
  unfold crcCcitt16
  rw [hk, if_pos (by simp)]
  simp

theorem crcCcitt16Loop_lt (data : List Nat) : crcCcitt16Loop data < 65536 := by
  unfold crcCcitt16Loop
  induction data using List.reverseRecOn with
  | nil => simp
  | append_singleton l a _ => simp only [List.foldl_append, List.foldl_cons, List.foldl_nil]; exact updateCrcCcitt16_lt _ _

theorem split_buffer (buffer : List Nat) (n : Nat) (h : 10 + n ≤ buffer.length) :
    ∃ c4 c2 d2 cn e2 : List Nat, c4.length = 4 ∧ c2.length = 2 ∧ d2.length = 2 ∧
      cn.length = n ∧ e2.length = 2 ∧
      buffer = c4 ++ (c2 ++ (d2 ++ (cn ++ (e2 ++ buffer.drop (10 + n))))) := by
  refine ⟨buffer.take 4, (buffer.drop 4).take 2, (buffer.drop 6).take 2,
    (buffer.drop 8).take n, (buffer.drop (8 + n)).take 2, ?_, ?_, ?_, ?_, ?_, ?_⟩
  · simp; omega
  · simp; omega
  · simp; omega
  · simp; omega
  · simp; omega
  · have e1 : buffer.drop (10 + n) = ((((buffer.drop 4).drop 2).drop 2).drop n).drop 2 := by
      simp only [List.drop_drop]; congr 1; omega
    have e2 : buffer.drop 6 = (buffer.drop 4).drop 2 := by simp [List.drop_drop]
    have e3 : buffer.drop 8 = ((buffer.drop 4).drop 2).drop 2 := by simp [List.drop_drop]
    have e4 : buffer.drop (8 + n) = (((buffer.drop 4).drop 2).drop 2).drop n := by
      simp only [List.drop_drop]
    rw [e1, e2, e3, e4]
    simp only [List.take_append_drop]

theorem writeBytes_at (buf a x r bs : List Nat) (i : Int) (hb : buf = a ++ (x ++ r))
    (hi : i = (a.length : Int)) (hx : x.length = bs.length) :
    writeBytes buf i bs = .ok (a ++ (bs ++ r)) := by
  subst hb; exact writeBytes_mid a x r bs i hi hx

theorem writeU16_at (buf a x r : List Nat) (i : Int) (v : Nat) (hb : buf = a ++ (x ++ r))
    (hi : i = (a.length : Int)) (hx : x.length = 2) :
    writeU16 buf i v = .ok (a ++ ([v / 256 % 256, v % 256] ++ r)) :=
  writeBytes_at buf a x r _ i hb hi (by simp [hx])

theorem crcCcitt16_at (buf a r : List Nat) (k : Int) (hb : buf = a ++ r)
    (hk : toUShort k = a.length) : crcCcitt16 buf k = .ok (crcCcitt16Loop a) := by
  subst hb; exact crcCcitt16_append a r k hk

theorem memcpy_at (buf a x r src : List Nat) (i n : Int) (hb : buf = a ++ (x ++ r))
    (hi : i = (a.length : Int)) (hn : n = (src.length : Int)) (hx : x.length = src.length) :
    memcpy buf i src n = .ok (a ++ (src ++ r)) := by
  subst hn
  unfold memcpy
  rw [if_pos (by simp)]
  simp only [Int.toNat_ofNat, List.take_length]
  exact writeBytes_at buf a x r src i hb hi hx

theorem ok_bind {α β : Type} (a : α) (f : α → Except Fault β) :
    (Except.ok a : Except Fault α).bind f = f a := by
  simp only [Except.bind]

theorem error_bind {α β : Type} (e : Fault) (f : α → Except Fault β) :
    (Except.error e : Except Fault α).bind f = .error e := by
  simp only [Except.bind]

/-- What `tauBuildRequest` leaves in the buffer, for a payload `P` that the
`short` arguments can describe. -/
theorem tauBuildRequest_payload (cmd : Int) (buffer : List Nat) (bufferCount : Int)
    (P : List Nat) (hP0 : P ≠ []) (hN : P.length ≤ 32757)
    (hcap : 10 + (P.length : Int) ≤ toShort bufferCount)
    (hlen : 10 + P.length ≤ buffer.length) :
    tauBuildRequest cmd buffer bufferCount (some P) (P.length : Int)
      = .ok (frameOf cmd P ++ buffer.drop (10 + P.length), 10 + (P.length : Int)) := by
  obtain ⟨c4, c2, d2, cn, e2, h4, h2, h2', hn, h2'', hb⟩ := split_buffer buffer P.length hlen
  have hpos : 0 < P.length := List.length_pos.2 hP0
  generalize buffer.drop (10 + P.length) = rest at hb
  subst hb
  have hs : toShort (P.length : Int) = (P.length : Int) := toShort_of_range _ (by omega) (by omega)
  have hs2 : toShort (8 + (P.length : Int) + 2) = 10 + (P.length : Int) := by
    rw [toShort_of_range _ (by omega) (by omega)]; omega
  have hu : toUShort (P.length : Int) = P.length := toUShort_natCast _ (by omega)
  unfold tauBuildRequest
  simp only [hs, TAU_HEADER_SIZE, hs2, hu]
  rw [if_neg (by omega)]
  rw [writeBytes_at _ [] c4 _ _ 0, ok_bind]
  rotate_left
  · rfl
  · rfl
  · simp [h4]
  rw [writeU16_at _ [0x6E, toByte CAM_OK, 0x00, toByte cmd] c2 _ 4 _, ok_bind]
  rotate_left
  · rfl
  · rfl
  · exact h2
  rw [crcCcitt16_at _ (frameHead cmd P.length) _ 6, ok_bind]
  rotate_left
  · rfl
  · simp [frameHead, toUShort]
  rw [writeU16_at _ (frameHead cmd P.length) d2 _ 6 _, ok_bind]
  rotate_left
  · rfl
  · simp [frameHead]
  · exact h2'
  rw [if_pos (by omega)]
  rw [memcpy_at _ (frameHeader cmd P.length) cn _ P 8 _, ok_bind]
  rotate_left
  · rfl
  · simp [frameHeader, frameHead]
  · rfl
  · exact hn
  rw [crcCcitt16_at _ (frameHeader cmd P.length ++ P) _ _, ok_bind]
  rotate_left
  · rfl
  · simp [frameHeader, frameHead, toUShort]; omega
  rw [writeU16_at _ (frameHeader cmd P.length ++ P) e2 _ _ _, ok_bind]
  rotate_left
  · rfl
  · simp [frameHeader, frameHead]; omega
  · exact h2''
  simp [frameOf]

theorem tauBuildRequest_empty (cmd : Int) (buffer : List Nat) (bufferCount : Int)
    (data : Option (List Nat)) (hcap : 10 ≤ toShort bufferCount) (hlen : 10 ≤ buffer.length) :
    tauBuildRequest cmd buffer bufferCount data 0
      = .ok (frameOf cmd [] ++ buffer.drop 10, 10) := by
  obtain ⟨c4, c2, d2, cn, e2, h4, h2, h2', hn, h2'', hb⟩ := split_buffer buffer 0 hlen
  have hcn : cn = [] := List.length_eq_zero.1 hn
  subst hcn
  simp only [List.nil_append, Nat.add_zero] at hb
  generalize buffer.drop 10 = rest at hb
  subst hb
  have hs : toShort 0 = 0 := rfl
  have hs2 : toShort (8 + 2) = 10 := rfl
  have hs3 : toShort 10 = 10 := rfl
  have hu : toUShort 0 = 0 := rfl
  have tail : ∀ buf : List Nat, buf = frameHeader cmd 0 ++ (e2 ++ rest) →
      ((crcCcitt16 buf 8).bind fun crc =>
        (writeU16 buf 8 crc).bind fun buffer => Except.ok (buffer, toShort (8 + 2)))
      = .ok (frameOf cmd [] ++ rest, 10) := by
    intro buf hbuf
    rw [crcCcitt16_at buf (frameHeader cmd 0) _ 8 hbuf (by simp [frameHeader, frameHead, toUShort]),
      ok_bind]
    rw [writeU16_at buf (frameHeader cmd 0) e2 rest 8 _ hbuf (by simp [frameHeader, frameHead])
      h2'', ok_bind]
    simp [frameOf, hs3]
  unfold tauBuildRequest
  simp only [hs, TAU_HEADER_SIZE, hu]
  rw [if_neg (by omega)]
  rw [writeBytes_at _ [] c4 _ _ 0, ok_bind]
  rotate_left
  · rfl
  · rfl
  · simp [h4]
  rw [writeU16_at _ [0x6E, toByte CAM_OK, 0x00, toByte cmd] c2 _ 4 _, ok_bind]
  rotate_left
  · rfl
  · rfl
  · exact h2
  rw [crcCcitt16_at _ (frameHead cmd 0) _ 6, ok_bind]
  rotate_left
  · rfl
  · simp [frameHead, toUShort]
  rw [writeU16_at _ (frameHead cmd 0) d2 _ 6 _, ok_bind]
  rotate_left
  · rfl
  · simp [frameHead]
  · exact h2'
  cases data with
  | none => exact tail _ rfl
  | some src =>
    simp only
    rw [if_neg (by simp)]
    exact tail _ rfl

/-- What `tauBuildRequest` leaves in the buffer, for every payload `P` that the
`short` arguments can describe. -/
theorem tauBuildRequest_frame (cmd : Int) (buffer : List Nat) (bufferCount : Int)
    (P : List Nat) (hN : P.length ≤ 32757)
    (hcap : 10 + (P.length : Int) ≤ toShort bufferCount)
    (hlen : 10 + P.length ≤ buffer.length) :
    tauBuildRequest cmd buffer bufferCount (some P) (P.length : Int)
      = .ok (frameOf cmd P ++ buffer.drop (10 + P.length), 10 + (P.length : Int)) := by
  by_cases hP : P = []
  · subst hP
    simpa using tauBuildRequest_empty cmd buffer bufferCount (some []) (by simpa using hcap)
      (by simpa using hlen)
  · exact tauBuildRequest_payload cmd buffer bufferCount P hP hN hcap hlen

theorem readByte_cons_zero (b : Nat) (r : List Nat) : readByte (b :: r) 0 = .ok b := by
  simp [readByte]

theorem readByte_at (buf a r : List Nat) (b : Nat) (i : Int) (hb : buf = a ++ (b :: r))
    (hi : i = (a.length : Int)) : readByte buf i = .ok b := by
  subst hb hi
  unfold readByte
  rw [if_pos (by omega), Int.toNat_ofNat, List.getElem?_append_right (Nat.le_refl _)]
  simp

theorem readU16_at (buf a r : List Nat) (hi lo : Nat) (i : Int) (hb : buf = a ++ (hi :: lo :: r))
    (hidx : i = (a.length : Int)) : readU16 buf i = .ok (hi * 256 + lo) := by
  unfold readU16
  rw [readByte_at buf a (lo :: r) hi i hb hidx]
  simp only
  rw [readByte_at buf (a ++ [hi]) r lo (i + 1) (by simp [hb]) (by simp [hidx])]

/-- The checks of `tauDecodeResponse` on the eight header bytes. -/
theorem tauDecodeResponse_header (sgn : Bool) (cmd : Int) (b0 b1 b2 b3 n1 n2 h1 h2 : Nat)
    (tail : List Nat) (bufferSize : Int) (data : Option (List Nat)) (dataCount : Option Int) :
    tauDecodeResponse sgn cmd (b0 :: b1 :: b2 :: b3 :: n1 :: n2 :: h1 :: h2 :: tail)
        bufferSize data dataCount
      = if charVal sgn b0 ≠ 0x6E then .ok (CAM_COMMUNICATION_ERROR, data, dataCount)
        else if charVal sgn b1 ≠ CAM_OK then .ok (charVal sgn b1, data, dataCount)
        else if charVal sgn b3 ≠ toShort cmd then .ok (CAM_COMMUNICATION_ERROR, data, dataCount)
        else if h1 * 256 + h2 ≠ crcCcitt16Loop [b0, b1, b2, b3, n1, n2] then
          .ok (CAM_CHECKSUM_ERROR, data, dataCount)
        else tauDecodeResponseFrame (charVal sgn b1)
          (b0 :: b1 :: b2 :: b3 :: n1 :: n2 :: h1 :: h2 :: tail) data dataCount := by
  have r0 : readByte (b0 :: b1 :: b2 :: b3 :: n1 :: n2 :: h1 :: h2 :: tail) 0 = .ok b0 :=
    readByte_at _ [] _ b0 0 rfl rfl
  have r1 : readByte (b0 :: b1 :: b2 :: b3 :: n1 :: n2 :: h1 :: h2 :: tail) 1 = .ok b1 :=
    readByte_at _ [b0] _ b1 1 rfl rfl
  have r3 : readByte (b0 :: b1 :: b2 :: b3 :: n1 :: n2 :: h1 :: h2 :: tail) 3 = .ok b3 :=
    readByte_at _ [b0, b1, b2] _ b3 3 rfl rfl
  have r6 : readU16 (b0 :: b1 :: b2 :: b3 :: n1 :: n2 :: h1 :: h2 :: tail) 6
      = .ok (h1 * 256 + h2) :=
    readU16_at _ [b0, b1, b2, b3, n1, n2] tail h1 h2 6 rfl rfl
  have c6 : crcCcitt16 (b0 :: b1 :: b2 :: b3 :: n1 :: n2 :: h1 :: h2 :: tail) 6
      = .ok (crcCcitt16Loop [b0, b1, b2, b3, n1, n2]) :=
    crcCcitt16_at _ [b0, b1, b2, b3, n1, n2] (h1 :: h2 :: tail) 6 rfl rfl
  unfold tauDecodeResponse
  simp only [r0, r1, r3, r6, c6, ok_bind]

/-- The frame CRC check of `tauDecodeResponse` on a buffer that holds the whole frame
its header declares. -/
theorem tauDecodeResponseFrame_shape (status : Int) (b0 b1 b2 b3 n1 n2 h1 h2 f1 f2 : Nat)
    (Pl rest : List Nat) (data : Option (List Nat)) (dataCount : Option Int)
    (hn : n1 * 256 + n2 = Pl.length) (hN : Pl.length ≤ 32767) :
    tauDecodeResponseFrame status
        (b0 :: b1 :: b2 :: b3 :: n1 :: n2 :: h1 :: h2 :: (Pl ++ f1 :: f2 :: rest)) data dataCount
      = if f1 * 256 + f2 ≠ crcCcitt16Loop (b0 :: b1 :: b2 :: b3 :: n1 :: n2 :: h1 :: h2 :: Pl)
        then .ok (CAM_CHECKSUM_ERROR, data, dataCount)
        else tauDecodeResponseData status
          (b0 :: b1 :: b2 :: b3 :: n1 :: n2 :: h1 :: h2 :: (Pl ++ f1 :: f2 :: rest))
          (Pl.length : Int) data dataCount := by
  have hs : toShort ((n1 * 256 + n2 : Nat) : Int) = (Pl.length : Int) := by
    rw [hn]; exact toShort_of_range _ (by omega) (by omega)
  have r4 : readU16 (b0 :: b1 :: b2 :: b3 :: n1 :: n2 :: h1 :: h2 :: (Pl ++ f1 :: f2 :: rest)) 4
      = .ok (n1 * 256 + n2) :=
    readU16_at _ [b0, b1, b2, b3] _ n1 n2 4 rfl rfl
  have rf : readU16 (b0 :: b1 :: b2 :: b3 :: n1 :: n2 :: h1 :: h2 :: (Pl ++ f1 :: f2 :: rest))
      (8 + (Pl.length : Int)) = .ok (f1 * 256 + f2) :=
    readU16_at _ (b0 :: b1 :: b2 :: b3 :: n1 :: n2 :: h1 :: h2 :: Pl) rest f1 f2 _
      (by simp) (by simp; omega)
  have cf : crcCcitt16 (b0 :: b1 :: b2 :: b3 :: n1 :: n2 :: h1 :: h2 :: (Pl ++ f1 :: f2 :: rest))
      (8 + (Pl.length : Int))
      = .ok (crcCcitt16Loop (b0 :: b1 :: b2 :: b3 :: n1 :: n2 :: h1 :: h2 :: Pl)) :=
    crcCcitt16_at _ (b0 :: b1 :: b2 :: b3 :: n1 :: n2 :: h1 :: h2 :: Pl) (f1 :: f2 :: rest) _
      (by simp) (by simp [toUShort]; omega)
  unfold tauDecodeResponseFrame
  simp only [r4, ok_bind, hs, TAU_HEADER_SIZE, rf, cf]

/-! ## The decoder on well-formed frames -/

theorem be16_eq (v : Nat) (h : v < 65536) : v / 256 % 256 * 256 + v % 256 = v := by omega

theorem charVal_small (sgn : Bool) (b : Nat) (h : b < 128) : charVal sgn b = (b : Int) := by
  unfold charVal
  rw [if_neg]
  simp; omega

theorem charVal_unsigned (b : Nat) : charVal false b = (b : Int) := by
  simp [charVal]

theorem charVal_inj (sgn : Bool) (a b : Nat) (ha : a < 256) (hb : b < 256)
    (h : charVal sgn a = charVal sgn b) : a = b := by
  unfold charVal at h
  cases sgn <;> simp at h
  · exact h
  · split at h <;> split at h <;> omega

theorem charVal_cmd (sgn : Bool) (cmd : Nat) (hc : cmd < 256) (hs : sgn = false ∨ cmd < 128) :
    charVal sgn (toByte (cmd : Int)) = toShort (cmd : Int) := by
  have e1 : toByte (cmd : Int) = cmd := by unfold toByte; omega
  have e2 : toShort (cmd : Int) = (cmd : Int) := toShort_of_range _ (by omega) (by omega)
  rw [e1, e2]
  rcases hs with h | h
  · rw [h]; exact charVal_unsigned cmd
  · exact charVal_small sgn cmd h

theorem frameOf_length (cmd : Int) (P : List Nat) : (frameOf cmd P).length = 10 + P.length := by
  simp [frameOf, frameHeader, frameHead]; omega

theorem frameOf_take (cmd : Int) (P rest : List Nat) :
    (frameOf cmd P ++ rest).take (10 + P.length) = frameOf cmd P := by
  rw [← frameOf_length cmd P]; exact List.take_left' rfl

/-- The copy of the payload when the output buffer is large enough. -/
theorem tauDecodeResponseData_copy (status : Int) (H8 Pl tl out : List Nat) (C : Int)
    (hH : H8.length = 8) (hpos : 0 < Pl.length) (hC : (Pl.length : Int) ≤ toShort C)
    (hout : Pl.length ≤ out.length) :
    tauDecodeResponseData status (H8 ++ (Pl ++ tl)) (Pl.length : Int) (some out) (some C)
      = .ok (status, some (Pl ++ out.drop Pl.length), some (Pl.length : Int)) := by
  unfold tauDecodeResponseData
  simp only
  rw [if_pos (by omega), if_neg (by omega)]
  have hd : (H8 ++ (Pl ++ tl)).drop 8 = Pl ++ tl := by
    rw [← hH]; exact List.drop_left' rfl
  have hm : memcpy out 0 (Pl ++ tl) (Pl.length : Int) = .ok (Pl ++ out.drop Pl.length) := by
    unfold memcpy
    rw [if_pos (by simp)]
    unfold writeBytes
    rw [if_pos (by simp; omega)]
    simp
  rw [hd, hm, ok_bind]

/-- No copy is made when the header declares no payload. -/
theorem tauDecodeResponseData_zero (status : Int) (buf out : List Nat) (C : Int) :
    tauDecodeResponseData status buf 0 (some out) (some C) = .ok (status, some out, some 0) := by
  simp [tauDecodeResponseData]

/-- No copy is made when the caller announces a capacity of zero. -/
theorem tauDecodeResponseData_cap_zero (status : Int) (buf out : List Nat) (n : Int) :
    tauDecodeResponseData status buf n (some out) (some 0) = .ok (status, some out, some 0) := by
  simp [tauDecodeResponseData, toShort]

/-- The assertion stops the run when the announced capacity is positive and too small. -/
theorem tauDecodeResponseData_assert (status : Int) (buf out : List Nat) (n C : Int)
    (hn : n ≠ 0) (h0 : toShort C ≠ 0) (hlt : toShort C < n) :
    tauDecodeResponseData status buf n (some out) (some C) = .error .assertion := by
  unfold tauDecodeResponseData
  simp only
  rw [if_pos ⟨hn, h0⟩, if_pos (by omega)]

/-- Decoding the frame of `cmd` and `P`, whatever follows it in memory. -/
theorem tauDecodeResponse_frameOf (sgn : Bool) (cmd : Nat) (P rest : List Nat) (bufferSize : Int)
    (data : Option (List Nat)) (dataCount : Option Int)
    (hc : cmd < 256) (hs : sgn = false ∨ cmd < 128) (hN : P.length ≤ 32767) :
    tauDecodeResponse sgn (cmd : Int) (frameOf (cmd : Int) P ++ rest) bufferSize data dataCount
      = tauDecodeResponseData CAM_OK (frameOf (cmd : Int) P ++ rest) (P.length : Int)
          data dataCount := by
  have hF : frameOf (cmd : Int) P ++ rest
      = 0x6E :: 0x00 :: 0x00 :: toByte (cmd : Int) :: (P.length / 256 % 256) :: (P.length % 256)
        :: (crcCcitt16Loop (frameHead cmd P.length) / 256 % 256)
        :: (crcCcitt16Loop (frameHead cmd P.length) % 256)
        :: (P ++ (crcCcitt16Loop (frameHeader cmd P.length ++ P) / 256 % 256)
              :: (crcCcitt16Loop (frameHeader cmd P.length ++ P) % 256) :: rest) := by
    simp [frameOf, frameHeader, frameHead]
  rw [hF, tauDecodeResponse_header]
  rw [if_neg (by simp [charVal]), if_neg (by simp [charVal, CAM_OK]),
    if_neg (by rw [charVal_cmd sgn cmd hc hs]; simp),
    if_neg (by rw [be16_eq _ (crcCcitt16Loop_lt _)]; simp [frameHead]),
    tauDecodeResponseFrame_shape _ _ _ _ _ _ _ _ _ _ _ _ _ _ _ (be16_eq _ (by omega)) hN,
    if_neg (by rw [be16_eq _ (crcCcitt16Loop_lt _)]; simp [frameHeader, frameHead])]
  simp [charVal, CAM_OK]

theorem writeBytes_fault (buf bs : List Nat) (i : Int) (e : Fault)
    (h : writeBytes buf i bs = .error e) : e = .undefined := by
  unfold writeBytes at h
  split at h
  · cases h
  · cases h; rfl

theorem crcCcitt16_fault (buf : List Nat) (k : Int) (e : Fault)
    (h : crcCcitt16 buf k = .error e) : e = .undefined := by
  unfold crcCcitt16 at h
  split at h
  · cases h
  · cases h; rfl

theorem bind_undefined {α β : Type} (x : Except Fault α) (f : α → Except Fault β)
    (hx : ∀ e, x = .error e → e = .undefined) (hf : ∀ a, f a = .error .undefined) :
    x.bind f = .error .undefined := by
  cases x with
  | error e => rw [hx e rfl]; rfl
  | ok a => exact hf a

/-- A payload size that reads as a negative `short` reaches `memcpy` as a size no
object can hold. -/
theorem tauBuildRequest_negative (cmd : Int) (buffer : List Nat) (bufferCount : Int)
    (src : List Nat) (dataSize : Int) (hneg : toShort dataSize < 0)
    (hassert : toShort bufferCount ≥ 8 + toShort dataSize + 2) :
    tauBuildRequest cmd buffer bufferCount (some src) dataSize = .error .undefined := by
  unfold tauBuildRequest
  simp only [TAU_HEADER_SIZE]
  rw [if_neg (by omega)]
  apply bind_undefined _ _ (writeBytes_fault _ _ _)
  intro b1
  apply bind_undefined _ _ (writeBytes_fault _ _ _)
  intro b2
  apply bind_undefined _ _ (crcCcitt16_fault _ _)
  intro c1
  apply bind_undefined _ _ (writeBytes_fault _ _ _)
  intro b3
  rw [if_pos (by omega)]
  have hm : memcpy b3 8 src (toShort dataSize) = .error .undefined := by
    unfold memcpy
    rw [if_neg (by omega)]
  rw [hm]
  rfl

theorem cons_of_length_succ (l : List Nat) (n : Nat) (h : l.length = n + 1) :
    ∃ a t, l = a :: t ∧ t.length = n := by
  cases l with
  | nil => simp at h
  | cons a t => exact ⟨a, t, rfl, by simpa using h⟩

/-- A buffer of `10 + N` bytes seen as header bytes, `N` payload bytes and two CRC bytes. -/
theorem list_shape (buffer : List Nat) (N : Nat) (hlen : buffer.length = 10 + N) :
    ∃ b0 b1 b2 b3 n1 n2 h1 h2 f1 f2 : Nat, ∃ Pl : List Nat,
      buffer = b0 :: b1 :: b2 :: b3 :: n1 :: n2 :: h1 :: h2 :: (Pl ++ [f1, f2])
      ∧ Pl.length = N := by
  obtain ⟨b0, t0, rfl, l0⟩ := cons_of_length_succ buffer (N + 9) (by omega)
  obtain ⟨b1, t1, rfl, l1⟩ := cons_of_length_succ t0 (N + 8) (by omega)
  obtain ⟨b2, t2, rfl, l2⟩ := cons_of_length_succ t1 (N + 7) (by omega)
  obtain ⟨b3, t3, rfl, l3⟩ := cons_of_length_succ t2 (N + 6) (by omega)
  obtain ⟨n1, t4, rfl, l4⟩ := cons_of_length_succ t3 (N + 5) (by omega)
  obtain ⟨n2, t5, rfl, l5⟩ := cons_of_length_succ t4 (N + 4) (by omega)
  obtain ⟨h1, t6, rfl, l6⟩ := cons_of_length_succ t5 (N + 3) (by omega)
  obtain ⟨h2, tail, rfl, l7⟩ := cons_of_length_succ t6 (N + 2) (by omega)
  have hd : (tail.drop N).length = 1 + 1 := by simp [l7]
  obtain ⟨f1, u1, e1, m1⟩ := cons_of_length_succ _ 1 hd
  obtain ⟨f2, u2, e2, m2⟩ := cons_of_length_succ u1 0 m1
  have hu : u2 = [] := List.length_eq_zero.1 m2
  subst hu e2
  refine ⟨b0, b1, b2, b3, n1, n2, h1, h2, f1, f2, tail.take N, ?_, ?_⟩
  · rw [← e1, List.take_append_drop]
  · simp [l7]

/-- The payload copy returns the status it was given whenever the output buffer is absent
or large enough. -/
theorem tauDecodeResponseData_ok (status : Int) (H8 Pl tl : List Nat)
    (data : Option (List Nat)) (dataCount : Option Int) (hH : H8.length = 8)
    (hout : data = none ∨ ∃ dst C, data = some dst ∧ dataCount = some C
      ∧ (Pl.length : Int) ≤ toShort C ∧ Pl.length ≤ dst.length) :
    ∃ d c, tauDecodeResponseData status (H8 ++ (Pl ++ tl)) (Pl.length : Int) data dataCount
      = .ok (status, d, c) := by
  rcases hout with h | ⟨dst, C, h1, h2, h3, h4⟩
  · subst h
    cases dataCount with
    | none => exact ⟨none, none, rfl⟩
    | some c => refine ⟨none, some 0, ?_⟩; simp [tauDecodeResponseData]
  · subst h1 h2
    by_cases hP : Pl = []
    · subst hP
      exact ⟨some dst, some 0, by simpa using tauDecodeResponseData_zero status _ dst C⟩
    · exact ⟨_, _, tauDecodeResponseData_copy status H8 Pl tl dst C hH (List.length_pos.2 hP) h3 h4⟩

/-! ## The decoder on frames with one changed byte -/

theorem charVal_6E (sgn : Bool) : charVal sgn 0x6E = 0x6E := charVal_small sgn 0x6E (by decide)

theorem charVal_zero (sgn : Bool) : charVal sgn 0 = 0 := charVal_small sgn 0 (by decide)

theorem charVal_ne (sgn : Bool) (a b : Nat) (ha : a < 256) (hb : b < 256) (h : a ≠ b) :
    charVal sgn a ≠ charVal sgn b := fun e => h (charVal_inj sgn a b ha hb e)

theorem set_eq_take_cons_drop' (l : List Nat) (i v : Nat) (hi : i < l.length) :
    l.set i v = l.take i ++ v :: l.drop (i + 1) ∧ l = l.take i ++ l[i] :: l.drop (i + 1) := by
  constructor
  · exact List.set_eq_take_cons_drop v hi
  · rw [← List.drop_eq_getElem_cons hi, List.take_append_drop]

/-- Changing one payload byte changes the CRC of header and payload. -/
theorem crc_payload_tamper (H P : List Nat) (i v : Nat) (hH : ∀ x ∈ H, x < 256)
    (hP : ∀ x ∈ P, x < 256) (hi : i < P.length) (hv : v < 256) (hne : P[i]? ≠ some v) :
    crcCcitt16Loop (H ++ P) ≠ crcCcitt16Loop (H ++ P.set i v) := by
  obtain ⟨e1, e2⟩ := set_eq_take_cons_drop' P i v hi
  have hb : P[i] ≠ v := by
    intro h; apply hne; rw [List.getElem?_eq_getElem hi, h]
  rw [e1]
  conv_lhs => rw [e2]
  rw [← List.append_assoc, ← List.append_assoc]
  apply crcCcitt16Loop_single_byte
  · intro x hx
    rcases List.mem_append.1 hx with h | h
    · exact hH x h
    · exact hP x (List.mem_of_mem_take h)
  · intro x hx; exact hP x (List.mem_of_mem_drop hx)
  · exact hP _ (List.getElem_mem _)
  · exact hv
  · exact hb

/-- The decode checks that precede the header CRC, on a header whose first, second and
fourth bytes are those of a request for `cmd`. -/
theorem tauDecodeResponse_intact (sgn : Bool) (cmd b2 n1 n2 h1 h2 : Nat) (tail : List Nat)
    (bufferSize : Int) (data : Option (List Nat)) (dataCount : Option Int)
    (hc : cmd < 256) (hs : sgn = false ∨ cmd < 128) :
    tauDecodeResponse sgn (cmd : Int) (0x6E :: 0 :: b2 :: cmd :: n1 :: n2 :: h1 :: h2 :: tail)
        bufferSize data dataCount
      = if h1 * 256 + h2 ≠ crcCcitt16Loop [0x6E, 0, b2, cmd, n1, n2] then
          .ok (CAM_CHECKSUM_ERROR, data, dataCount)
        else tauDecodeResponseFrame CAM_OK
          (0x6E :: 0 :: b2 :: cmd :: n1 :: n2 :: h1 :: h2 :: tail) data dataCount := by
  have e1 : toByte (cmd : Int) = cmd := by unfold toByte; omega
  have hcv := charVal_cmd sgn cmd hc hs
  rw [e1] at hcv
  rw [tauDecodeResponse_header, if_neg (by rw [charVal_6E]; simp),
    if_neg (by rw [charVal_zero]; simp [CAM_OK]), if_neg (by rw [hcv]; simp), charVal_zero]
  rfl

theorem be16_ne_hi (a b lo : Nat) (h : a ≠ b) : a * 256 + lo ≠ b * 256 + lo := by omega

theorem be16_ne_lo (hi a b : Nat) (h : a ≠ b) : hi * 256 + a ≠ hi * 256 + b := by omega

/-- Decoding a frame in which one byte was replaced by a different value, where the
command byte of the frame is read as the expected command. -/
theorem tamper_status_plain (sgn : Bool) (cmd : Nat) (P : List Nat) (i v : Nat) (bufferSize : Int)
    (data : Option (List Nat)) (dataCount : Option Int)
    (hc : cmd < 256) (hs : sgn = false ∨ cmd < 128) (hP : ∀ x ∈ P, x < 256)
    (hN : P.length ≤ 32767) (hi : i < 10 + P.length) (hv : v < 256)
    (hne : (frameOf (cmd : Int) P)[i]? ≠ some v) :
    ∃ st, tauDecodeResponse sgn (cmd : Int) ((frameOf (cmd : Int) P).set i v) bufferSize
          data dataCount = .ok (st, data, dataCount)
      ∧ st ≠ CAM_OK
      ∧ (i ≠ 1 → st = CAM_CHECKSUM_ERROR ∨ st = CAM_COMMUNICATION_ERROR)
      ∧ (i = 1 → st = charVal sgn v) := by
  have e1 : toByte (cmd : Int) = cmd := by unfold toByte; omega
  have hcv := charVal_cmd sgn cmd hc hs
  rw [e1] at hcv
  obtain ⟨n1, hn1⟩ : ∃ n1, n1 = P.length / 256 % 256 := ⟨_, rfl⟩
  obtain ⟨n2, hn2⟩ : ∃ n2, n2 = P.length % 256 := ⟨_, rfl⟩
  obtain ⟨h, hh⟩ : ∃ h, h = crcCcitt16Loop [0x6E, 0, 0, cmd, n1, n2] := ⟨_, rfl⟩
  obtain ⟨h1, hh1⟩ : ∃ h1, h1 = h / 256 % 256 := ⟨_, rfl⟩
  obtain ⟨h2, hh2⟩ : ∃ h2, h2 = h % 256 := ⟨_, rfl⟩
  obtain ⟨f, hf⟩ : ∃ f, f = crcCcitt16Loop (0x6E :: 0 :: 0 :: cmd :: n1 :: n2 :: h1 :: h2 :: P) :=
    ⟨_, rfl⟩
  obtain ⟨f1, hf1⟩ : ∃ f1, f1 = f / 256 % 256 := ⟨_, rfl⟩
  obtain ⟨f2, hf2⟩ : ∃ f2, f2 = f % 256 := ⟨_, rfl⟩
  have hF : frameOf (cmd : Int) P
      = 0x6E :: 0 :: 0 :: cmd :: n1 :: n2 :: h1 :: h2 :: (P ++ [f1, f2]) := by
    subst hn1 hn2 hh hh1 hh2 hf hf1 hf2
    simp [frameOf, frameHeader, frameHead, e1]
  have hhlt : h < 65536 := by rw [hh]; exact crcCcitt16Loop_lt _
  have hflt : f < 65536 := by rw [hf]; exact crcCcitt16Loop_lt _
  have hhv : h1 * 256 + h2 = h := by rw [hh1, hh2]; exact be16_eq h hhlt
  have hfv : f1 * 256 + f2 = f := by rw [hf1, hf2]; exact be16_eq f hflt
  have hnv : n1 * 256 + n2 = P.length := by rw [hn1, hn2]; exact be16_eq _ (by omega)
  have b1 : n1 < 256 := by omega
  have b2 : n2 < 256 := by omega
  have b3 : h1 < 256 := by omega
  have b4 : h2 < 256 := by omega
  have b5 : f1 < 256 := by omega
  have b6 : f2 < 256 := by omega
  have hH8 : ∀ x ∈ [0x6E, 0, 0, cmd, n1, n2, h1, h2], x < 256 := by
    intro x hx
    simp only [List.mem_cons, List.mem_singleton, List.not_mem_nil, or_false] at hx
    rcases hx with rfl | rfl | rfl | rfl | rfl | rfl | rfl | rfl <;> omega
  rw [hF] at hne ⊢
  rcases (by omega : i = 0 ∨ i = 1 ∨ i = 2 ∨ i = 3 ∨ i = 4 ∨ i = 5 ∨ i = 6 ∨ i = 7 ∨ 8 ≤ i) with
    rfl | rfl | rfl | rfl | rfl | rfl | rfl | rfl | h8
  · -- process code
    have hv0 : (0x6E : Nat) ≠ v := by simpa using hne
    have hs0 : (0x6E :: 0 :: 0 :: cmd :: n1 :: n2 :: h1 :: h2 :: (P ++ [f1, f2])).set 0 v
        = v :: 0 :: 0 :: cmd :: n1 :: n2 :: h1 :: h2 :: (P ++ [f1, f2]) := rfl
    rw [hs0, tauDecodeResponse_header,
      if_pos (by rw [← charVal_6E sgn]; exact charVal_ne sgn _ _ hv (by decide) (Ne.symm hv0))]
    exact ⟨_, rfl, by decide, fun _ => Or.inr rfl, fun h => absurd h (by decide)⟩
  · -- status
    have hv0 : (0 : Nat) ≠ v := by simpa using hne
    have hs0 : (0x6E :: 0 :: 0 :: cmd :: n1 :: n2 :: h1 :: h2 :: (P ++ [f1, f2])).set 1 v
        = 0x6E :: v :: 0 :: cmd :: n1 :: n2 :: h1 :: h2 :: (P ++ [f1, f2]) := rfl
    have hst : charVal sgn v ≠ CAM_OK := by
      have := charVal_ne sgn v 0 hv (by decide) (Ne.symm hv0)
      rw [charVal_zero] at this
      exact this
    rw [hs0, tauDecodeResponse_header, if_neg (by rw [charVal_6E]; simp), if_pos hst]
    exact ⟨_, rfl, hst, fun h => absurd rfl h, fun _ => rfl⟩
  · -- reserved byte
    have hv0 : (0 : Nat) ≠ v := by simpa using hne
    have hs0 : (0x6E :: 0 :: 0 :: cmd :: n1 :: n2 :: h1 :: h2 :: (P ++ [f1, f2])).set 2 v
        = 0x6E :: 0 :: v :: cmd :: n1 :: n2 :: h1 :: h2 :: (P ++ [f1, f2]) := rfl
    have hcrc := crcCcitt16Loop_single_byte [0x6E, 0] [cmd, n1, n2] 0 v
      (by intro x hx; simp at hx; omega) (by intro x hx; simp at hx; omega) (by decide) hv hv0
    rw [hs0, tauDecodeResponse_intact sgn cmd _ _ _ _ _ _ _ _ _ hc hs,
      if_pos (by rw [hhv, hh]; exact hcrc)]
    exact ⟨_, rfl, by decide, fun _ => Or.inl rfl, fun h => absurd h (by decide)⟩
  · -- function code
    have hv0 : cmd ≠ v := by simpa using hne
    have hs0 : (0x6E :: 0 :: 0 :: cmd :: n1 :: n2 :: h1 :: h2 :: (P ++ [f1, f2])).set 3 v
        = 0x6E :: 0 :: 0 :: v :: n1 :: n2 :: h1 :: h2 :: (P ++ [f1, f2]) := rfl
    rw [hs0, tauDecodeResponse_header, if_neg (by rw [charVal_6E]; simp),
      if_neg (by rw [charVal_zero]; simp [CAM_OK]),
      if_pos (by rw [← hcv]; exact charVal_ne sgn _ _ hv hc (Ne.symm hv0))]
    exact ⟨_, rfl, by decide, fun _ => Or.inr rfl, fun h => absurd h (by decide)⟩
  · -- length, high byte
    have hv0 : n1 ≠ v := by simpa using hne
    have hs0 : (0x6E :: 0 :: 0 :: cmd :: n1 :: n2 :: h1 :: h2 :: (P ++ [f1, f2])).set 4 v
        = 0x6E :: 0 :: 0 :: cmd :: v :: n2 :: h1 :: h2 :: (P ++ [f1, f2]) := rfl
    have hcrc := crcCcitt16Loop_single_byte [0x6E, 0, 0, cmd] [n2] n1 v
      (by intro x hx; simp at hx; omega) (by intro x hx; simp at hx; omega) b1 hv hv0
    rw [hs0, tauDecodeResponse_intact sgn cmd _ _ _ _ _ _ _ _ _ hc hs,
      if_pos (by rw [hhv, hh]; exact hcrc)]
    exact ⟨_, rfl, by decide, fun _ => Or.inl rfl, fun h => absurd h (by decide)⟩
  · -- length, low byte
    have hv0 : n2 ≠ v := by simpa using hne
    have hs0 : (0x6E :: 0 :: 0 :: cmd :: n1 :: n2 :: h1 :: h2 :: (P ++ [f1, f2])).set 5 v
        = 0x6E :: 0 :: 0 :: cmd :: n1 :: v :: h1 :: h2 :: (P ++ [f1, f2]) := rfl
    have hcrc := crcCcitt16Loop_single_byte [0x6E, 0, 0, cmd, n1] [] n2 v
      (by intro x hx; simp at hx; omega) (by intro x hx; simp at hx) b2 hv hv0
    rw [hs0, tauDecodeResponse_intact sgn cmd _ _ _ _ _ _ _ _ _ hc hs,
      if_pos (by rw [hhv, hh]; exact hcrc)]
    exact ⟨_, rfl, by decide, fun _ => Or.inl rfl, fun h => absurd h (by decide)⟩
  · -- header CRC, high byte
    have hv0 : h1 ≠ v := by simpa using hne
    have hs0 : (0x6E :: 0 :: 0 :: cmd :: n1 :: n2 :: h1 :: h2 :: (P ++ [f1, f2])).set 6 v
        = 0x6E :: 0 :: 0 :: cmd :: n1 :: n2 :: v :: h2 :: (P ++ [f1, f2]) := rfl
    rw [hs0, tauDecodeResponse_intact sgn cmd _ _ _ _ _ _ _ _ _ hc hs,
      if_pos (by rw [← hh, ← hhv]; exact be16_ne_hi _ _ _ (Ne.symm hv0))]
    exact ⟨_, rfl, by decide, fun _ => Or.inl rfl, fun h => absurd h (by decide)⟩
  · -- header CRC, low byte
    have hv0 : h2 ≠ v := by simpa using hne
    have hs0 : (0x6E :: 0 :: 0 :: cmd :: n1 :: n2 :: h1 :: h2 :: (P ++ [f1, f2])).set 7 v
        = 0x6E :: 0 :: 0 :: cmd :: n1 :: n2 :: h1 :: v :: (P ++ [f1, f2]) := rfl
    rw [hs0, tauDecodeResponse_intact sgn cmd _ _ _ _ _ _ _ _ _ hc hs,
      if_pos (by rw [← hh, ← hhv]; exact be16_ne_lo _ _ _ (Ne.symm hv0))]
    exact ⟨_, rfl, by decide, fun _ => Or.inl rfl, fun h => absurd h (by decide)⟩
  · -- payload and frame CRC
    obtain ⟨j, rfl⟩ : ∃ j, i = j + 8 := ⟨i - 8, by omega⟩
    have hs0 : (0x6E :: 0 :: 0 :: cmd :: n1 :: n2 :: h1 :: h2 :: (P ++ [f1, f2])).set (j + 8) v
        = 0x6E :: 0 :: 0 :: cmd :: n1 :: n2 :: h1 :: h2 :: ((P ++ [f1, f2]).set j v) := rfl
    have hne' : (P ++ [f1, f2])[j]? ≠ some v := by simpa using hne
    rw [hs0, tauDecodeResponse_intact sgn cmd _ _ _ _ _ _ _ _ _ hc hs,
      if_neg (by rw [hhv, hh]; simp)]
    rcases (by omega : j < P.length ∨ j = P.length ∨ j = P.length + 1) with hj | hj | hj
    · have hne2 : P[j]? ≠ some v := by
        rw [List.getElem?_append_left hj] at hne'; exact hne'
      rw [List.set_append_left j v hj,
        tauDecodeResponseFrame_shape _ _ _ _ _ _ _ _ _ _ _ _ _ _ _
          (by rw [List.length_set]; exact hnv) (by rw [List.length_set]; exact hN),
        if_pos (by
          rw [hfv, hf]
          exact crc_payload_tamper [0x6E, 0, 0, cmd, n1, n2, h1, h2] P j v hH8 hP hj hv hne2)]
      exact ⟨_, rfl, by decide, fun _ => Or.inl rfl, fun h => absurd h (by omega)⟩
    · subst hj
      have hv0 : f1 ≠ v := by
        intro e; apply hne'; rw [List.getElem?_append_right (Nat.le_refl _)]; simp [e]
      have hs1 : (P ++ [f1, f2]).set P.length v = P ++ [v, f2] := by
        rw [List.set_append_right _ _ (Nat.le_refl _)]; simp
      rw [hs1, tauDecodeResponseFrame_shape _ _ _ _ _ _ _ _ _ _ _ _ _ _ _ hnv hN,
        if_pos (by rw [← hf, ← hfv]; exact be16_ne_hi _ _ _ (Ne.symm hv0))]
      exact ⟨_, rfl, by decide, fun _ => Or.inl rfl, fun h => absurd h (by omega)⟩
    · subst hj
      have hv0 : f2 ≠ v := by
        intro e; apply hne'; rw [List.getElem?_append_right (by omega)]; simp [e]
      have hs1 : (P ++ [f1, f2]).set (P.length + 1) v = P ++ [f1, v] := by
        rw [List.set_append_right _ _ (by omega)]; simp
      rw [hs1, tauDecodeResponseFrame_shape _ _ _ _ _ _ _ _ _ _ _ _ _ _ _ hnv hN,
        if_pos (by rw [← hf, ← hfv]; exact be16_ne_lo _ _ _ (Ne.symm hv0))]
      exact ⟨_, rfl, by decide, fun _ => Or.inl rfl, fun h => absurd h (by omega)⟩

/-! ## The decoder: the checks do not depend on the output arguments -/

theorem mask_charVal (sgn : Bool) (b : Nat) (hb : b < 256) :
    0x00ff &&& toUShort (charVal sgn b) = b := by
  rw [and_ff]
  unfold toUShort charVal
  split <;> omega

theorem except_cases {α : Type} (x : Except Fault α) :
    (∃ e, x = .error e) ∨ (∃ a, x = .ok a) := by
  cases x with
  | error e => exact Or.inl ⟨e, rfl⟩
  | ok a => exact Or.inr ⟨a, rfl⟩

/-- The checks of `tauDecodeResponse` do not look at the output arguments: either they
return early with one status, or they stop in one fault, or they all pass and the payload
copy is reached with the declared length. -/
theorem tauDecodeResponse_split (sgn : Bool) (cmd : Int) (buffer : List Nat) (bufferSize : Int) :
    (∃ st, st ≠ CAM_OK ∧ ∀ d c, tauDecodeResponse sgn cmd buffer bufferSize d c = .ok (st, d, c))
    ∨ (∃ e, ∀ d c, tauDecodeResponse sgn cmd buffer bufferSize d c = .error e)
    ∨ (∃ n x, readU16 buffer 4 = .ok n
        ∧ crcCcitt16 buffer (8 + toShort (n : Int)) = .ok x
        ∧ ∀ d c, tauDecodeResponse sgn cmd buffer bufferSize d c
            = tauDecodeResponseData CAM_OK buffer (toShort (n : Int)) d c) := by
  have ne1 : CAM_COMMUNICATION_ERROR ≠ CAM_OK := by decide
  have ne2 : CAM_CHECKSUM_ERROR ≠ CAM_OK := by decide
  rcases except_cases (readByte buffer 0) with ⟨e, hr0⟩ | ⟨b0, hr0⟩
  · exact Or.inr (Or.inl ⟨e, fun d c => by unfold tauDecodeResponse; simp only [hr0, error_bind]⟩)
  by_cases h0 : charVal sgn b0 ≠ 0x6E
  · exact Or.inl ⟨CAM_COMMUNICATION_ERROR, ne1, fun d c => by
      unfold tauDecodeResponse; simp only [hr0, ok_bind, if_pos h0]⟩
  rcases except_cases (readByte buffer 1) with ⟨e, hr1⟩ | ⟨b1, hr1⟩
  · exact Or.inr (Or.inl ⟨e, fun d c => by
      unfold tauDecodeResponse; simp only [hr0, ok_bind, if_neg h0, hr1, error_bind]⟩)
  by_cases h1 : charVal sgn b1 ≠ CAM_OK
  · exact Or.inl ⟨charVal sgn b1, h1, fun d c => by
      unfold tauDecodeResponse; simp only [hr0, ok_bind, if_neg h0, hr1, if_pos h1]⟩
  have hst : charVal sgn b1 = CAM_OK := not_not.1 h1
  rcases except_cases (readByte buffer 3) with ⟨e, hr3⟩ | ⟨b3, hr3⟩
  · exact Or.inr (Or.inl ⟨e, fun d c => by
      unfold tauDecodeResponse
      simp only [hr0, ok_bind, if_neg h0, hr1, if_neg h1, hr3, error_bind]⟩)
  by_cases h3 : charVal sgn b3 ≠ toShort cmd
  · exact Or.inl ⟨CAM_COMMUNICATION_ERROR, ne1, fun d c => by
      unfold tauDecodeResponse
      simp only [hr0, ok_bind, if_neg h0, hr1, if_neg h1, hr3, if_pos h3]⟩
  rcases except_cases (readU16 buffer 6) with ⟨e, hr6⟩ | ⟨hcrc, hr6⟩
  · exact Or.inr (Or.inl ⟨e, fun d c => by
      unfold tauDecodeResponse
      simp only [hr0, ok_bind, if_neg h0, hr1, if_neg h1, hr3, if_neg h3, hr6, error_bind]⟩)
  rcases except_cases (crcCcitt16 buffer 6) with ⟨e, hc6⟩ | ⟨crc, hc6⟩
  · exact Or.inr (Or.inl ⟨e, fun d c => by
      unfold tauDecodeResponse
      simp only [hr0, ok_bind, if_neg h0, hr1, if_neg h1, hr3, if_neg h3, hr6, hc6,
        error_bind]⟩)
  by_cases h6 : hcrc ≠ crc
  · exact Or.inl ⟨CAM_CHECKSUM_ERROR, ne2, fun d c => by
      unfold tauDecodeResponse
      simp only [hr0, ok_bind, if_neg h0, hr1, if_neg h1, hr3, if_neg h3, hr6, hc6,
        if_pos h6]⟩
  have hd : ∀ d c, tauDecodeResponse sgn cmd buffer bufferSize d c
      = tauDecodeResponseFrame CAM_OK buffer d c := fun d c => by
    unfold tauDecodeResponse
    simp only [hr0, ok_bind, if_neg h0, hr1, if_neg h1, hr3, if_neg h3, hr6, hc6, if_neg h6]
    rw [hst]
  rcases except_cases (readU16 buffer 4) with ⟨e, hr4⟩ | ⟨n, hr4⟩
  · exact Or.inr (Or.inl ⟨e, fun d c => by
      rw [hd]; unfold tauDecodeResponseFrame; simp only [hr4, error_bind]⟩)
  rcases except_cases (readU16 buffer (8 + toShort (n : Int))) with ⟨e, hrf⟩ | ⟨fcrc, hrf⟩
  · exact Or.inr (Or.inl ⟨e, fun d c => by
      rw [hd]; unfold tauDecodeResponseFrame
      simp only [hr4, ok_bind, TAU_HEADER_SIZE, hrf, error_bind]⟩)
  rcases except_cases (crcCcitt16 buffer (8 + toShort (n : Int))) with ⟨e, hcf⟩ | ⟨crc2, hcf⟩
  · exact Or.inr (Or.inl ⟨e, fun d c => by
      rw [hd]; unfold tauDecodeResponseFrame
      simp only [hr4, ok_bind, TAU_HEADER_SIZE, hrf, hcf, error_bind]⟩)
  by_cases hf : fcrc ≠ crc2
  · exact Or.inl ⟨CAM_CHECKSUM_ERROR, ne2, fun d c => by
      rw [hd]; unfold tauDecodeResponseFrame
      simp only [hr4, ok_bind, TAU_HEADER_SIZE, hrf, hcf, if_pos hf]⟩
  exact Or.inr (Or.inr ⟨n, crc2, hr4, hcf, fun d c => by
    rw [hd]; unfold tauDecodeResponseFrame
    simp only [hr4, ok_bind, TAU_HEADER_SIZE, hrf, hcf, if_neg hf]⟩)

/-- A buffer that is decoded with `CAM_OK` when no output buffer is passed reaches the
payload copy for every output buffer. -/
theorem tauDecodeResponse_pass (sgn : Bool) (cmd : Int) (buffer : List Nat) (bufferSize : Int)
    (N : Nat)
    (hpass : tauDecodeResponse sgn cmd buffer bufferSize none none = .ok (CAM_OK, none, none))
    (hN : readU16 buffer 4 = .ok N) (hN' : N ≤ 32767) :
    8 + N ≤ buffer.length ∧ ∀ d c, tauDecodeResponse sgn cmd buffer bufferSize d c
      = tauDecodeResponseData CAM_OK buffer (N : Int) d c := by
  rcases tauDecodeResponse_split sgn cmd buffer bufferSize with
    ⟨st, hst, h⟩ | ⟨e, h⟩ | ⟨n, x, hn, hx, h⟩
  · rw [h none none] at hpass
    exact absurd (congrArg Prod.fst (Except.ok.inj hpass)) hst
  · rw [h none none] at hpass; cases hpass
  · rw [hN] at hn
    have hnN : n = N := (Except.ok.inj hn).symm
    subst hnN
    have hs : toShort (n : Int) = (n : Int) := toShort_of_range _ (by omega) (by omega)
    rw [hs] at h hx
    refine ⟨?_, h⟩
    unfold crcCcitt16 at hx
    split at hx
    · rename_i hle
      have : toUShort (8 + (n : Int)) = 8 + n := by unfold toUShort; omega
      omega
    · cases hx

/-- The copy of the payload, in terms of the bytes of the buffer. -/
theorem tauDecodeResponseData_copy_bytes (status : Int) (buffer out : List Nat) (N : Nat)
    (C : Int) (hlen : 8 + N ≤ buffer.length) (hpos : 0 < N) (hC : (N : Int) ≤ toShort C)
    (hout : N ≤ out.length) :
    tauDecodeResponseData status buffer (N : Int) (some out) (some C)
      = .ok (status, some ((buffer.drop 8).take N ++ out.drop N), some (N : Int)) := by
  have hP : ((buffer.drop 8).take N).length = N := by simp; omega
  have hb : buffer = buffer.take 8 ++ ((buffer.drop 8).take N ++ (buffer.drop 8).drop N) := by
    rw [List.take_append_drop, List.take_append_drop]
  have h := tauDecodeResponseData_copy status (buffer.take 8) ((buffer.drop 8).take N)
    ((buffer.drop 8).drop N) out C (by simp; omega) (by omega) (by omega) (by omega)
  rw [← hb, hP] at h
  exact h

theorem readByte_of_getElem (buffer : List Nat) (k b : Nat) (h : buffer[k]? = some b) :
    readByte buffer (k : Int) = .ok b := by
  unfold readByte
  rw [if_pos (by omega), Int.toNat_ofNat, h]

/-- The payload copy hands back the status it was given. -/
theorem tauDecodeResponseData_status (status : Int) (buffer : List Nat) (n : Int)
    (d : Option (List Nat)) (c : Option Int) (r : Int × Option (List Nat) × Option Int)
    (h : tauDecodeResponseData status buffer n d c = .ok r) : r.1 = status := by
  unfold tauDecodeResponseData at h
  rcases d with _ | dst <;> rcases c with _ | cnt <;> simp only at h
  · exact (congrArg Prod.fst (Except.ok.inj h)).symm
  · split at h <;> exact (congrArg Prod.fst (Except.ok.inj h)).symm
  · split at h
    · cases h
    · exact (congrArg Prod.fst (Except.ok.inj h)).symm
  · split at h
    · split at h
      · cases h
      · rcases except_cases (memcpy dst 0 (List.drop 8 buffer) n) with ⟨e, he⟩ | ⟨a, ha⟩
        · rw [he, error_bind] at h; cases h
        · rw [ha, ok_bind] at h; exact (congrArg Prod.fst (Except.ok.inj h)).symm
    · split at h <;> exact (congrArg Prod.fst (Except.ok.inj h)).symm

/-- The frame CRC check and the payload copy return `CAM_CHECKSUM_ERROR` or the status
they were given. -/
theorem tauDecodeResponseFrame_status (status : Int) (buffer : List Nat)
    (d : Option (List Nat)) (c : Option Int) (r : Int × Option (List Nat) × Option Int)
    (h : tauDecodeResponseFrame status buffer d c = .ok r) :
    r.1 = CAM_CHECKSUM_ERROR ∨ r.1 = status := by
  unfold tauDecodeResponseFrame at h
  rcases except_cases (readU16 buffer 4) with ⟨e, h4⟩ | ⟨n, h4⟩
  · rw [h4, error_bind] at h; cases h
  rw [h4, ok_bind] at h
  simp only at h
  rcases except_cases (readU16 buffer (TAU_HEADER_SIZE + toShort (n : Int))) with
    ⟨e, hf⟩ | ⟨fcrc, hf⟩
  · rw [hf, error_bind] at h; cases h
  rw [hf, ok_bind] at h
  rcases except_cases (crcCcitt16 buffer (TAU_HEADER_SIZE + toShort (n : Int))) with
    ⟨e, hc⟩ | ⟨crc, hc⟩
  · rw [hc, error_bind] at h; cases h
  rw [hc, ok_bind] at h
  split at h
  · exact Or.inl (congrArg Prod.fst (Except.ok.inj h)).symm
  · exact Or.inr (tauDecodeResponseData_status _ _ _ _ _ _ h)

theorem readU16_negative (buf : List Nat) (i : Int) (h : i < 0) :
    readU16 buf i = .error .undefined := by
  unfold readU16 readByte
  rw [if_neg (by omega)]

/-- From the register 0x0000, zero bytes leave the register at 0x0000. -/
theorem crcCcitt16Loop_zeros (n : Nat) :
    (List.replicate n 0).foldl updateCrcCcitt16 0 = 0 := by
  induction n with
  | zero => rfl
  | succ n ih =>
    rw [List.replicate_succ, List.foldl_cons]
    have h0 : updateCrcCcitt16 0 0 = 0 := rfl
    rw [h0, ih]

/-- The CRC of a GetRevision header that declares 65534 bytes, followed by zero bytes. -/
theorem crc_header_FFFE_zeros (n : Nat) (tl : List Nat) :
    crcCcitt16Loop ((0x6E :: 0x00 :: 0x00 :: 0x05 :: 0xFF :: 0xFE :: 0x39 :: 0x65
        :: (List.replicate n 0 ++ tl)).take (8 + n)) = 0x0000 := by
  have ht : (0x6E :: 0x00 :: 0x00 :: 0x05 :: 0xFF :: 0xFE :: 0x39 :: 0x65
        :: (List.replicate n 0 ++ tl)).take (8 + n)
        = [0x6E, 0x00, 0x00, 0x05, 0xFF, 0xFE, 0x39, 0x65] ++ List.replicate n 0 := by
    have h := @List.take_left' Nat ([0x6E, 0x00, 0x00, 0x05, 0xFF, 0xFE, 0x39, 0x65]
      ++ List.replicate n 0) tl (8 + n) (by simp; omega)
    simpa using h
  have h8 : List.foldl updateCrcCcitt16 0 [0x6E, 0x00, 0x00, 0x05, 0xFF, 0xFE, 0x39, 0x65] = 0 :=
    rfl
  rw [ht]
  unfold crcCcitt16Loop
  rw [List.foldl_append, h8]
  exact crcCcitt16Loop_zeros n

/-- The two bytes stored after `n` payload bytes. -/
theorem readU16_trailer (b0 b1 b2 b3 n1 n2 h1 h2 t1 t2 : Nat) (Pl : List Nat) :
    readU16 (b0 :: b1 :: b2 :: b3 :: n1 :: n2 :: h1 :: h2 :: (Pl ++ [t1, t2]))
      (8 + (Pl.length : Int)) = .ok (t1 * 256 + t2) :=
  readU16_at _ (b0 :: b1 :: b2 :: b3 :: n1 :: n2 :: h1 :: h2 :: Pl) [] t1 t2 _
    (by simp) (by simp; omega)

/-- A header that declares 65534 bytes: `data_len` is -2 and the frame CRC check repeats
the header CRC check, whatever follows the header. -/
theorem tauDecodeResponse_len_FFFE (tl : List Nat) (bufferSize : Int) :
    tauDecodeResponse false GET_REVISION
        (0x6E :: 0x00 :: 0x00 :: 0x05 :: 0xFF :: 0xFE :: 0x39 :: 0x65 :: tl) bufferSize none none
      = .ok (CAM_OK, none, none) := by
  rw [tauDecodeResponse_header]
  rw [if_neg (by decide), if_neg (by decide), if_neg (by decide), if_neg (by decide)]
  have r4 : readU16 (0x6E :: 0x00 :: 0x00 :: 0x05 :: 0xFF :: 0xFE :: 0x39 :: 0x65 :: tl) 4
      = .ok (0xFF * 256 + 0xFE) :=
    readU16_at _ [0x6E, 0x00, 0x00, 0x05] _ 0xFF 0xFE 4 rfl rfl
  have r6 : readU16 (0x6E :: 0x00 :: 0x00 :: 0x05 :: 0xFF :: 0xFE :: 0x39 :: 0x65 :: tl) 6
      = .ok (0x39 * 256 + 0x65) :=
    readU16_at _ [0x6E, 0x00, 0x00, 0x05, 0xFF, 0xFE] _ 0x39 0x65 6 rfl rfl
  have c6 : crcCcitt16 (0x6E :: 0x00 :: 0x00 :: 0x05 :: 0xFF :: 0xFE :: 0x39 :: 0x65 :: tl) 6
      = .ok (crcCcitt16Loop [0x6E, 0x00, 0x00, 0x05, 0xFF, 0xFE]) :=
    crcCcitt16_at _ [0x6E, 0x00, 0x00, 0x05, 0xFF, 0xFE] _ 6 rfl rfl
  have hs : TAU_HEADER_SIZE + toShort ((0xFF * 256 + 0xFE : Nat) : Int) = 6 := by decide
  unfold tauDecodeResponseFrame
  rw [r4, ok_bind]
  simp only [hs]
  rw [r6, ok_bind, c6, ok_bind, if_neg (by decide)]
  rfl

/-- The reference CRC gives the catalogue check value of CRC-16/XMODEM (polynomial 0x1021,
start 0x0000, no reflection, no final XOR) on the ASCII string 123456789. -/
theorem refCrc16_check :
    refCrc16 [0x31, 0x32, 0x33, 0x34, 0x35, 0x36, 0x37, 0x38, 0x39] = 0x31C3 := by
  rw [← crcCcitt16Loop_eq_ref _ (by decide)]
  rfl

/-! ## The decoder: the first three checks, and one changed byte on either kind of `char` -/

/-- The first check: a byte 0 other than 0x6E. -/
theorem tauDecodeResponse_process (sgn : Bool) (cmd : Int) (buffer : List Nat)
    (bufferSize : Int) (data : Option (List Nat)) (dataCount : Option Int) (b0 : Nat)
    (h0 : buffer[0]? = some b0) (hb0 : b0 < 256) (hne : b0 ≠ 0x6E) :
    tauDecodeResponse sgn cmd buffer bufferSize data dataCount
      = .ok (CAM_COMMUNICATION_ERROR, data, dataCount) := by
  have r0 : readByte buffer 0 = .ok b0 := by
    simpa using readByte_of_getElem buffer 0 b0 h0
  unfold tauDecodeResponse
  simp only [r0, ok_bind]
  rw [if_pos (by rw [← charVal_6E sgn]; exact charVal_ne sgn _ _ hb0 (by decide) hne)]

/-- The second check: a status byte that is not read as `CAM_OK` is returned as it is
read. -/
theorem tauDecodeResponse_status (sgn : Bool) (cmd : Int) (buffer : List Nat)
    (bufferSize : Int) (data : Option (List Nat)) (dataCount : Option Int) (s : Nat)
    (h0 : buffer[0]? = some 0x6E) (h1 : buffer[1]? = some s) (hs : charVal sgn s ≠ CAM_OK) :
    tauDecodeResponse sgn cmd buffer bufferSize data dataCount
      = .ok (charVal sgn s, data, dataCount) := by
  have r0 : readByte buffer 0 = .ok 0x6E := by
    simpa using readByte_of_getElem buffer 0 0x6E h0
  have r1 : readByte buffer 1 = .ok s := by
    simpa using readByte_of_getElem buffer 1 s h1
  unfold tauDecodeResponse
  simp only [r0, ok_bind, r1]
  rw [if_neg (by rw [charVal_6E]; simp), if_pos hs]

/-- The third check: a byte 3 that is not read as the expected command. -/
theorem tauDecodeResponse_echo (sgn : Bool) (cmd : Int) (buffer : List Nat)
    (bufferSize : Int) (data : Option (List Nat)) (dataCount : Option Int) (b3 : Nat)
    (h0 : buffer[0]? = some 0x6E) (h1 : buffer[1]? = some 0) (h3 : buffer[3]? = some b3)
    (hne : charVal sgn b3 ≠ toShort cmd) :
    tauDecodeResponse sgn cmd buffer bufferSize data dataCount
      = .ok (CAM_COMMUNICATION_ERROR, data, dataCount) := by
  have r0 : readByte buffer 0 = .ok 0x6E := by
    simpa using readByte_of_getElem buffer 0 0x6E h0
  have r1 : readByte buffer 1 = .ok 0 := by
    simpa using readByte_of_getElem buffer 1 0 h1
  have r3 : readByte buffer 3 = .ok b3 := by
    simpa using readByte_of_getElem buffer 3 b3 h3
  unfold tauDecodeResponse
  simp only [r0, ok_bind, r1, r3]
  rw [if_neg (by rw [charVal_6E]; simp), if_neg (by rw [charVal_zero]; simp [CAM_OK]),
    if_pos hne]

/-- Where plain `char` is signed no byte is read as a command code of 128 or more. -/
theorem charVal_signed_high (b cmd : Nat) (hb : b < 256) (hc : 128 ≤ cmd) (hc2 : cmd < 256) :
    charVal true b ≠ toShort (cmd : Int) := by
  rw [toShort_of_range _ (by omega) (by omega)]
  unfold charVal
  simp only [Bool.true_and, decide_eq_true_eq]
  split <;> omega

/-- Decoding a frame in which one byte was replaced by a different value, where plain
`char` is signed and the command code is 128 or more: the command byte is never read as
the expected command. -/
theorem tamper_status_signed (cmd : Nat) (P : List Nat) (i v : Nat) (bufferSize : Int)
    (data : Option (List Nat)) (dataCount : Option Int)
    (hc : cmd < 256) (hc2 : 128 ≤ cmd) (hv : v < 256)
    (hne : (frameOf (cmd : Int) P)[i]? ≠ some v) :
    ∃ st, tauDecodeResponse true (cmd : Int) ((frameOf (cmd : Int) P).set i v) bufferSize
          data dataCount = .ok (st, data, dataCount)
      ∧ st ≠ CAM_OK
      ∧ (i ≠ 1 → st = CAM_CHECKSUM_ERROR ∨ st = CAM_COMMUNICATION_ERROR)
      ∧ (i = 1 → st = charVal true v) := by
  have e1 : toByte (cmd : Int) = cmd := by unfold toByte; omega
  obtain ⟨tail, hF⟩ : ∃ tail, frameOf (cmd : Int) P = 0x6E :: 0 :: 0 :: cmd :: tail := by
    refine ⟨(frameOf (cmd : Int) P).drop 4, ?_⟩
    simp [frameOf, frameHeader, frameHead, e1]
  rw [hF] at hne ⊢
  have hcmd := charVal_signed_high cmd cmd hc hc2 hc
  match i, hne with
  | 0, hne =>
    have hv0 : v ≠ 0x6E := by
      intro e; apply hne; simp [e]
    rw [tauDecodeResponse_process true _ _ _ _ _ v (by simp) hv hv0]
    exact ⟨_, rfl, by decide, fun _ => Or.inr rfl, fun h => absurd h (by decide)⟩
  | 1, hne =>
    have hv0 : v ≠ 0 := by
      intro e; apply hne; simp [e]
    have hst : charVal true v ≠ CAM_OK := by
      have := charVal_ne true v 0 hv (by decide) hv0
      rw [charVal_zero] at this
      exact this
    rw [tauDecodeResponse_status true _ _ _ _ _ v (by simp) (by simp) hst]
    exact ⟨_, rfl, hst, fun h => absurd rfl h, fun _ => rfl⟩
  | 2, _ =>
    rw [tauDecodeResponse_echo true _ _ _ _ _ cmd (by simp) (by simp) (by simp) hcmd]
    exact ⟨_, rfl, by decide, fun _ => Or.inr rfl, fun h => absurd h (by decide)⟩
  | 3, _ =>
    rw [tauDecodeResponse_echo true _ _ _ _ _ v (by simp) (by simp) (by simp)
      (charVal_signed_high v cmd hv hc2 hc)]
    exact ⟨_, rfl, by decide, fun _ => Or.inr rfl, fun h => absurd h (by decide)⟩
  | j + 4, _ =>
    rw [tauDecodeResponse_echo true _ _ _ _ _ cmd (by simp) (by simp) (by simp) hcmd]
    exact ⟨_, rfl, by decide, fun _ => Or.inr rfl, fun h => absurd h (by omega)⟩

/-- Decoding a frame in which one byte was replaced by a different value. -/
theorem tamper_status (sgn : Bool) (cmd : Nat) (P : List Nat) (i v : Nat) (bufferSize : Int)
    (data : Option (List Nat)) (dataCount : Option Int)
    (hc : cmd < 256) (hP : ∀ x ∈ P, x < 256)
    (hN : P.length ≤ 32767) (hi : i < 10 + P.length) (hv : v < 256)
    (hne : (frameOf (cmd : Int) P)[i]? ≠ some v) :
    ∃ st, tauDecodeResponse sgn (cmd : Int) ((frameOf (cmd : Int) P).set i v) bufferSize
          data dataCount = .ok (st, data, dataCount)
      ∧ st ≠ CAM_OK
      ∧ (i ≠ 1 → st = CAM_CHECKSUM_ERROR ∨ st = CAM_COMMUNICATION_ERROR)
      ∧ (i = 1 → st = charVal sgn v) := by
  by_cases hs : sgn = false ∨ cmd < 128
  · exact tamper_status_plain sgn cmd P i v bufferSize data dataCount hc hs hP hN hi hv hne
  · have h1 : sgn = true := by
      cases sgn
      · exact absurd (Or.inl rfl) hs
      · rfl
    have h2 : 128 ≤ cmd := by
      by_contra h; exact hs (Or.inr (by omega))
    subst h1
    exact tamper_status_signed cmd P i v bufferSize data dataCount hc h2 hv hne

/-! ## The CRC of a string followed by its CRC -/

theorem crc_residue_step (c : Nat) (hc : c < 65536) :
    updateCrcCcitt16 (updateCrcCcitt16 c (c / 256 % 256)) (c % 256) = 0 := by
  have h1 : updateCrcCcitt16 c (c / 256 % 256) = (c % 256) <<< 8 := by
    rw [updateCrcCcitt16_eq, Nat.mod_eq_of_lt hc, Nat.mod_mod, refCrcByte]
    have hq : c / 256 % 256 = c >>> 8 := by
      rw [Nat.shiftRight_eq_div_pow]
      have : c / 2 ^ 8 < 256 := by
        rw [Nat.div_lt_iff_lt_mul (by norm_num)]; omega
      have e : (2 : Nat) ^ 8 = 256 := by norm_num
      rw [e] at this ⊢
      exact Nat.mod_eq_of_lt this
    rw [hq, split_high_low, Nat.xor_self, Nat.zero_shiftLeft, Nat.zero_xor]
    exact refShift_iter8_small _ (Nat.mod_lt _ (by norm_num))
  rw [h1, updateCrcCcitt16_eq, Nat.mod_mod, refCrcByte]
  have h2 : (c % 256) <<< 8 % 65536 = (c % 256) <<< 8 := by
    apply Nat.mod_eq_of_lt
    rw [Nat.shiftLeft_eq]
    have : c % 256 < 256 := Nat.mod_lt _ (by norm_num)
    omega
  rw [h2, Nat.xor_self]
  exact refShift_iter8_small 0 (by norm_num)

theorem crcCcitt16Loop_residue (d : List Nat) :
    crcCcitt16Loop (d ++ [crcCcitt16Loop d / 256 % 256, crcCcitt16Loop d % 256]) = 0 := by
  have h := crc_residue_step (crcCcitt16Loop d) (crcCcitt16Loop_lt d)
  unfold crcCcitt16Loop at h ⊢
  rw [List.foldl_append]
  exact h

theorem frameOf_empty (cmd : Int) :
    frameOf cmd [] = frameHeader cmd 0 ++ [0, 0] := by
  have h : crcCcitt16Loop (frameHeader cmd 0) = 0 := by
    unfold frameHeader
    exact crcCcitt16Loop_residue (frameHead cmd 0)
  unfold frameOf
  simp only [List.length_nil, List.append_nil, h]

theorem frameHeader_length (cmd : Int) (n : Nat) : (frameHeader cmd n).length = 8 := by
  simp [frameHeader, frameHead]

/-! ## ASCII hex: the loop of `asciiHexToBinary` -/

theorem charVal_eq_zero (sgn : Bool) (p : Nat) (hp : p < 256) : charVal sgn p = 0 ↔ p = 0 := by
  unfold charVal
  cases sgn <;> simp
  split <;> omega

theorem toByte_charVal (sgn : Bool) (b : Nat) (hb : b < 256) : toByte (charVal sgn b) = b := by
  unfold toByte charVal
  cases sgn <;> simp <;> try split
  all_goals omega

theorem toChar_small (sgn : Bool) (x : Int) (h0 : 0 ≤ x) (h1 : x < 128) : toChar sgn x = x := by
  unfold toChar toByte charVal
  cases sgn <;> simp <;> try split
  all_goals omega

theorem toByte_toChar (sgn : Bool) (x : Int) (h0 : 0 ≤ x) (h1 : x < 256) :
    toByte (toChar sgn x) = x.toNat := by
  unfold toChar
  rw [toByte_charVal sgn _ (by unfold toByte; omega)]
  unfold toByte
  omega

/-- The character that `asciiHexToBinary` classifies: `toupper(*ptr)` stored in a `char`. -/
theorem hexChar_val (sgn : Bool) (p : Nat) (hp : p < 256) :
    toChar sgn (toupper (charVal sgn p))
      = if p < 128 then (if 97 ≤ p ∧ p ≤ 122 then (p : Int) - 32 else (p : Int))
        else charVal sgn p := by
  by_cases h : p < 128
  · rw [if_pos h, charVal_small sgn p h]
    unfold toupper
    by_cases h2 : 97 ≤ p ∧ p ≤ 122
    · rw [if_pos h2, if_pos (by omega)]
      exact toChar_small sgn _ (by omega) (by omega)
    · rw [if_neg h2, if_neg (by omega)]
      exact toChar_small sgn _ (by omega) (by omega)
  · rw [if_neg h]
    have hv : charVal sgn p < 0 ∨ 128 ≤ charVal sgn p := by
      unfold charVal
      cases sgn <;> simp <;> try split
      all_goals omega
    have hu : toupper (charVal sgn p) = charVal sgn p := by
      unfold toupper
      rw [if_neg (by omega)]
    rw [hu]
    unfold toChar
    rw [toByte_charVal sgn p hp]

theorem hexChar_high (sgn : Bool) (p : Nat) (hp : 128 ≤ p) (hp2 : p < 256) :
    charVal sgn p < 0 ∨ 128 ≤ charVal sgn p := by
  unfold charVal
  cases sgn <;> simp <;> try split
  all_goals omega

theorem asciiHexToBinaryLoop_cons (sgn : Bool) (p : Nat) (hp : p < 256) (ptr buffer : List Nat)
    (count nibbles val : Int) :
    asciiHexToBinaryLoop sgn (p :: ptr) buffer count nibbles val =
      if p = 32 ∨ p = 9 then asciiHexToBinaryLoop sgn ptr buffer count nibbles val else
      match refHexDigit p with
      | none => .ok (buffer, count)
      | some d =>
        if nibbles + 1 = 2 then
          (writeBytes buffer count [toByte (toChar sgn (val * 16 + (d : Int)))]).bind
            fun buffer => asciiHexToBinaryLoop sgn ptr buffer (count + 1) 0 0
        else asciiHexToBinaryLoop sgn ptr buffer count (nibbles + 1)
          (toChar sgn (val * 16 + (d : Int))) := by
  rw [asciiHexToBinaryLoop]
  simp only [hexChar_val sgn p hp, charVal_eq_zero sgn p hp]
  by_cases h0 : p = 0
  · subst h0; simp [refHexDigit]
  rw [if_neg h0]
  by_cases hb : p = 32 ∨ p = 9
  · rw [if_pos hb]
    rcases hb with rfl | rfl <;> simp [isblank]
  rw [if_neg hb]
  obtain ⟨c, hc⟩ : ∃ c : Int, c = (if p < 128 then (if 97 ≤ p ∧ p ≤ 122 then (p : Int) - 32
      else (p : Int)) else charVal sgn p) := ⟨_, rfl⟩
  rw [← hc]
  have hcases : (p < 128 ∧ ¬ (97 ≤ p ∧ p ≤ 122) ∧ c = p) ∨ (97 ≤ p ∧ p ≤ 122 ∧ c = p - 32)
      ∨ (128 ≤ p ∧ (c < 0 ∨ 128 ≤ c)) := by
    by_cases h1 : p < 128
    · rw [if_pos h1] at hc
      by_cases h2 : 97 ≤ p ∧ p ≤ 122
      · rw [if_pos h2] at hc; exact Or.inr (Or.inl ⟨h2.1, h2.2, hc⟩)
      · rw [if_neg h2] at hc; exact Or.inl ⟨h1, h2, hc⟩
    · rw [if_neg h1] at hc
      exact Or.inr (Or.inr ⟨by omega, hc ▸ hexChar_high sgn p (by omega) hp⟩)
  have hblank : isblank c = false := by
    unfold isblank
    simp only [Bool.or_eq_false_iff, beq_eq_false_iff_ne, ne_eq]
    omega
  rw [hblank]
  simp only [Bool.false_eq_true, if_false]
  by_cases hd : 48 ≤ p ∧ p ≤ 57
  · have e1 : isdigit c = true := by
      unfold isdigit; simp only [Bool.and_eq_true, decide_eq_true_eq]; omega
    have e2 : refHexDigit p = some (p - 48) := by unfold refHexDigit; rw [if_pos hd]
    have e3 : c - 48 = ((p - 48 : Nat) : Int) := by omega
    rw [e1, e2, e3]
    simp only [if_true]
  have e1 : isdigit c = false := by
    unfold isdigit
    simp only [Bool.and_eq_false_iff, decide_eq_false_iff_not]
    omega
  rw [e1]
  simp only [Bool.false_eq_true, if_false]
  by_cases hu : 65 ≤ p ∧ p ≤ 70
  · have e2 : refHexDigit p = some (p - 55) := by
      unfold refHexDigit; rw [if_neg hd, if_pos hu]
    have e3 : c - 65 + 10 = ((p - 55 : Nat) : Int) := by omega
    have e4 : c ≥ 65 ∧ c ≤ 70 := by omega
    rw [if_pos e4, e2, e3]
  by_cases hl : 97 ≤ p ∧ p ≤ 102
  · have e2 : refHexDigit p = some (p - 87) := by
      unfold refHexDigit; rw [if_neg hd, if_neg hu, if_pos hl]
    have e3 : c - 65 + 10 = ((p - 87 : Nat) : Int) := by omega
    have e4 : c ≥ 65 ∧ c ≤ 70 := by omega
    rw [if_pos e4, e2, e3]
  have e2 : refHexDigit p = none := by
    unfold refHexDigit; rw [if_neg hd, if_neg hu, if_neg hl]
  have e4 : ¬ (c ≥ 65 ∧ c ≤ 70) := by omega
  rw [if_neg e4, e2]

theorem refHexDigit_lt (p d : Nat) (h : refHexDigit p = some d) : d < 16 := by
  unfold refHexDigit at h
  split at h
  · cases h; omega
  · split at h
    · cases h; omega
    · split at h
      · cases h; omega
      · cases h

theorem refPairs_short (pend : List Nat) (h : pend.length ≤ 1) : refPairs pend = [] := by
  match pend, h with
  | [], _ => rfl
  | [_], _ => rfl

theorem asciiHexToBinaryLoop_spec (sgn : Bool) (s : List Nat) (hs : ∀ c ∈ s, c < 256) :
    ∀ (pre post pend : List Nat), pend.length ≤ 1 → (∀ d ∈ pend, d < 16) →
      (refPairs (pend ++ refHexDigits s)).length ≤ post.length →
      asciiHexToBinaryLoop sgn s (pre ++ post) (pre.length : Int) (pend.length : Int)
          ((pend.headD 0 : Nat) : Int)
        = .ok (pre ++ (refPairs (pend ++ refHexDigits s)
                ++ post.drop (refPairs (pend ++ refHexDigits s)).length),
               ((pre.length + (refPairs (pend ++ refHexDigits s)).length : Nat) : Int)) := by
  induction s with
  | nil =>
    intro pre post pend hl _ _
    rw [asciiHexToBinaryLoop]
    simp [refHexDigits, refPairs_short pend hl]
  | cons p s ih =>
    intro pre post pend hl hd hroom
    have hp : p < 256 := hs p (List.mem_cons_self _ _)
    have hs' : ∀ c ∈ s, c < 256 := fun c hc => hs c (List.mem_cons_of_mem _ hc)
    rw [asciiHexToBinaryLoop_cons sgn p hp]
    by_cases hb : p = 32 ∨ p = 9
    · have e : refHexDigits (p :: s) = refHexDigits s := by
        rw [refHexDigits, if_pos hb]
      rw [if_pos hb]
      rw [e] at hroom ⊢
      exact ih hs' pre post pend hl hd hroom
    · rw [if_neg hb]
      rcases hdg : refHexDigit p with _ | d
      · have e : refHexDigits (p :: s) = [] := by
          rw [refHexDigits, if_neg hb, hdg]
        rw [e]
        simp [refPairs_short pend hl]
      · have e : refHexDigits (p :: s) = d :: refHexDigits s := by
          rw [refHexDigits, if_neg hb, hdg]
        have hd16 : d < 16 := refHexDigit_lt p d hdg
        rw [e] at hroom ⊢
        simp only
        match pend, hl, hd, hroom with
        | [], _, _, hroom =>
          have e1 : ¬ (((([] : List Nat).length : Nat) : Int) + 1 = 2) := by simp
          rw [if_neg e1]
          have e2 : toChar sgn (((([] : List Nat).headD 0 : Nat) : Int) * 16 + (d : Int))
              = (([d].headD 0 : Nat) : Int) := by
            simp only [List.headD_nil, List.headD_cons]
            rw [toChar_small sgn _ (by omega) (by omega)]
            omega
          have e3 : ((([] : List Nat).length : Nat) : Int) + 1 = (([d].length : Nat) : Int) := by
            simp
          rw [e2, e3]
          have := ih hs' pre post [d] (by simp) (by simpa using hd16) (by simpa using hroom)
          simpa using this
        | [a], _, hd, hroom =>
          have ha : a < 16 := hd a (List.mem_singleton_self a)
          have e1 : ((([a] : List Nat).length : Nat) : Int) + 1 = 2 := by simp
          rw [if_pos e1]
          have e2 : toByte (toChar sgn ((([a].headD 0 : Nat) : Int) * 16 + (d : Int)))
              = a * 16 + d := by
            simp only [List.headD_cons]
            rw [toByte_toChar sgn _ (by omega) (by omega)]
            omega
          rw [e2]
          have hP : refPairs ([a] ++ d :: refHexDigits s)
              = (a * 16 + d) :: refPairs (refHexDigits s) := by
            simp [refPairs]
          rw [hP] at hroom ⊢
          obtain ⟨x, post', rfl⟩ : ∃ x post', post = x :: post' := by
            cases post with
            | nil => simp at hroom
            | cons x post' => exact ⟨x, post', rfl⟩
          have hw : writeBytes (pre ++ ([x] ++ post')) (pre.length : Int) [a * 16 + d]
              = .ok (pre ++ ([a * 16 + d] ++ post')) :=
            writeBytes_mid pre [x] post' [a * 16 + d] _ rfl rfl
          have hsplit : pre ++ x :: post' = pre ++ ([x] ++ post') := by simp
          rw [hsplit, hw, ok_bind]
          have := ih hs' (pre ++ [a * 16 + d]) post' [] (by simp) (by simp)
            (by simpa using hroom)
          simp only [List.length_append, List.length_singleton, List.length_nil,
            List.headD_nil, List.nil_append, Nat.cast_add, Nat.cast_one, Nat.cast_zero,
            List.append_assoc] at this
          rw [this]
          simp
          omega

/-! ## The transport: single reads -/

theorem toInt_of_range (x : Int) (h1 : -2147483648 ≤ x) (h2 : x ≤ 2147483647) : toInt x = x := by
  unfold toInt; omega

theorem timeout_ne_ok : CAM_TIMEOUT_ERROR ≠ CAM_OK := by decide

theorem communication_ne_ok : CAM_COMMUNICATION_ERROR ≠ CAM_OK := by decide

theorem tauReadChar_nil (t : Transport) (buffer : List Nat) (i : Int) (h : t.reads = []) :
    tauReadChar t buffer i = .ok (CAM_TIMEOUT_ERROR, buffer, t) := by
  unfold tauReadChar; rw [h]

theorem tauReadChar_timeout (t : Transport) (buffer : List Nat) (i : Int) (r : List ReadEvent)
    (h : t.reads = .timeout :: r) :
    tauReadChar t buffer i = .ok (CAM_TIMEOUT_ERROR, buffer, { t with reads := r }) := by
  unfold tauReadChar; rw [h]

theorem tauReadChar_error (t : Transport) (buffer : List Nat) (i : Int) (r : List ReadEvent)
    (h : t.reads = .error :: r) :
    tauReadChar t buffer i = .ok (CAM_COMMUNICATION_ERROR, buffer, { t with reads := r }) := by
  unfold tauReadChar; rw [h]

theorem tauReadChar_hangup (t : Transport) (buffer : List Nat) (i : Int) (r : List ReadEvent)
    (h : t.reads = .hangup :: r) :
    tauReadChar t buffer i = .error .assertion := by
  unfold tauReadChar; rw [h]

theorem tauReadChar_byte (t : Transport) (buffer : List Nat) (i : Int) (b : Nat)
    (r : List ReadEvent) (h : t.reads = .byte b :: r) :
    tauReadChar t buffer i
      = (writeBytes buffer i [b]).bind fun buffer =>
          .ok (CAM_OK, buffer, { t with reads := r }) := by
  unfold tauReadChar; rw [h]

/-- A read that is not `CAM_OK` is a timeout or a transport error; it stores nothing and
takes one event of the script, if there is one. -/
theorem tauReadChar_stop (t : Transport) (buffer : List Nat) (i : Int) (e : ReadEvent)
    (r : List ReadEvent) (h : t.reads = e :: r) (he : e = .timeout ∨ e = .error) :
    ∃ st, st ≠ CAM_OK ∧ tauReadChar t buffer i = .ok (st, buffer, { t with reads := r }) := by
  rcases he with rfl | rfl
  · exact ⟨CAM_TIMEOUT_ERROR, by decide, tauReadChar_timeout t buffer i r h⟩
  · exact ⟨CAM_COMMUNICATION_ERROR, by decide, tauReadChar_error t buffer i r h⟩

/-- What a call of `tauReadChar` leaves of the transport: the log and the other scripts
are untouched and the script of reads is a suffix of what it was. -/
theorem tauReadChar_frame (t : Transport) (buffer : List Nat) (i : Int)
    (r : Int × List Nat × Transport) (h : tauReadChar t buffer i = .ok r) :
    r.2.2.writes = t.writes ∧ r.2.2.bodies = t.bodies ∧ r.2.2.sent = t.sent
      ∧ r.2.2.reads.length ≤ t.reads.length
      ∧ (r.1 = CAM_OK → r.2.2.reads.length < t.reads.length) := by
  unfold tauReadChar at h
  split at h
  · cases h
    exact ⟨rfl, rfl, rfl, le_refl _, fun h => absurd h timeout_ne_ok⟩
  · next hr =>
    cases h; rw [hr]
    exact ⟨rfl, rfl, rfl, by simp,
      fun h => absurd h communication_ne_ok⟩
  · next hr =>
    cases h; rw [hr]
    exact ⟨rfl, rfl, rfl, by simp, fun h => absurd h timeout_ne_ok⟩
  · cases h
  · next hr =>
    rcases except_cases (writeBytes buffer i [_]) with ⟨e, hw⟩ | ⟨a, hw⟩
    · rw [hw, error_bind] at h; cases h
    · rw [hw, ok_bind] at h; cases h; rw [hr]; exact ⟨rfl, rfl, rfl, by simp, by simp⟩

/-! ## The transport: the loop of `tauReadBinary` -/

theorem tauReadBinaryLoop_stop (t : Transport) (buffer : List Nat) (i status len : Int)
    (n : Nat) (h : status ≠ CAM_OK) :
    tauReadBinaryLoop t buffer i status len n = .ok (len, buffer, t) := by
  cases n with
  | zero => rfl
  | succ n => rw [tauReadBinaryLoop, if_neg h]

theorem tauReadBinaryLoop_bytes (bs : List Nat) :
    ∀ (t : Transport) (pre post : List Nat) (rest : List ReadEvent) (len : Int) (n : Nat),
      t.reads = bs.map .byte ++ rest → bs.length ≤ post.length →
      tauReadBinaryLoop t (pre ++ post) (pre.length : Int) CAM_OK len (bs.length + n)
        = tauReadBinaryLoop { t with reads := rest } (pre ++ (bs ++ post.drop bs.length))
            ((pre.length : Int) + bs.length) CAM_OK (len + bs.length) n := by
  induction bs with
  | nil =>
    intro t pre post rest len n h _
    simp only [List.map_nil, List.nil_append] at h
    cases t
    simp only at h
    subst h
    simp
  | cons b bs ih =>
    intro t pre post rest len n h hl
    obtain ⟨x, post', rfl⟩ : ∃ x post', post = x :: post' := by
      cases post with
      | nil => simp at hl
      | cons x post' => exact ⟨x, post', rfl⟩
    have hn : (b :: bs).length + n = (bs.length + n) + 1 := by simp; omega
    rw [hn, tauReadBinaryLoop, if_pos rfl]
    rw [tauReadChar_byte t _ _ b (bs.map .byte ++ rest) (by simpa using h)]
    have hw : writeBytes (pre ++ ([x] ++ post')) (pre.length : Int) [b]
        = .ok (pre ++ ([b] ++ post')) := writeBytes_mid pre [x] post' [b] _ rfl rfl
    have hsplit : pre ++ x :: post' = pre ++ ([x] ++ post') := by simp
    rw [hsplit, hw, ok_bind, ok_bind]
    simp only [if_pos]
    have := ih { t with reads := bs.map .byte ++ rest } (pre ++ [b]) post' rest (len + 1) n rfl
      (by simpa using hl)
    simp only [List.length_append, List.length_singleton, Nat.cast_add, Nat.cast_one,
      List.append_assoc] at this
    rw [this]
    simp only [List.length_cons, List.drop_succ_cons, List.cons_append, List.nil_append,
      Nat.cast_add, Nat.cast_one, List.singleton_append]
    congr 1 <;> omega

/-! ## The transport: `tauReadBinary` and `tauReceiveCmd` -/

theorem tauReadBinary_short (t : Transport) (buffer bs : List Nat) (e : ReadEvent)
    (rest : List ReadEvent) (hreads : t.reads = bs.map .byte ++ e :: rest)
    (hl : bs.length < 8) (he : e = .timeout ∨ e = .error) (hb : bs.length ≤ buffer.length) :
    tauReadBinary t buffer TAU_HEADER_SIZE
      = .ok ((bs.length : Int), bs ++ buffer.drop bs.length, { t with reads := rest }) := by
  unfold tauReadBinary
  have h8 : toUShort (toShort TAU_HEADER_SIZE) = bs.length + ((7 - bs.length) + 1) := by
    have : toUShort (toShort TAU_HEADER_SIZE) = 8 := by decide
    omega
  rw [h8]
  have h := tauReadBinaryLoop_bytes bs t [] buffer (e :: rest) 0 ((7 - bs.length) + 1) hreads hb
  simp only [List.nil_append, List.length_nil, Nat.cast_zero, zero_add] at h
  rw [h, tauReadBinaryLoop, if_pos rfl]
  obtain ⟨st, hst, hr⟩ := tauReadChar_stop { t with reads := e :: rest }
    (bs ++ buffer.drop bs.length) (bs.length : Int) e rest rfl he
  rw [hr, ok_bind]
  simp only [if_neg hst]
  rw [tauReadBinaryLoop_stop _ _ _ _ _ _ hst]

theorem tauReadBinary_exhausted (t : Transport) (buffer bs : List Nat)
    (hreads : t.reads = bs.map .byte) (hl : bs.length < 8) (hb : bs.length ≤ buffer.length) :
    tauReadBinary t buffer TAU_HEADER_SIZE
      = .ok ((bs.length : Int), bs ++ buffer.drop bs.length, { t with reads := [] }) := by
  unfold tauReadBinary
  have h8 : toUShort (toShort TAU_HEADER_SIZE) = bs.length + ((7 - bs.length) + 1) := by
    have : toUShort (toShort TAU_HEADER_SIZE) = 8 := by decide
    omega
  rw [h8]
  have h := tauReadBinaryLoop_bytes bs t [] buffer [] 0 ((7 - bs.length) + 1)
    (by simpa using hreads) hb
  simp only [List.nil_append, List.length_nil, Nat.cast_zero, zero_add] at h
  rw [h, tauReadBinaryLoop, if_pos rfl]
  rw [tauReadChar_nil _ _ _ rfl, ok_bind]
  simp only [if_neg timeout_ne_ok]
  rw [tauReadBinaryLoop_stop _ _ _ _ _ _ timeout_ne_ok]

theorem tauReadBinary_full (t : Transport) (buffer hdr : List Nat) (rest : List ReadEvent)
    (hreads : t.reads = hdr.map .byte ++ rest) (hl : hdr.length = 8)
    (hb : 8 ≤ buffer.length) :
    tauReadBinary t buffer TAU_HEADER_SIZE
      = .ok (8, hdr ++ buffer.drop 8, { t with reads := rest }) := by
  unfold tauReadBinary
  have h8 : toUShort (toShort TAU_HEADER_SIZE) = hdr.length + 0 := by
    have : toUShort (toShort TAU_HEADER_SIZE) = 8 := by decide
    omega
  rw [h8]
  have h := tauReadBinaryLoop_bytes hdr t [] buffer rest 0 0 hreads (by omega)
  simp only [List.nil_append, List.length_nil, Nat.cast_zero, zero_add] at h
  rw [h, tauReadBinaryLoop, hl]
  rfl

/-- A header read that meets a timeout or a transport error before the eighth byte:
`tauReceiveCmd` reports `CAM_TIMEOUT_ERROR` with a count of 0 and the transport is left
right after the failing read. -/
theorem tauReceiveCmd_short (t : Transport) (buffer bs : List Nat) (bufferCount : Int)
    (e : ReadEvent) (rest : List ReadEvent) (hreads : t.reads = bs.map .byte ++ e :: rest)
    (hl : bs.length < 8) (he : e = .timeout ∨ e = .error)
    (hcap : 8 ≤ toShort bufferCount) (hb : bs.length ≤ buffer.length) :
    tauReceiveCmd t buffer bufferCount
      = .ok (CAM_TIMEOUT_ERROR, bs ++ buffer.drop bs.length, 0, { t with reads := rest }) := by
  unfold tauReceiveCmd
  have h1 : ¬ ¬ (toShort bufferCount ≥ TAU_HEADER_SIZE) := by
    simp only [TAU_HEADER_SIZE, not_not]; omega
  simp only [if_neg h1]
  rw [tauReadBinary_short t buffer bs e rest hreads hl he hb, ok_bind]
  have h2 : ¬ ((bs.length : Int) < 0) := by omega
  have h3 : (bs.length : Int) ≠ TAU_HEADER_SIZE := by
    simp only [TAU_HEADER_SIZE]; omega
  simp only [if_neg h2, if_pos h3]

theorem tauReceiveCmd_exhausted (t : Transport) (buffer bs : List Nat) (bufferCount : Int)
    (hreads : t.reads = bs.map .byte) (hl : bs.length < 8)
    (hcap : 8 ≤ toShort bufferCount) (hb : bs.length ≤ buffer.length) :
    tauReceiveCmd t buffer bufferCount
      = .ok (CAM_TIMEOUT_ERROR, bs ++ buffer.drop bs.length, 0, { t with reads := [] }) := by
  unfold tauReceiveCmd
  have h1 : ¬ ¬ (toShort bufferCount ≥ TAU_HEADER_SIZE) := by
    simp only [TAU_HEADER_SIZE, not_not]; omega
  simp only [if_neg h1]
  rw [tauReadBinary_exhausted t buffer bs hreads hl hb, ok_bind]
  have h2 : ¬ ((bs.length : Int) < 0) := by omega
  have h3 : (bs.length : Int) ≠ TAU_HEADER_SIZE := by
    simp only [TAU_HEADER_SIZE]; omega
  simp only [if_neg h2, if_pos h3]

/-- After a complete header `tauReceiveCmd` checks the announced size against the
capacity and reads the payload and the frame CRC with one `read`. -/
theorem tauReceiveCmd_header (t : Transport) (buffer : List Nat) (bufferCount : Int)
    (b0 b1 b2 b3 n1 n2 h1 h2 : Nat) (rest : List ReadEvent)
    (hreads : t.reads = [b0, b1, b2, b3, n1, n2, h1, h2].map .byte ++ rest)
    (hcap : 8 ≤ toShort bufferCount) (hb : 8 ≤ buffer.length) :
    tauReceiveCmd t buffer bufferCount
      = if ¬ (toShort bufferCount ≥ TAU_HEADER_SIZE + toShort ((n1 * 256 + n2 : Nat) : Int) + 2)
        then .error .assertion
        else
          (read { t with reads := rest } ([b0, b1, b2, b3, n1, n2, h1, h2] ++ buffer.drop 8)
              TAU_HEADER_SIZE (toShort ((n1 * 256 + n2 : Nat) : Int) + 2)).bind fun r =>
          if r.1 < 0 then .ok (CAM_TIMEOUT_ERROR, r.2.1, TAU_HEADER_SIZE, r.2.2) else
          if r.1 ≠ toShort ((n1 * 256 + n2 : Nat) : Int) + 2 then
            .ok (CAM_TIMEOUT_ERROR, r.2.1, TAU_HEADER_SIZE, r.2.2)
          else .ok (CAM_OK, r.2.1,
            toShort (TAU_HEADER_SIZE + toShort ((n1 * 256 + n2 : Nat) : Int) + 2), r.2.2) := by
  unfold tauReceiveCmd
  have g1 : ¬ ¬ (toShort bufferCount ≥ TAU_HEADER_SIZE) := by
    simp only [TAU_HEADER_SIZE, not_not]; omega
  simp only [if_neg g1]
  rw [tauReadBinary_full t buffer [b0, b1, b2, b3, n1, n2, h1, h2] rest hreads rfl hb, ok_bind]
  have g2 : ¬ ((8 : Int) < 0) := by omega
  have g3 : ¬ ((8 : Int) ≠ TAU_HEADER_SIZE) := by simp [TAU_HEADER_SIZE]
  simp only [if_neg g2, if_neg g3]
  have hr : readU16 ([b0, b1, b2, b3, n1, n2, h1, h2] ++ buffer.drop 8) 4
      = .ok (n1 * 256 + n2) :=
    readU16_at _ [b0, b1, b2, b3] (h1 :: h2 :: buffer.drop 8) n1 n2 4 rfl rfl
  rw [hr, ok_bind]

theorem read_some (t : Transport) (buffer bs : List Nat) (i count : Int)
    (r : List (Option (List Nat))) (h : t.bodies = some bs :: r) (hc : 0 ≤ count) :
    read t buffer i count
      = (writeBytes buffer i (bs.take count.toNat)).bind fun buffer =>
          .ok (((bs.take count.toNat).length : Int), buffer, { t with bodies := r }) := by
  unfold read
  rw [if_neg (by omega), h]

/-- What a call of `read` leaves of the transport. -/
theorem read_frame (t : Transport) (buffer : List Nat) (i count : Int)
    (r : Int × List Nat × Transport) (h : read t buffer i count = .ok r) :
    r.2.2.writes = t.writes ∧ r.2.2.reads = t.reads ∧ r.2.2.sent = t.sent := by
  unfold read at h
  split at h
  · cases h
  · split at h
    · cases h; exact ⟨rfl, rfl, rfl⟩
    · cases h; exact ⟨rfl, rfl, rfl⟩
    · rcases except_cases (writeBytes buffer i (List.take count.toNat _)) with ⟨e, hw⟩ | ⟨a, hw⟩
      · rw [hw, error_bind] at h; cases h
      · rw [hw, ok_bind] at h; cases h; exact ⟨rfl, rfl, rfl⟩

/-! ## The transport: what the receive path leaves untouched -/

theorem tauReadBinaryLoop_frame (n : Nat) :
    ∀ (t : Transport) (buffer : List Nat) (i status len : Int)
      (r : Int × List Nat × Transport),
      tauReadBinaryLoop t buffer i status len n = .ok r →
      r.2.2.writes = t.writes ∧ r.2.2.bodies = t.bodies ∧ r.2.2.sent = t.sent := by
  induction n with
  | zero =>
    intro t buffer i status len r h
    rw [tauReadBinaryLoop] at h
    cases h; exact ⟨rfl, rfl, rfl⟩
  | succ n ih =>
    intro t buffer i status len r h
    rw [tauReadBinaryLoop] at h
    split at h
    · rcases except_cases (tauReadChar t buffer i) with ⟨e, hc⟩ | ⟨a, hc⟩
      · rw [hc, error_bind] at h; cases h
      · rw [hc, ok_bind] at h
        obtain ⟨h1, h2, h3, _, _⟩ := tauReadChar_frame t buffer i a hc
        obtain ⟨g1, g2, g3⟩ := ih _ _ _ _ _ r h
        exact ⟨g1.trans h1, g2.trans h2, g3.trans h3⟩
    · cases h; exact ⟨rfl, rfl, rfl⟩

/-- Whatever `tauReceiveCmd` returns, the status is `CAM_OK` or `CAM_TIMEOUT_ERROR`, and
the log and the script of writes are as before. -/
theorem tauReceiveCmd_frame (t : Transport) (buffer : List Nat) (bufferCount : Int)
    (r : Int × List Nat × Int × Transport) (h : tauReceiveCmd t buffer bufferCount = .ok r) :
    (r.1 = CAM_OK ∨ r.1 = CAM_TIMEOUT_ERROR)
      ∧ r.2.2.2.writes = t.writes ∧ r.2.2.2.sent = t.sent := by
  unfold tauReceiveCmd at h
  try simp only at h
  split at h
  · cases h
  rcases except_cases (tauReadBinary t buffer TAU_HEADER_SIZE) with ⟨e, hc⟩ | ⟨a, hc⟩
  · rw [hc, error_bind] at h; cases h
  rw [hc, ok_bind] at h
  obtain ⟨f1, _, f3⟩ := tauReadBinaryLoop_frame _ _ _ _ _ _ a hc
  try simp only at h
  split at h
  · cases h; exact ⟨Or.inr rfl, f1, f3⟩
  split at h
  · cases h; exact ⟨Or.inr rfl, f1, f3⟩
  rcases except_cases (readU16 a.2.1 4) with ⟨e, hu⟩ | ⟨n, hu⟩
  · rw [hu, error_bind] at h; cases h
  rw [hu, ok_bind] at h
  try simp only at h
  split at h
  · cases h
  rcases except_cases (read a.2.2 a.2.1 TAU_HEADER_SIZE (toShort (n : Int) + 2))
    with ⟨e, hr⟩ | ⟨b, hr⟩
  · rw [hr, error_bind] at h; cases h
  rw [hr, ok_bind] at h
  obtain ⟨g1, _, g3⟩ := read_frame _ _ _ _ b hr
  try simp only at h
  split at h
  · cases h; exact ⟨Or.inr rfl, g1.trans f1, g3.trans f3⟩
  split at h
  · cases h; exact ⟨Or.inr rfl, g1.trans f1, g3.trans f3⟩
  · cases h; exact ⟨Or.inl rfl, g1.trans f1, g3.trans f3⟩

/-! ## The transport: `tauSendCmd` -/

theorem write_eq (t : Transport) (buffer : List Nat) (count w : Int) (ws : List Int)
    (h : t.writes = w :: ws) (hc : 0 ≤ count) (hb : count.toNat ≤ buffer.length) :
    write t buffer count
      = .ok (w, { t with writes := ws, sent := t.sent ++ [buffer.take count.toNat] }) := by
  unfold write
  rw [if_pos ⟨hc, hb⟩, h]

theorem tauSendCmd_eq (t : Transport) (buffer : List Nat) (s w : Int) (ws : List Int)
    (h : t.writes = w :: ws) (hs0 : 0 ≤ s) (hs1 : s ≤ 32767) (hb : s.toNat ≤ buffer.length) :
    tauSendCmd t buffer s
      = .ok (if toInt w ≠ s then toInt w else CAM_OK,
             { t with writes := ws, sent := t.sent ++ [buffer.take s.toNat] }) := by
  unfold tauSendCmd
  have hs : toShort s = s := toShort_of_range s (by omega) hs1
  simp only [hs]
  rw [write_eq t buffer s w ws h hs0 hb, ok_bind]
  by_cases hw : toInt w ≠ s
  · simp only [if_pos hw]
    split <;> rfl
  · simp only [if_neg hw]

/-- What a call of `tauSendCmd` leaves of the transport: one more entry in the log, the
scripts of reads untouched. -/
theorem tauSendCmd_frame (t : Transport) (buffer : List Nat) (s : Int) (r : Int × Transport)
    (h : tauSendCmd t buffer s = .ok r) :
    r.2.sent = t.sent ++ [buffer.take (toShort s).toNat] ∧ r.2.reads = t.reads
      ∧ r.2.bodies = t.bodies := by
  unfold tauSendCmd at h
  try simp only at h
  rcases except_cases (write t buffer (toShort s)) with ⟨e, hw⟩ | ⟨a, hw⟩
  · rw [hw, error_bind] at h; cases h
  rw [hw, ok_bind] at h
  have ha : a.2.sent = t.sent ++ [buffer.take (toShort s).toNat] ∧ a.2.reads = t.reads
      ∧ a.2.bodies = t.bodies := by
    unfold write at hw
    split at hw
    · split at hw
      · cases hw; exact ⟨rfl, rfl, rfl⟩
      · cases hw; exact ⟨rfl, rfl, rfl⟩
    · cases hw
  try simp only at h
  split at h
  · split at h <;> (cases h; exact ha)
  · cases h; exact ha

/-! ## `tauFlushReceivedData` -/

theorem tauFlushReceivedDataLoop_bytes (stale : List Nat) (e : ReadEvent)
    (rest : List ReadEvent) (he : e = .timeout ∨ e = .error) :
    ∀ (t : Transport) (x : Nat) (n : Nat), t.reads = stale.map .byte ++ e :: rest →
      stale.length + 2 ≤ n →
      tauFlushReceivedDataLoop CAM_OK [x] t n = .ok { t with reads := rest } := by
  induction stale with
  | nil =>
    intro t x n h hn
    obtain ⟨m, rfl⟩ : ∃ m, n = m + 2 := ⟨n - 2, by simp at hn; omega⟩
    rw [tauFlushReceivedDataLoop, if_pos rfl]
    obtain ⟨st, hst, hr⟩ := tauReadChar_stop t [x] 0 e rest (by simpa using h) he
    rw [hr, ok_bind, tauFlushReceivedDataLoop, if_neg hst]
  | cons b stale ih =>
    intro t x n h hn
    obtain ⟨m, rfl⟩ : ∃ m, n = m + 1 := ⟨n - 1, by simp at hn; omega⟩
    rw [tauFlushReceivedDataLoop, if_pos rfl]
    rw [tauReadChar_byte t [x] 0 b (stale.map .byte ++ e :: rest) (by simpa using h)]
    have hw : writeBytes [x] 0 [b] = .ok [b] := rfl
    rw [hw, ok_bind, ok_bind]
    exact ih { t with reads := stale.map .byte ++ e :: rest } b m rfl
      (by simp at hn; omega)

/-- The drain takes the queued bytes and the first timeout or transport error after
them, and reports `CAM_OK`. -/
theorem tauFlushReceivedData_bytes (t : Transport) (stale : List Nat) (e : ReadEvent)
    (rest : List ReadEvent) (he : e = .timeout ∨ e = .error)
    (h : t.reads = stale.map .byte ++ e :: rest) :
    tauFlushReceivedData t = .ok (CAM_OK, { t with reads := rest }) := by
  unfold tauFlushReceivedData
  rw [tauFlushReceivedDataLoop_bytes stale e rest he t 0 _ h (by rw [h]; simp), ok_bind]

theorem tauFlushReceivedDataLoop_stop (status : Int) (data : List Nat) (t : Transport)
    (n : Nat) (h : status ≠ CAM_OK) :
    tauFlushReceivedDataLoop status data t (n + 1) = .ok t := by
  rw [tauFlushReceivedDataLoop, if_neg h]

theorem tauFlushReceivedDataLoop_fuel (l : List ReadEvent) :
    ∀ (t : Transport) (x : Nat) (n m : Nat), t.reads = l → l.length + 2 ≤ n →
      l.length + 2 ≤ m →
      tauFlushReceivedDataLoop CAM_OK [x] t n = tauFlushReceivedDataLoop CAM_OK [x] t m := by
  induction l with
  | nil =>
    intro t x n m h hn hm
    obtain ⟨n, rfl⟩ : ∃ k, n = k + 2 := ⟨n - 2, by simp at hn; omega⟩
    obtain ⟨m, rfl⟩ : ∃ k, m = k + 2 := ⟨m - 2, by simp at hm; omega⟩
    rw [tauFlushReceivedDataLoop, if_pos rfl, tauReadChar_nil t _ _ h, ok_bind,
      tauFlushReceivedDataLoop_stop _ _ _ _ timeout_ne_ok]
    rw [tauFlushReceivedDataLoop, if_pos rfl, tauReadChar_nil t _ _ h, ok_bind,
      tauFlushReceivedDataLoop_stop _ _ _ _ timeout_ne_ok]
  | cons e l ih =>
    intro t x n m h hn hm
    obtain ⟨n, rfl⟩ : ∃ k, n = k + 2 := ⟨n - 2, by simp at hn; omega⟩
    obtain ⟨m, rfl⟩ : ∃ k, m = k + 2 := ⟨m - 2, by simp at hm; omega⟩
    rw [tauFlushReceivedDataLoop, if_pos rfl]
    rw [tauFlushReceivedDataLoop.eq_def CAM_OK [x] t (m + 2)]
    simp only [if_pos]
    cases e with
    | byte b =>
      rw [tauReadChar_byte t [x] 0 b l h]
      have hw : writeBytes [x] 0 [b] = .ok [b] := rfl
      rw [hw, ok_bind, ok_bind, ok_bind]
      exact ih { t with reads := l } b (n + 1) (m + 1) rfl (by simp at hn; omega)
        (by simp at hm; omega)
    | timeout =>
      rw [tauReadChar_timeout t [x] 0 l h, ok_bind, ok_bind]
      rw [tauFlushReceivedDataLoop_stop _ _ _ _ timeout_ne_ok,
        tauFlushReceivedDataLoop_stop _ _ _ _ timeout_ne_ok]
    | error =>
      rw [tauReadChar_error t [x] 0 l h, ok_bind, ok_bind]
      rw [tauFlushReceivedDataLoop_stop _ _ _ _ communication_ne_ok,
        tauFlushReceivedDataLoop_stop _ _ _ _ communication_ne_ok]
    | hangup =>
      rw [tauReadChar_hangup t [x] 0 l h, error_bind, error_bind]

/-- The bound on the passes of the drain is never reached: more passes give the same
result. -/
theorem tauFlushReceivedData_eq (t : Transport) (n : Nat) (hn : t.reads.length + 2 ≤ n) :
    tauFlushReceivedData t
      = (tauFlushReceivedDataLoop CAM_OK [0] t n).bind fun t => .ok (CAM_OK, t) := by
  unfold tauFlushReceivedData
  rw [tauFlushReceivedDataLoop_fuel t.reads t 0 (t.reads.length + 2) n rfl (le_refl _) hn]

/-! ## `tauDoCmd`: the three stages -/

theorem malloc_natCast (n : Nat) : malloc (n : Int) = some (List.replicate n 0) := by
  unfold malloc
  rw [if_pos (by omega)]
  simp

/-- With both allocations made and the request built, `tauDoCmd` is the send, the
receive and the decode, each stage entered when the one before gave 0. -/
theorem tauDoCmd_eq (sgn : Bool) (t : Transport) (cmd : Int) (input : Option (List Nat))
    (n : Nat) (output : Option (List Nat)) (output_count : Option Int) (F : List Nat)
    (rsp : Nat) (hn : n ≤ 32757)
    (hrsp : (match output_count with
      | some c => toShort (10 + toShort c)
      | none => 10) = (rsp : Int))
    (hbuild : tauBuildRequest cmd (List.replicate (10 + n) 0) ((10 + n : Nat) : Int) input
        (n : Int) = .ok (F, ((10 + n : Nat) : Int))) :
    tauDoCmd sgn t cmd input (n : Int) output output_count
      = (tauSendCmd t F ((10 + n : Nat) : Int)).bind fun s =>
          if s.1 ≠ 0 then .ok (s.1, output, output_count, s.2) else
          (tauReceiveCmd s.2 (List.replicate rsp 0) (rsp : Int)).bind fun r =>
          if r.1 ≠ 0 then .ok (r.1, output, output_count, r.2.2.2) else
          (tauDecodeResponse sgn cmd r.2.1 r.2.2.1 output output_count).bind fun d =>
          .ok (d.1, d.2.1, d.2.2, r.2.2.2) := by
  unfold tauDoCmd
  have h1 : toShort (n : Int) = (n : Int) := toShort_of_range _ (by omega) (by omega)
  have h2 : toShort (10 + (n : Int)) = ((10 + n : Nat) : Int) := by
    rw [toShort_of_range _ (by omega) (by omega)]; simp
  cases output_count with
  | none =>
    have hr : rsp = 10 := by simp only at hrsp; omega
    subst hr
    have h10 : malloc 10 = some (List.replicate 10 0) := rfl
    simp only [h1, h2, h10, malloc_natCast, hbuild, ok_bind]
    rfl
  | some c =>
    simp only at hrsp
    simp only [h1, h2, hrsp, malloc_natCast, hbuild, ok_bind]

theorem bind_eq_ok {α β : Type} (x : Except Fault α) (f : α → Except Fault β) (r : β)
    (h : x.bind f = .ok r) : ∃ a, x = .ok a ∧ f a = .ok r := by
  rcases except_cases x with ⟨e, hx⟩ | ⟨a, hx⟩
  · rw [hx, error_bind] at h; cases h
  · rw [hx, ok_bind] at h; exact ⟨a, hx, h⟩

theorem tauBuildRequest_malloc (cmd : Int) (input : Option (List Nat))
    (hP : (input.getD []).length ≤ 32757) :
    tauBuildRequest cmd (List.replicate (10 + (input.getD []).length) 0)
        ((10 + (input.getD []).length : Nat) : Int) input ((input.getD []).length : Int)
      = .ok (frameOf cmd (input.getD []), ((10 + (input.getD []).length : Nat) : Int)) := by
  cases input with
  | none =>
    have h := tauBuildRequest_empty cmd (List.replicate 10 0) 10 none (by decide) (by simp)
    simp only [Option.getD_none, List.length_nil, Nat.add_zero, Nat.cast_zero]
    rw [show ((10 : Nat) : Int) = 10 from rfl, h]
    simp
  | some P =>
    simp only [Option.getD_some] at hP ⊢
    have h := tauBuildRequest_frame cmd (List.replicate (10 + P.length) 0)
      ((10 + P.length : Nat) : Int) P hP
      (by rw [toShort_of_range _ (by omega) (by omega)]; simp) (by simp)
    rw [h]
    simp

/-- The capacity of the response buffer of `tauDoCmd`: 10 bytes more than the capacity
the caller announces for the output, 10 bytes when there is no output count. -/
theorem rsp_size_eq (output_count : Option Int) :
    (∀ c, output_count = some c → 0 ≤ c ∧ c ≤ 32757) →
    (match output_count with
      | some c => toShort (10 + toShort c)
      | none => 10) = ((10 + (output_count.getD 0).toNat : Nat) : Int) := by
  intro hoc
  cases output_count with
  | none => rfl
  | some c =>
    obtain ⟨h0, h1⟩ := hoc c rfl
    simp only [Option.getD_some]
    rw [toShort_of_range c (by omega) (by omega), toShort_of_range _ (by omega) (by omega)]
    omega

theorem output_count_range (output_count : Option Int)
    (hoc : ∀ c, output_count = some c → 0 ≤ c ∧ c ≤ 32757) :
    0 ≤ output_count.getD 0 ∧ output_count.getD 0 ≤ 32757 := by
  cases output_count with
  | none => simp
  | some c => simpa using hoc c rfl

/-- The stages of `tauDoCmd` once `write` has returned `w`. -/
theorem tauDoCmd_stages (sgn : Bool) (t : Transport) (cmd : Int) (input : Option (List Nat))
    (output : Option (List Nat)) (output_count : Option Int) (w : Int) (ws : List Int)
    (hP : (input.getD []).length ≤ 32757)
    (hoc : ∀ c, output_count = some c → 0 ≤ c ∧ c ≤ 32757)
    (hw : t.writes = w :: ws) :
    tauDoCmd sgn t cmd input ((input.getD []).length : Int) output output_count
      = if (if toInt w ≠ ((10 + (input.getD []).length : Nat) : Int) then toInt w else CAM_OK) ≠ 0
        then .ok (if toInt w ≠ ((10 + (input.getD []).length : Nat) : Int) then toInt w
            else CAM_OK, output, output_count,
          { t with writes := ws, sent := t.sent ++ [frameOf cmd (input.getD [])] })
        else
          (tauReceiveCmd { t with writes := ws, sent := t.sent ++ [frameOf cmd (input.getD [])] }
            (List.replicate (10 + (output_count.getD 0).toNat) 0)
            ((10 + (output_count.getD 0).toNat : Nat) : Int)).bind fun r =>
          if r.1 ≠ 0 then .ok (r.1, output, output_count, r.2.2.2) else
          (tauDecodeResponse sgn cmd r.2.1 r.2.2.1 output output_count).bind fun d =>
          .ok (d.1, d.2.1, d.2.2, r.2.2.2) := by
  rw [tauDoCmd_eq sgn t cmd input _ output output_count (frameOf cmd (input.getD []))
    (10 + (output_count.getD 0).toNat) hP (rsp_size_eq output_count hoc)
    (tauBuildRequest_malloc cmd input hP)]
  have hlen : (((10 + (input.getD []).length : Nat) : Int)).toNat
      = (frameOf cmd (input.getD [])).length := by
    rw [frameOf_length]; exact Int.toNat_ofNat _
  rw [tauSendCmd_eq t _ _ w ws hw (by omega) (by omega) (by omega), ok_bind, hlen,
    List.take_length]

/-- An announced payload that does not fit the capacity stops `tauReceiveCmd` in one of
its assertions. -/
theorem tauReceiveCmd_oversized (t : Transport) (buffer : List Nat) (bufferCount : Int)
    (b0 b1 b2 b3 n1 n2 h1 h2 : Nat) (rest : List ReadEvent)
    (hreads : t.reads = [b0, b1, b2, b3, n1, n2, h1, h2].map .byte ++ rest)
    (hN : n1 * 256 + n2 ≤ 32767) (hobj : toShort bufferCount ≤ (buffer.length : Int))
    (hover : toShort bufferCount < 8 + ((n1 * 256 + n2 : Nat) : Int) + 2) :
    tauReceiveCmd t buffer bufferCount = .error .assertion := by
  by_cases hcap : 8 ≤ toShort bufferCount
  · rw [tauReceiveCmd_header t buffer bufferCount b0 b1 b2 b3 n1 n2 h1 h2 rest hreads hcap
      (by omega)]
    rw [toShort_of_range ((n1 * 256 + n2 : Nat) : Int) (by omega) (by omega)]
    rw [if_pos (by simp only [TAU_HEADER_SIZE]; omega)]
  · unfold tauReceiveCmd
    simp only
    rw [if_pos (by simp only [TAU_HEADER_SIZE]; omega)]

/-- A response capacity that is negative as a `short` cannot be allocated: `tauDoCmd`
returns `CAM_NOT_READY` before anything is sent. -/
theorem tauDoCmd_no_memory (sgn : Bool) (t : Transport) (cmd : Int) (input : Option (List Nat))
    (output : Option (List Nat)) (c : Int) (hP : (input.getD []).length ≤ 32757)
    (hc : toShort (10 + toShort c) < 0) :
    tauDoCmd sgn t cmd input ((input.getD []).length : Int) output (some c)
      = .ok (CAM_NOT_READY, output, some c, t) := by
  unfold tauDoCmd
  have h1 : toShort ((input.getD []).length : Int) = ((input.getD []).length : Int) :=
    toShort_of_range _ (by omega) (by omega)
  have h2 : toShort (10 + ((input.getD []).length : Int))
      = ((10 + (input.getD []).length : Nat) : Int) := by
    rw [toShort_of_range _ (by omega) (by omega)]; simp
  have h3 : malloc (toShort (10 + toShort c)) = none := by
    unfold malloc; rw [if_neg (by omega)]
  simp only [h1, h2, malloc_natCast, h3]

/-- A `write` that returns a value `w` other than the size of the request and other than
0: `tauDoCmd` returns `w` without reading, or `CAM_NOT_READY` without sending when the
response buffer cannot be allocated. -/
theorem tauDoCmd_send_fails (sgn : Bool) (t : Transport) (cmd : Int)
    (input : Option (List Nat)) (output : Option (List Nat)) (output_count : Option Int)
    (w : Int) (ws : List Int) (hP : (input.getD []).length ≤ 32757)
    (hw : t.writes = w :: ws) (hi : toInt w = w)
    (hne : w ≠ ((10 + (input.getD []).length : Nat) : Int)) (h0 : w ≠ 0) :
    tauDoCmd sgn t cmd input ((input.getD []).length : Int) output output_count
        = .ok (w, output, output_count,
            { t with writes := ws, sent := t.sent ++ [frameOf cmd (input.getD [])] })
    ∨ tauDoCmd sgn t cmd input ((input.getD []).length : Int) output output_count
        = .ok (CAM_NOT_READY, output, output_count, t) := by
  have hlen : (((10 + (input.getD []).length : Nat) : Int)).toNat
      = (frameOf cmd (input.getD [])).length := by
    rw [frameOf_length]; exact Int.toNat_ofNat _
  have key : ∀ rsp : Nat,
      (match output_count with
        | some c => toShort (10 + toShort c)
        | none => 10) = (rsp : Int) →
      tauDoCmd sgn t cmd input ((input.getD []).length : Int) output output_count
        = .ok (w, output, output_count,
            { t with writes := ws, sent := t.sent ++ [frameOf cmd (input.getD [])] }) := by
    intro rsp hrsp
    rw [tauDoCmd_eq sgn t cmd input _ output output_count (frameOf cmd (input.getD []))
      rsp hP hrsp (tauBuildRequest_malloc cmd input hP)]
    rw [tauSendCmd_eq t _ _ w ws hw (by omega) (by omega) (by omega), ok_bind, hlen,
      List.take_length, hi]
    simp only [if_pos hne, if_pos h0]
  cases output_count with
  | none => exact Or.inl (key 10 rfl)
  | some c =>
    by_cases hc : 0 ≤ toShort (10 + toShort c)
    · exact Or.inl (key (toShort (10 + toShort c)).toNat (Int.toNat_of_nonneg hc).symm)
    · exact Or.inr (tauDoCmd_no_memory sgn t cmd input output c hP (by omega))

/-! ## C1 - C3: building a request -/

/-- C1 (as amended): round trip.  For every command code `cmd` in [0, 256) that is below
128 or read on a platform whose plain `char` is unsigned, every payload `P` with
`|P| ≤ 32757`, a request buffer whose announced capacity is a `short` `≥ 10 + |P|`, and an
output buffer of announced capacity `C ≥ |P|`: `tauBuildRequest` returns a frame of
`10 + |P|` bytes, and `tauDecodeResponse` with expected command `cmd` on that frame returns
`CAM_OK`, writes exactly the bytes of `P` at the start of the output buffer and reports the
length `|P|`. -/
theorem C1_round_trip (sgn : Bool) (cmd : Nat) (P buffer out : List Nat) (bufferCount C : Int)
    (hcmd : cmd < 256) (hsgn : sgn = false ∨ cmd < 128)
    (hN : P.length ≤ 32757)
    (hcap : 10 + (P.length : Int) ≤ bufferCount) (hshort : bufferCount ≤ 32767)
    (hlen : bufferCount ≤ (buffer.length : Int))
    (hC : (P.length : Int) ≤ C) (hCshort : C ≤ 32767) (hout : C ≤ (out.length : Int)) :
    ∃ buffer', tauBuildRequest (cmd : Int) buffer bufferCount (some P) (P.length : Int)
        = .ok (buffer', 10 + (P.length : Int))
      ∧ tauDecodeResponse sgn (cmd : Int) (buffer'.take (10 + P.length)) (10 + (P.length : Int))
          (some out) (some C)
        = .ok (CAM_OK, some (P ++ out.drop P.length), some (P.length : Int)) := by
  have hbc : toShort bufferCount = bufferCount := toShort_of_range _ (by omega) (by omega)
  have hCs : toShort C = C := toShort_of_range _ (by omega) (by omega)
  refine ⟨_, tauBuildRequest_frame (cmd : Int) buffer bufferCount P hN (by omega) (by omega), ?_⟩
  rw [frameOf_take]
  have h := tauDecodeResponse_frameOf sgn cmd P [] (10 + (P.length : Int)) (some out) (some C)
    hcmd hsgn (by omega)
  rw [List.append_nil] at h
  rw [h]
  by_cases hP : P = []
  · subst hP
    simpa using tauDecodeResponseData_zero CAM_OK (frameOf (cmd : Int) []) out C
  · have hpos : 0 < P.length := List.length_pos.2 hP
    have hF : frameOf (cmd : Int) P = frameHeader (cmd : Int) P.length
        ++ (P ++ [crcCcitt16Loop (frameHeader (cmd : Int) P.length ++ P) / 256 % 256,
                  crcCcitt16Loop (frameHeader (cmd : Int) P.length ++ P) % 256]) := by
      simp [frameOf]
    rw [hF]
    exact tauDecodeResponseData_copy CAM_OK _ P _ out C (by simp [frameHeader, frameHead]) hpos
      (by omega) (by omega)

theorem C1_round_trip_witness :
    (5 < 256 ∧ (false = false ∨ 5 < 128) ∧ [0x0A, 0x00].length ≤ 32757) ∧
    ∃ buffer', tauBuildRequest ((5 : Nat) : Int) (List.replicate 12 0) 12 (some [0x0A, 0x00])
          (([0x0A, 0x00] : List Nat).length : Int)
        = .ok (buffer', 10 + (([0x0A, 0x00] : List Nat).length : Int))
      ∧ tauDecodeResponse false ((5 : Nat) : Int) (buffer'.take (10 + [0x0A, 0x00].length))
          (10 + (([0x0A, 0x00] : List Nat).length : Int)) (some [7, 7, 7]) (some 3)
        = .ok (CAM_OK, some ([0x0A, 0x00] ++ [7, 7, 7].drop [0x0A, 0x00].length),
            some (([0x0A, 0x00] : List Nat).length : Int)) :=
  ⟨by decide, C1_round_trip false 5 [0x0A, 0x00] (List.replicate 12 0) [7, 7, 7] 12 3
    (by decide) (by decide) (by decide) (by decide) (by decide) (by decide) (by decide)
    (by decide) (by decide)⟩

/-- C1 (counterexample): a payload of 40000 bytes (`≤ 65535`) in a buffer of 40010 bytes.
The size reaches `tauBuildRequest` as the `short` -25536, the assertion on the capacity
passes, and `memcpy` is asked for a negative number of bytes: no frame is produced, so
nothing can be decoded. -/
theorem C1_counterexample :
    tauBuildRequest GET_REVISION (List.replicate 40010 0) 40010
      (some (List.replicate 40000 0)) 40000 = .error .undefined :=
  tauBuildRequest_negative _ _ _ _ _ (by decide) (by decide)

/-- C2: `tauBuildRequest` reproduces the documented wire vectors in the 100 byte buffer of
`tauRunTests`: (`FFC_MODE_SELECT`, no payload), (`GET_REVISION`, no payload) and
(`GET_REVISION`, payload 0A 00 02 2B 08 00 00 40), with reported sizes 10, 10 and 18; the
bytes of the buffer after the packet are untouched. -/
theorem C2_wire_vectors (buffer : List Nat) (hlen : buffer.length = 100) :
    tauBuildRequest FFC_MODE_SELECT buffer 100 none 0
        = .ok ([0x6E, 0x00, 0x00, 0x0B, 0x00, 0x00, 0x2F, 0x4A, 0x00, 0x00]
                ++ buffer.drop 10, 10)
    ∧ tauBuildRequest GET_REVISION buffer 100 none 0
        = .ok ([0x6E, 0x00, 0x00, 0x05, 0x00, 0x00, 0x34, 0x4B, 0x00, 0x00]
                ++ buffer.drop 10, 10)
    ∧ tauBuildRequest GET_REVISION buffer 100
          (some [0x0A, 0x00, 0x02, 0x2B, 0x08, 0x00, 0x00, 0x40]) 8
        = .ok ([0x6E, 0x00, 0x00, 0x05, 0x00, 0x08, 0xB5, 0x43,
                0x0A, 0x00, 0x02, 0x2B, 0x08, 0x00, 0x00, 0x40, 0x33, 0x70]
                ++ buffer.drop 18, 18) := by
  have h100 : toShort 100 = 100 := rfl
  refine ⟨?_, ?_, ?_⟩
  · rw [tauBuildRequest_empty _ buffer 100 none (by rw [h100]; decide) (by omega)]
    rfl
  · rw [tauBuildRequest_empty _ buffer 100 none (by rw [h100]; decide) (by omega)]
    rfl
  · have h := tauBuildRequest_payload GET_REVISION buffer 100
      [0x0A, 0x00, 0x02, 0x2B, 0x08, 0x00, 0x00, 0x40] (by simp) (by simp)
      (by rw [h100]; decide) (by simp; omega)
    exact h

theorem C2_wire_vectors_witness :
    (List.replicate 100 0).length = 100 ∧
    tauBuildRequest FFC_MODE_SELECT (List.replicate 100 0) 100 none 0
      = .ok ([0x6E, 0x00, 0x00, 0x0B, 0x00, 0x00, 0x2F, 0x4A, 0x00, 0x00]
              ++ (List.replicate 100 0).drop 10, 10) :=
  ⟨by simp, (C2_wire_vectors (List.replicate 100 0) (by simp)).1⟩

/-- C3 (as amended): wire layout.  For every command code `cmd` in [0, 256) and every
payload `P` of length `N ≤ 32757`, in a buffer whose announced capacity is a `short`
`≥ 10 + N`, `tauBuildRequest` leaves exactly the `10 + N` bytes
`[0x6E, 0x00, 0x00, cmd, N>>8, N&0xFF, h>>8, h&0xFF] ++ P ++ [f>>8, f&0xFF]` at the start
of the buffer, where `h` is the CRC of the first 6 bytes and `f` is the CRC of the first
`8 + N` bytes (both as computed by the loop of `crcCcitt16`), leaves the rest of the buffer
untouched and reports the size `10 + N`. -/
theorem C3_wire_layout (cmd : Nat) (P buffer : List Nat) (bufferCount : Int)
    (hcmd : cmd < 256) (hN : P.length ≤ 32757)
    (hcap : 10 + (P.length : Int) ≤ bufferCount) (hshort : bufferCount ≤ 32767)
    (hlen : bufferCount ≤ (buffer.length : Int)) :
    ∃ h f : Nat,
      h = crcCcitt16Loop [0x6E, 0x00, 0x00, cmd, P.length >>> 8, P.length &&& 0xFF]
      ∧ f = crcCcitt16Loop ([0x6E, 0x00, 0x00, cmd, P.length >>> 8, P.length &&& 0xFF,
              h >>> 8, h &&& 0xFF] ++ P)
      ∧ tauBuildRequest (cmd : Int) buffer bufferCount (some P) (P.length : Int)
        = .ok ([0x6E, 0x00, 0x00, cmd, P.length >>> 8, P.length &&& 0xFF, h >>> 8, h &&& 0xFF]
                ++ P ++ [f >>> 8, f &&& 0xFF] ++ buffer.drop (10 + P.length),
               10 + (P.length : Int)) := by
  have hbc : toShort bufferCount = bufferCount := toShort_of_range _ (by omega) (by omega)
  have e1 : toByte (cmd : Int) = cmd := by unfold toByte; omega
  have hi : ∀ x : Nat, x < 65536 → x >>> 8 = x / 256 % 256 := by
    intro x hx; rw [Nat.shiftRight_eq_div_pow]; omega
  have lo : ∀ x : Nat, x &&& 0xFF = x % 256 := fun x => Nat.and_pow_two_sub_one_eq_mod x 8
  have hH6 : [0x6E, 0x00, 0x00, cmd, P.length >>> 8, P.length &&& 0xFF]
      = frameHead (cmd : Int) P.length := by
    rw [hi P.length (by omega), lo]; simp [frameHead, e1]
  have hH8 : [0x6E, 0x00, 0x00, cmd, P.length >>> 8, P.length &&& 0xFF,
        crcCcitt16Loop (frameHead (cmd : Int) P.length) >>> 8,
        crcCcitt16Loop (frameHead (cmd : Int) P.length) &&& 0xFF]
      = frameHeader (cmd : Int) P.length := by
    rw [hi P.length (by omega), hi _ (crcCcitt16Loop_lt _), lo, lo]
    simp [frameHeader, frameHead, e1]
  refine ⟨crcCcitt16Loop (frameHead (cmd : Int) P.length),
    crcCcitt16Loop (frameHeader (cmd : Int) P.length ++ P), ?_, ?_, ?_⟩
  · rw [hH6]
  · rw [hH8]
  · rw [tauBuildRequest_frame (cmd : Int) buffer bufferCount P hN (by omega) (by omega), hH8,
      hi _ (crcCcitt16Loop_lt _), lo]
    simp [frameOf]

theorem C3_wire_layout_witness :
    (5 < 256 ∧ ([0x0A, 0x00] : List Nat).length ≤ 32757) ∧
    ∃ h f : Nat,
      h = crcCcitt16Loop [0x6E, 0x00, 0x00, 5, [0x0A, 0x00].length >>> 8,
            [0x0A, 0x00].length &&& 0xFF]
      ∧ f = crcCcitt16Loop ([0x6E, 0x00, 0x00, 5, [0x0A, 0x00].length >>> 8,
            [0x0A, 0x00].length &&& 0xFF, h >>> 8, h &&& 0xFF] ++ [0x0A, 0x00])
      ∧ tauBuildRequest ((5 : Nat) : Int) (List.replicate 12 0) 12 (some [0x0A, 0x00])
          (([0x0A, 0x00] : List Nat).length : Int)
        = .ok ([0x6E, 0x00, 0x00, 5, [0x0A, 0x00].length >>> 8, [0x0A, 0x00].length &&& 0xFF,
                h >>> 8, h &&& 0xFF]
                ++ [0x0A, 0x00] ++ [f >>> 8, f &&& 0xFF]
                ++ (List.replicate 12 0).drop (10 + [0x0A, 0x00].length),
               10 + (([0x0A, 0x00] : List Nat).length : Int)) :=
  ⟨by decide, C3_wire_layout 5 [0x0A, 0x00] (List.replicate 12 0) 12 (by decide) (by decide)
    (by decide) (by decide) (by decide)⟩

/-- C3 (counterexample): a payload of 32758 bytes (`≤ 65535`) in a buffer of 32768 bytes.
The capacity `10 + N = 32768` does not fit the `short` that announces it: announced as
32768 it is read as -32768, and the largest `short`, 32767, is below `10 + N`; in both
cases the assertion of `tauBuildRequest` stops the run and no byte is produced. -/
theorem C3_counterexample :
    tauBuildRequest GET_REVISION (List.replicate 32768 0) 32768
        (some (List.replicate 32758 0)) 32758 = .error .assertion
    ∧ tauBuildRequest GET_REVISION (List.replicate 32768 0) 32767
        (some (List.replicate 32758 0)) 32758 = .error .assertion := by
  have h1 : toShort 32758 = 32758 := by decide
  have h2 : toShort 32768 = -32768 := by decide
  have h3 : toShort 32767 = 32767 := by decide
  constructor
  · unfold tauBuildRequest
    simp only [h1, h2, TAU_HEADER_SIZE]
    rw [if_pos (by decide)]
  · unfold tauBuildRequest
    simp only [h1, h3, TAU_HEADER_SIZE]
    rw [if_pos (by decide)]

/-- C4 (as amended): CRC gating of decode.  For every buffer holding a complete frame (length
`10 + N`, `N ≤ 32767` read big-endian from bytes 4..5) whose byte 0 is 0x6E, whose status
byte is Ok and whose byte 3 is the expected command `cmd` in [0, 256) (below 128, or read
where plain `char` is unsigned), and with the output buffer absent or of announced capacity
`≥ N`: `tauDecodeResponse` returns, its status is `CAM_OK` if and only if bytes 6..7 hold the
big-endian `crcCcitt16` of bytes [0,6) and bytes 8+N..9+N hold the big-endian `crcCcitt16` of
bytes [0,8+N), and otherwise it is `CAM_CHECKSUM_ERROR`.  The GetRevision vector with byte 8
changed from 0x0A to 0x0B decodes as `CAM_CHECKSUM_ERROR`. -/
theorem C4_crc_gating (sgn : Bool) (cmd N : Nat) (buffer : List Nat) (bufferSize : Int)
    (data : Option (List Nat)) (dataCount : Option Int)
    (hlen : buffer.length = 10 + N) (hN : readU16 buffer 4 = .ok N) (hN' : N ≤ 32767)
    (h0 : buffer[0]? = some 0x6E) (h1 : buffer[1]? = some 0) (h3 : buffer[3]? = some cmd)
    (hcmd : cmd < 256) (hsgn : sgn = false ∨ cmd < 128)
    (hout : data = none ∨ ∃ dst C, data = some dst ∧ dataCount = some C
      ∧ (N : Int) ≤ toShort C ∧ N ≤ dst.length) :
    (∃ st d c, tauDecodeResponse sgn (cmd : Int) buffer bufferSize data dataCount = .ok (st, d, c)
      ∧ (st = CAM_OK ↔ (readU16 buffer 6 = crcCcitt16 buffer 6
            ∧ readU16 buffer (8 + (N : Int)) = crcCcitt16 buffer (8 + (N : Int))))
      ∧ (st ≠ CAM_OK → st = CAM_CHECKSUM_ERROR))
    ∧ tauDecodeResponse sgn GET_REVISION
        [0x6E, 0x00, 0x00, 0x05, 0x00, 0x08, 0xB5, 0x43,
         0x0B, 0x00, 0x02, 0x2B, 0x08, 0x00, 0x00, 0x40, 0x33, 0x70] 18 data dataCount
      = .ok (CAM_CHECKSUM_ERROR, data, dataCount) := by
  constructor
  · obtain ⟨b0, b1, b2, b3, n1, n2, h1', h2', f1, f2, Pl, rfl, hPl⟩ := list_shape buffer N hlen
    simp at h0 h1 h3
    subst h0 h1 h3
    obtain ⟨B, hB⟩ : ∃ B, B = 0x6E :: 0 :: b2 :: b3 :: n1 :: n2 :: h1' :: h2' :: (Pl ++ [f1, f2]) :=
      ⟨_, rfl⟩
    rw [← hB] at hN ⊢
    have r4 : readU16 B 4 = .ok (n1 * 256 + n2) :=
      readU16_at B [0x6E, 0, b2, b3] _ n1 n2 4 hB rfl
    have r6 : readU16 B 6 = .ok (h1' * 256 + h2') :=
      readU16_at B [0x6E, 0, b2, b3, n1, n2] _ h1' h2' 6 hB rfl
    have c6 : crcCcitt16 B 6 = .ok (crcCcitt16Loop [0x6E, 0, b2, b3, n1, n2]) :=
      crcCcitt16_at B [0x6E, 0, b2, b3, n1, n2] _ 6 hB rfl
    have rf : readU16 B (8 + (N : Int)) = .ok (f1 * 256 + f2) :=
      readU16_at B (0x6E :: 0 :: b2 :: b3 :: n1 :: n2 :: h1' :: h2' :: Pl) [] f1 f2 _
        (by rw [hB]; simp) (by simp; omega)
    have cf : crcCcitt16 B (8 + (N : Int))
        = .ok (crcCcitt16Loop (0x6E :: 0 :: b2 :: b3 :: n1 :: n2 :: h1' :: h2' :: Pl)) :=
      crcCcitt16_at B (0x6E :: 0 :: b2 :: b3 :: n1 :: n2 :: h1' :: h2' :: Pl) [f1, f2] _
        (by rw [hB]; simp) (by simp [toUShort]; omega)
    have hn : n1 * 256 + n2 = Pl.length := by
      rw [r4] at hN; rw [hPl]; exact Except.ok.inj hN
    have e1 : toByte (b3 : Int) = b3 := by unfold toByte; omega
    have hc := charVal_cmd sgn b3 hcmd hsgn
    rw [e1] at hc
    rw [r6, c6, rf, cf, hB, tauDecodeResponse_header]
    rw [if_neg (by simp [charVal]), if_neg (by simp [charVal, CAM_OK]),
      if_neg (by rw [hc]; simp)]
    subst hPl
    by_cases hh : h1' * 256 + h2' = crcCcitt16Loop [0x6E, 0, b2, b3, n1, n2]
    · rw [if_neg (by simpa using hh),
        tauDecodeResponseFrame_shape _ _ _ _ _ _ _ _ _ _ _ _ _ _ _ hn hN']
      by_cases hf : f1 * 256 + f2
          = crcCcitt16Loop (0x6E :: 0 :: b2 :: b3 :: n1 :: n2 :: h1' :: h2' :: Pl)
      · rw [if_neg (by simpa using hf)]
        obtain ⟨d, c, hd⟩ := tauDecodeResponseData_ok (charVal sgn 0)
          [0x6E, 0, b2, b3, n1, n2, h1', h2'] Pl [f1, f2] data dataCount rfl hout
        refine ⟨charVal sgn 0, d, c, hd, ?_, ?_⟩
        · simp [charVal, CAM_OK, hh, hf]
        · simp [charVal, CAM_OK]
      · rw [if_pos (by simpa using hf)]
        refine ⟨CAM_CHECKSUM_ERROR, data, dataCount, rfl, ?_, ?_⟩
        · simp [CAM_CHECKSUM_ERROR, CAM_OK, hf]
        · simp
    · rw [if_pos (by simpa using hh)]
      refine ⟨CAM_CHECKSUM_ERROR, data, dataCount, rfl, ?_, ?_⟩
      · simp [CAM_CHECKSUM_ERROR, CAM_OK, hh]
      · simp
  · rw [tauDecodeResponse_header]
    rw [if_neg (by simp [charVal]), if_neg (by simp [charVal, CAM_OK]),
      if_neg (by cases sgn <;> decide), if_neg (by decide)]
    have h := tauDecodeResponseFrame_shape (charVal sgn 0) 0x6E 0x00 0x00 0x05 0x00 0x08 0xB5 0x43
      0x33 0x70 [0x0B, 0x00, 0x02, 0x2B, 0x08, 0x00, 0x00, 0x40] [] data dataCount
      (by decide) (by decide)
    rw [if_pos (by decide)] at h
    exact h

theorem C4_crc_gating_witness :
    (([0x6E, 0x00, 0x00, 0x05, 0x00, 0x00, 0x34, 0x4B, 0x00, 0x00] : List Nat).length = 10 + 0
      ∧ readU16 [0x6E, 0x00, 0x00, 0x05, 0x00, 0x00, 0x34, 0x4B, 0x00, 0x00] 4 = .ok 0) ∧
    ∃ st d c, tauDecodeResponse false ((5 : Nat) : Int)
          [0x6E, 0x00, 0x00, 0x05, 0x00, 0x00, 0x34, 0x4B, 0x00, 0x00] 10 none none
        = .ok (st, d, c)
      ∧ (st = CAM_OK ↔
          (readU16 [0x6E, 0x00, 0x00, 0x05, 0x00, 0x00, 0x34, 0x4B, 0x00, 0x00] 6
              = crcCcitt16 [0x6E, 0x00, 0x00, 0x05, 0x00, 0x00, 0x34, 0x4B, 0x00, 0x00] 6
            ∧ readU16 [0x6E, 0x00, 0x00, 0x05, 0x00, 0x00, 0x34, 0x4B, 0x00, 0x00]
                (8 + ((0 : Nat) : Int))
              = crcCcitt16 [0x6E, 0x00, 0x00, 0x05, 0x00, 0x00, 0x34, 0x4B, 0x00, 0x00]
                (8 + ((0 : Nat) : Int))))
      ∧ (st ≠ CAM_OK → st = CAM_CHECKSUM_ERROR) :=
  ⟨⟨rfl, rfl⟩, (C4_crc_gating false 5 0 [0x6E, 0x00, 0x00, 0x05, 0x00, 0x00, 0x34, 0x4B, 0x00, 0x00]
    10 none none rfl rfl (by decide) rfl rfl rfl (by decide) (Or.inl rfl) (Or.inl rfl)).1⟩

/-- C4 (counterexample): a complete frame of `10 + N` bytes with `N = 65534` (length bytes
FF FE), byte 0 = 0x6E, status Ok, byte 3 = the expected command, a correct header CRC
(39 65) and a payload of zeros.  The CRC of its first `8 + N` bytes is 0x0000, its last two
bytes are 00 01, and `tauDecodeResponse` returns `CAM_OK`: `data_len` is the `short` -2, so
the header CRC is checked a second time in place of the frame CRC. -/
theorem C4_counterexample :
    crcCcitt16Loop ((0x6E :: 0x00 :: 0x00 :: 0x05 :: 0xFF :: 0xFE :: 0x39 :: 0x65
        :: (List.replicate 65534 0 ++ [0x00, 0x01])).take (8 + 65534)) = 0x0000
    ∧ readU16 (0x6E :: 0x00 :: 0x00 :: 0x05 :: 0xFF :: 0xFE :: 0x39 :: 0x65
        :: (List.replicate 65534 0 ++ [0x00, 0x01])) (8 + 65534) = .ok 0x0001
    ∧ tauDecodeResponse false GET_REVISION
        (0x6E :: 0x00 :: 0x00 :: 0x05 :: 0xFF :: 0xFE :: 0x39 :: 0x65
          :: (List.replicate 65534 0 ++ [0x00, 0x01])) 65544 none none
      = .ok (CAM_OK, none, none) := by
  refine ⟨crc_header_FFFE_zeros 65534 [0x00, 0x01], ?_, tauDecodeResponse_len_FFFE _ 65544⟩
  have h := readU16_trailer 0x6E 0x00 0x00 0x05 0xFF 0xFE 0x39 0x65 0x00 0x01
    (List.replicate 65534 0)
  rw [List.length_replicate] at h
  exact h

/-! ## C5 - C9: decoding a response -/

/-- C5 (as amended): single-byte tamper detection.  For every frame produced by
`tauBuildRequest` (command code `cmd` in [0, 256), payload `P` of at most 32757 bytes), on
either kind of plain `char`, and every position `i` in it, replacing byte `i` by a
different byte `v` yields a buffer that `tauDecodeResponse`, with the original command
expected, never decodes with `CAM_OK`: the status is `CAM_CHECKSUM_ERROR` or
`CAM_COMMUNICATION_ERROR` for every position other than the status byte, and for the status
byte (`i = 1`) it is the new status byte as the decoder reads it, returned as a
camera-reported status.  The output arguments are left as they were. -/
theorem C5_single_byte_tamper (sgn : Bool) (cmd : Nat) (P buffer buffer' : List Nat)
    (bufferCount n' : Int) (data : Option (List Nat)) (dataCount : Option Int) (i v : Nat)
    (hcmd : cmd < 256) (hP : ∀ x ∈ P, x < 256) (hN : P.length ≤ 32757)
    (hcap : 10 + (P.length : Int) ≤ bufferCount) (hshort : bufferCount ≤ 32767)
    (hlen : bufferCount ≤ (buffer.length : Int))
    (hbuild : tauBuildRequest (cmd : Int) buffer bufferCount (some P) (P.length : Int)
      = .ok (buffer', n'))
    (hi : i < 10 + P.length) (hv : v < 256)
    (hne : (buffer'.take (10 + P.length))[i]? ≠ some v) :
    n' = 10 + (P.length : Int)
    ∧ ∃ st, tauDecodeResponse sgn (cmd : Int) ((buffer'.take (10 + P.length)).set i v) n'
          data dataCount = .ok (st, data, dataCount)
      ∧ st ≠ CAM_OK
      ∧ (i ≠ 1 → st = CAM_CHECKSUM_ERROR ∨ st = CAM_COMMUNICATION_ERROR)
      ∧ (i = 1 → st = charVal sgn v) := by
  have hbc : toShort bufferCount = bufferCount := toShort_of_range _ (by omega) (by omega)
  rw [tauBuildRequest_frame (cmd : Int) buffer bufferCount P hN (by omega) (by omega)] at hbuild
  have hpair := Except.ok.inj hbuild
  have hb : buffer' = frameOf (cmd : Int) P ++ buffer.drop (10 + P.length) :=
    (congrArg Prod.fst hpair).symm
  have hn : n' = 10 + (P.length : Int) := (congrArg Prod.snd hpair).symm
  subst hb
  rw [frameOf_take] at hne ⊢
  exact ⟨hn, tamper_status sgn cmd P i v _ data dataCount hcmd hP (by omega) hi hv hne⟩

theorem C5_single_byte_tamper_witness :
    (tauBuildRequest ((5 : Nat) : Int) (List.replicate 12 0) 12 (some [0x0A, 0x00])
        (([0x0A, 0x00] : List Nat).length : Int)
        = .ok ([0x6E, 0x00, 0x00, 0x05, 0x00, 0x02, 0x14, 0x09, 0x0A, 0x00, 0xEF, 0xCB], 12)
      ∧ (([0x6E, 0x00, 0x00, 0x05, 0x00, 0x02, 0x14, 0x09, 0x0A, 0x00, 0xEF, 0xCB]
          : List Nat).take (10 + [0x0A, 0x00].length))[8]? ≠ some 0x0B) ∧
    ((12 : Int) = 10 + (([0x0A, 0x00] : List Nat).length : Int)
    ∧ ∃ st, tauDecodeResponse true ((5 : Nat) : Int)
          ((([0x6E, 0x00, 0x00, 0x05, 0x00, 0x02, 0x14, 0x09, 0x0A, 0x00, 0xEF, 0xCB]
            : List Nat).take (10 + [0x0A, 0x00].length)).set 8 0x0B) 12 none none
          = .ok (st, none, none)
      ∧ st ≠ CAM_OK
      ∧ (8 ≠ 1 → st = CAM_CHECKSUM_ERROR ∨ st = CAM_COMMUNICATION_ERROR)
      ∧ (8 = 1 → st = charVal true 0x0B)) :=
  ⟨⟨rfl, by decide⟩, C5_single_byte_tamper true 5 [0x0A, 0x00] (List.replicate 12 0)
    [0x6E, 0x00, 0x00, 0x05, 0x00, 0x02, 0x14, 0x09, 0x0A, 0x00, 0xEF, 0xCB] 12 12 none none
    8 0x0B (by decide) (by decide) (by decide) (by decide) (by decide) (by decide)
    rfl (by decide) (by decide) (by decide)⟩

/-- C5 (counterexample): the payload-free GetRevision frame built by `tauBuildRequest`, with
its status byte (position 1) changed from 00 to 01, is decoded as `CAM_BUSY`: neither
`CAM_CHECKSUM_ERROR` nor `CAM_COMMUNICATION_ERROR`. -/
theorem C5_counterexample :
    tauBuildRequest GET_REVISION (List.replicate 10 0) 10 none 0
      = .ok ([0x6E, 0x00, 0x00, 0x05, 0x00, 0x00, 0x34, 0x4B, 0x00, 0x00], 10)
    ∧ tauDecodeResponse false GET_REVISION
        (([0x6E, 0x00, 0x00, 0x05, 0x00, 0x00, 0x34, 0x4B, 0x00, 0x00] : List Nat).set 1 0x01)
        10 none none = .ok (CAM_BUSY, none, none)
    ∧ CAM_BUSY ≠ CAM_CHECKSUM_ERROR ∧ CAM_BUSY ≠ CAM_COMMUNICATION_ERROR :=
  ⟨rfl, rfl, by decide, by decide⟩

/-- C6 (what the code returns for a camera-reported status): for every buffer whose byte 0
is 0x6E and whose status byte is `s` in 1..255, `tauDecodeResponse` returns before any
other check, whatever the command byte, the length field and the two CRCs are, and leaves
the output arguments as they were; the status it returns is `buffer[1]` read as a plain
`char`: the numeric value `s` for `s ≤ 127` and for every `s` where plain `char` is
unsigned, but `s - 256` for `s ≥ 128` where plain `char` is signed. -/
theorem C6_status_as_char (sgn : Bool) (cmd : Int) (buffer : List Nat) (bufferSize : Int)
    (data : Option (List Nat)) (dataCount : Option Int) (s : Nat)
    (h0 : buffer[0]? = some 0x6E) (h1 : buffer[1]? = some s)
    (hs1 : 1 ≤ s) (hs2 : s ≤ 255) :
    tauDecodeResponse sgn cmd buffer bufferSize data dataCount
        = .ok (charVal sgn s, data, dataCount)
    ∧ (sgn = false ∨ s ≤ 127 → charVal sgn s = (s : Int))
    ∧ (sgn = true → 128 ≤ s → charVal sgn s = (s : Int) - 256) := by
  have hne : charVal sgn s ≠ CAM_OK := by
    have := charVal_ne sgn s 0 (by omega) (by decide) (by omega)
    rw [charVal_zero] at this
    exact this
  refine ⟨tauDecodeResponse_status sgn cmd buffer bufferSize data dataCount s h0 h1 hne, ?_, ?_⟩
  · intro hplat
    rcases hplat with h | h
    · rw [h]; exact charVal_unsigned s
    · exact charVal_small sgn s (by omega)
  · intro h hs
    subst h
    unfold charVal
    simp only [Bool.true_and, decide_eq_true_eq]
    rw [if_pos hs]

theorem C6_status_as_char_witness :
    (([0x6E, 200, 0x00, 0x05, 0x00, 0x00, 0x34, 0x4B, 0x00, 0x00] : List Nat)[0]? = some 0x6E
      ∧ ([0x6E, 200, 0x00, 0x05, 0x00, 0x00, 0x34, 0x4B, 0x00, 0x00] : List Nat)[1]? = some 200)
    ∧ tauDecodeResponse true GET_REVISION
        [0x6E, 200, 0x00, 0x05, 0x00, 0x00, 0x34, 0x4B, 0x00, 0x00] 10 none none
      = .ok (-56, none, none)
    ∧ (-56 : Int) ≠ 200 :=
  ⟨⟨rfl, rfl⟩, (C6_status_as_char true GET_REVISION
    [0x6E, 200, 0x00, 0x05, 0x00, 0x00, 0x34, 0x4B, 0x00, 0x00] 10 none none 200 rfl rfl
    (by decide) (by decide)).1, by decide⟩

/-- A frame with the status byte `Busy = 1` and a wrong frame CRC is answered `CAM_BUSY` on
both kinds of platform. -/
theorem tauDecodeResponse_busy (sgn : Bool) :
    tauDecodeResponse sgn GET_REVISION
        [0x6E, 0x01, 0x00, 0x05, 0x00, 0x00, 0x34, 0x4B, 0x12, 0x34] 10 none none
      = .ok (CAM_BUSY, none, none) := by
  cases sgn <;> rfl

/-- C7 (what the code does with the command echo): for every expected command code `cmd`
in [0, 256) and every buffer whose byte 0 is 0x6E and whose status byte is Ok,
`tauDecodeResponse` returns `CAM_COMMUNICATION_ERROR` whenever byte 3 differs from `cmd`,
whatever the CRC fields are; when byte 3 equals `cmd`, with `cmd` below 128 or plain `char`
unsigned, no run of `tauDecodeResponse` returns `CAM_COMMUNICATION_ERROR`; but when byte 3
equals `cmd`, with `cmd` in 128..255 and plain `char` signed, it returns
`CAM_COMMUNICATION_ERROR` all the same.  Decoding 6E 00 00 05 00 00 34 4B 00 00 with
expected command 0x0B yields `CAM_COMMUNICATION_ERROR`. -/
theorem C7_command_echo (sgn : Bool) (cmd b3 : Nat) (buffer : List Nat) (bufferSize : Int)
    (data : Option (List Nat)) (dataCount : Option Int)
    (hcmd : cmd < 256) (hb3 : b3 < 256)
    (h0 : buffer[0]? = some 0x6E) (h1 : buffer[1]? = some 0) (h3 : buffer[3]? = some b3) :
    (b3 ≠ cmd → tauDecodeResponse sgn (cmd : Int) buffer bufferSize data dataCount
        = .ok (CAM_COMMUNICATION_ERROR, data, dataCount))
    ∧ (b3 = cmd → (sgn = false ∨ cmd < 128) →
        ∀ r, tauDecodeResponse sgn (cmd : Int) buffer bufferSize data dataCount = .ok r →
          r.1 ≠ CAM_COMMUNICATION_ERROR)
    ∧ (b3 = cmd → sgn = true → 128 ≤ cmd →
        tauDecodeResponse sgn (cmd : Int) buffer bufferSize data dataCount
          = .ok (CAM_COMMUNICATION_ERROR, data, dataCount))
    ∧ tauDecodeResponse sgn FFC_MODE_SELECT
        [0x6E, 0x00, 0x00, 0x05, 0x00, 0x00, 0x34, 0x4B, 0x00, 0x00] bufferSize data dataCount
      = .ok (CAM_COMMUNICATION_ERROR, data, dataCount) := by
  have r0 : readByte buffer 0 = .ok 0x6E := by
    simpa using readByte_of_getElem buffer 0 0x6E h0
  have r1 : readByte buffer 1 = .ok 0 := by
    simpa using readByte_of_getElem buffer 1 0 h1
  have r3 : readByte buffer 3 = .ok b3 := by
    simpa using readByte_of_getElem buffer 3 b3 h3
  have hpre : tauDecodeResponse sgn (cmd : Int) buffer bufferSize data dataCount
      = if charVal sgn b3 ≠ toShort (cmd : Int) then
          .ok (CAM_COMMUNICATION_ERROR, data, dataCount)
        else (readU16 buffer 6).bind fun hcrc => (crcCcitt16 buffer 6).bind fun crc =>
          if hcrc ≠ crc then .ok (CAM_CHECKSUM_ERROR, data, dataCount)
          else tauDecodeResponseFrame CAM_OK buffer data dataCount := by
    unfold tauDecodeResponse
    simp only [r0, ok_bind, r1, r3]
    rw [if_neg (by rw [charVal_6E]; simp), if_neg (by rw [charVal_zero]; simp [CAM_OK]),
      charVal_zero]
    rfl
  have hts : toShort (cmd : Int) = (cmd : Int) := toShort_of_range _ (by omega) (by omega)
  refine ⟨?_, ?_, ?_, ?_⟩
  · intro hne
    rw [hpre, if_pos]
    rw [hts]
    intro h
    unfold charVal at h
    split at h <;> omega
  · intro heq hplat r hr
    subst heq
    have e1 : toByte (b3 : Int) = b3 := by unfold toByte; omega
    have hcv := charVal_cmd sgn b3 hcmd hplat
    rw [e1] at hcv
    rw [hpre, if_neg (by rw [hcv]; simp)] at hr
    rcases except_cases (readU16 buffer 6) with ⟨e, h6⟩ | ⟨hcrc, h6⟩
    · rw [h6, error_bind] at hr; cases hr
    rw [h6, ok_bind] at hr
    rcases except_cases (crcCcitt16 buffer 6) with ⟨e, hc⟩ | ⟨crc, hc⟩
    · rw [hc, error_bind] at hr; cases hr
    rw [hc, ok_bind] at hr
    split at hr
    · rw [← Except.ok.inj hr]; show CAM_CHECKSUM_ERROR ≠ CAM_COMMUNICATION_ERROR; decide
    · rcases tauDecodeResponseFrame_status _ _ _ _ _ hr with h | h <;> rw [h] <;> decide
  · intro _ hsg hhigh
    subst hsg
    exact tauDecodeResponse_echo true _ buffer bufferSize data dataCount b3 h0 h1 h3
      (charVal_signed_high b3 cmd hb3 hhigh hcmd)
  · rw [tauDecodeResponse_header, if_neg (by rw [charVal_6E]; simp),
      if_neg (by rw [charVal_zero]; simp [CAM_OK]),
      if_pos (by rw [charVal_small sgn 5 (by decide)]; decide)]

theorem C7_command_echo_witness :
    (tauBuildRequest ((0x80 : Nat) : Int) (List.replicate 10 0) 10 none 0
        = .ok ([0x6E, 0x00, 0x00, 0x80, 0x00, 0x00, 0xE4, 0xE1, 0x00, 0x00], 10)
      ∧ ([0x6E, 0x00, 0x00, 0x80, 0x00, 0x00, 0xE4, 0xE1, 0x00, 0x00] : List Nat)[3]?
          = some 0x80) ∧
    (tauDecodeResponse true ((0x80 : Nat) : Int)
        [0x6E, 0x00, 0x00, 0x80, 0x00, 0x00, 0xE4, 0xE1, 0x00, 0x00] 10 none none
      = .ok (CAM_COMMUNICATION_ERROR, none, none)
    ∧ tauDecodeResponse true ((5 : Nat) : Int)
        [0x6E, 0x00, 0x00, 0x0B, 0x00, 0x00, 0x2F, 0x4A, 0x00, 0x00] 10 none none
      = .ok (CAM_COMMUNICATION_ERROR, none, none)) :=
  ⟨⟨rfl, rfl⟩,
   (C7_command_echo true 0x80 0x80
      [0x6E, 0x00, 0x00, 0x80, 0x00, 0x00, 0xE4, 0xE1, 0x00, 0x00] 10 none none
      (by decide) (by decide) rfl rfl rfl).2.2.1 rfl rfl (by decide),
   (C7_command_echo true 5 0x0B
      [0x6E, 0x00, 0x00, 0x0B, 0x00, 0x00, 0x2F, 0x4A, 0x00, 0x00] 10 none none
      (by decide) (by decide) rfl rfl rfl).1 (by decide)⟩

/-- Where plain `char` is unsigned, and for a command code below 128 on either kind of
platform, the frame that `tauBuildRequest` builds is accepted with its own command
expected. -/
theorem tauDecodeResponse_own_frame :
    tauDecodeResponse false 0x80
        [0x6E, 0x00, 0x00, 0x80, 0x00, 0x00, 0xE4, 0xE1, 0x00, 0x00] 10 none none
      = .ok (CAM_OK, none, none)
    ∧ tauDecodeResponse true FFC_MODE_SELECT
        [0x6E, 0x00, 0x00, 0x0B, 0x00, 0x00, 0x2F, 0x4A, 0x00, 0x00] 10 none none
      = .ok (CAM_OK, none, none) :=
  ⟨rfl, rfl⟩

/-- C8 (as amended): `tauDecodeResponse` never reads `bufferSize`.  Its result is the same
for every value of `bufferSize`, in particular for every `bufferSize < 10`; the first check
it makes is that of the process code: a buffer whose byte 0 is not 0x6E gives
`CAM_COMMUNICATION_ERROR` before the status, the command echo or the CRCs are examined,
whatever `bufferSize` is. -/
theorem C8_buffer_size_unused (sgn : Bool) (cmd : Int) (buffer : List Nat)
    (bufferSize bufferSize' : Int) (data : Option (List Nat)) (dataCount : Option Int) :
    tauDecodeResponse sgn cmd buffer bufferSize data dataCount
      = tauDecodeResponse sgn cmd buffer bufferSize' data dataCount
    ∧ ∀ b0 : Nat, buffer[0]? = some b0 → b0 < 256 → b0 ≠ 0x6E →
        tauDecodeResponse sgn cmd buffer bufferSize data dataCount
          = .ok (CAM_COMMUNICATION_ERROR, data, dataCount) := by
  refine ⟨rfl, ?_⟩
  intro b0 h0 hb0 hne
  have r0 : readByte buffer 0 = .ok b0 := by
    simpa using readByte_of_getElem buffer 0 b0 h0
  unfold tauDecodeResponse
  simp only [r0, ok_bind]
  rw [if_pos (by rw [← charVal_6E sgn]; exact charVal_ne sgn _ _ hb0 (by decide) hne)]

theorem C8_buffer_size_unused_witness :
    (([0x00, 0x00, 0x00] : List Nat)[0]? = some 0 ∧ (0 : Nat) < 256 ∧ (0 : Nat) ≠ 0x6E) ∧
    tauDecodeResponse false NO_OP [0x00, 0x00, 0x00] 3 none none
      = .ok (CAM_COMMUNICATION_ERROR, none, none) :=
  ⟨by decide, (C8_buffer_size_unused false NO_OP [0x00, 0x00, 0x00] 3 10 none none).2 0 rfl
    (by decide) (by decide)⟩

/-- C8 (counterexample): with `bufferSize = 9 < 10` and the ten bytes of a valid NoOp
frame in memory the result is `CAM_OK`, and with `bufferSize = 2` and the two bytes 6E 01
in memory it is `CAM_BUSY`: neither is `CAM_COMMUNICATION_ERROR`. -/
theorem C8_counterexample :
    tauDecodeResponse false NO_OP
        [0x6E, 0x00, 0x00, 0x00, 0x00, 0x00, 0xDF, 0xBB, 0x00, 0x00] 9 none none
      = .ok (CAM_OK, none, none)
    ∧ tauDecodeResponse false NO_OP [0x6E, 0x01] 2 none none = .ok (CAM_BUSY, none, none) :=
  ⟨rfl, rfl⟩

/-- C9 (as amended): payload extraction.  On a buffer that passes all decode checks (decoding
it without an output buffer returns `CAM_OK`), with declared payload length `N ≤ 32767` and a
caller output buffer of announced capacity `C`: if `N = 0` the reported count is 0 and the
output buffer is unchanged; if `C = 0` the reported count is 0 and the output buffer is
unchanged; if `0 < N ≤ C` exactly the `N` bytes at offsets 8..8+N-1 are copied to the start
of the output buffer and the reported count is `N`; the status is `CAM_OK` in these three
cases.  If `0 < C < N` the run stops in the assertion `*dataCount >= data_len`: no status
and no count are returned. -/
theorem C9_payload_extraction (sgn : Bool) (cmd : Int) (buffer out : List Nat)
    (bufferSize C : Int) (N : Nat)
    (hpass : tauDecodeResponse sgn cmd buffer bufferSize none none = .ok (CAM_OK, none, none))
    (hN : readU16 buffer 4 = .ok N) (hN' : N ≤ 32767)
    (hC0 : 0 ≤ C) (hC : C ≤ 32767) (hout : C ≤ (out.length : Int)) :
    (N = 0 → tauDecodeResponse sgn cmd buffer bufferSize (some out) (some C)
        = .ok (CAM_OK, some out, some 0))
    ∧ (C = 0 → tauDecodeResponse sgn cmd buffer bufferSize (some out) (some C)
        = .ok (CAM_OK, some out, some 0))
    ∧ (0 < N → (N : Int) ≤ C → tauDecodeResponse sgn cmd buffer bufferSize (some out) (some C)
        = .ok (CAM_OK, some ((buffer.drop 8).take N ++ out.drop N), some (N : Int)))
    ∧ (0 < C → C < (N : Int) → tauDecodeResponse sgn cmd buffer bufferSize (some out) (some C)
        = .error .assertion) := by
  obtain ⟨hlen, hd⟩ := tauDecodeResponse_pass sgn cmd buffer bufferSize N hpass hN hN'
  have hCs : toShort C = C := toShort_of_range _ (by omega) (by omega)
  refine ⟨?_, ?_, ?_, ?_⟩
  · intro h0
    subst h0
    rw [hd]
    exact tauDecodeResponseData_zero CAM_OK buffer out C
  · intro h0
    subst h0
    rw [hd]
    exact tauDecodeResponseData_cap_zero CAM_OK buffer out _
  · intro hpos hle
    rw [hd]
    exact tauDecodeResponseData_copy_bytes CAM_OK buffer out N C hlen hpos (by omega) (by omega)
  · intro hpos hlt
    rw [hd]
    exact tauDecodeResponseData_assert CAM_OK buffer out _ C (by omega) (by omega) (by omega)

theorem C9_payload_extraction_witness :
    (tauDecodeResponse false GET_REVISION
        [0x6E, 0x00, 0x00, 0x05, 0x00, 0x02, 0x14, 0x09, 0x0A, 0x00, 0xEF, 0xCB] 12 none none
        = .ok (CAM_OK, none, none)
      ∧ readU16 [0x6E, 0x00, 0x00, 0x05, 0x00, 0x02, 0x14, 0x09, 0x0A, 0x00, 0xEF, 0xCB] 4
        = .ok 2) ∧
    tauDecodeResponse false GET_REVISION
        [0x6E, 0x00, 0x00, 0x05, 0x00, 0x02, 0x14, 0x09, 0x0A, 0x00, 0xEF, 0xCB] 12
        (some [7, 7, 7]) (some 3)
      = .ok (CAM_OK,
          some ((([0x6E, 0x00, 0x00, 0x05, 0x00, 0x02, 0x14, 0x09, 0x0A, 0x00, 0xEF, 0xCB]
            : List Nat).drop 8).take 2 ++ ([7, 7, 7] : List Nat).drop 2), some ((2 : Nat) : Int))
    ∧ tauDecodeResponse false GET_REVISION
        [0x6E, 0x00, 0x00, 0x05, 0x00, 0x02, 0x14, 0x09, 0x0A, 0x00, 0xEF, 0xCB] 12
        (some [7, 7, 7]) (some 0)
      = .ok (CAM_OK, some [7, 7, 7], some 0)
    ∧ tauDecodeResponse false GET_REVISION
        [0x6E, 0x00, 0x00, 0x05, 0x00, 0x02, 0x14, 0x09, 0x0A, 0x00, 0xEF, 0xCB] 12
        (some [7, 7, 7]) (some 1)
      = .error .assertion :=
  ⟨⟨rfl, rfl⟩,
   (C9_payload_extraction false GET_REVISION
      [0x6E, 0x00, 0x00, 0x05, 0x00, 0x02, 0x14, 0x09, 0x0A, 0x00, 0xEF, 0xCB] [7, 7, 7] 12 3 2
      rfl rfl (by decide) (by decide) (by decide) (by decide)).2.2.1 (by decide) (by decide),
   (C9_payload_extraction false GET_REVISION
      [0x6E, 0x00, 0x00, 0x05, 0x00, 0x02, 0x14, 0x09, 0x0A, 0x00, 0xEF, 0xCB] [7, 7, 7] 12 0 2
      rfl rfl (by decide) (by decide) (by decide) (by decide)).2.1 rfl,
   (C9_payload_extraction false GET_REVISION
      [0x6E, 0x00, 0x00, 0x05, 0x00, 0x02, 0x14, 0x09, 0x0A, 0x00, 0xEF, 0xCB] [7, 7, 7] 12 1 2
      rfl rfl (by decide) (by decide) (by decide) (by decide)).2.2.2 (by decide) (by decide)⟩

/-- C9 (counterexample): the GetRevision frame with its 8 payload bytes passes all decode
checks; with an output buffer of capacity `C = 7` (`0 < C < N = 8`) the run stops in the
assertion instead of returning `CAM_OK` with a reported count of 0. -/
theorem C9_counterexample :
    tauDecodeResponse false GET_REVISION
        [0x6E, 0x00, 0x00, 0x05, 0x00, 0x08, 0xB5, 0x43,
         0x0A, 0x00, 0x02, 0x2B, 0x08, 0x00, 0x00, 0x40, 0x33, 0x70] 18 none none
      = .ok (CAM_OK, none, none)
    ∧ tauDecodeResponse false GET_REVISION
        [0x6E, 0x00, 0x00, 0x05, 0x00, 0x08, 0xB5, 0x43,
         0x0A, 0x00, 0x02, 0x2B, 0x08, 0x00, 0x00, 0x40, 0x33, 0x70] 18
        (some [7, 7, 7, 7, 7, 7, 7]) (some 7)
      = .error .assertion :=
  ⟨rfl, rfl⟩

/-! ## C10: the CRC engine -/

/-- C10: the table-driven `crcCcitt16` equals the reference CRC-16/CCITT, zero-init.  The
table has 256 entries; entry `i` is the result of placing `i` in the high byte of a 16 bit
register and shifting left 8 times, XOR-ing 0x1021 whenever the top bit was 1 before the
shift; the update is `crc = ((crc << 8) ^ table[(crc >> 8) ^ byte]) mod 2^16`; for every
byte sequence of length `≤ 65535`, `crcCcitt16` returns the bit-by-bit, MSB-first,
non-reflected CRC with polynomial 0x1021, start value 0x0000 and no final XOR; and
`crcCcitt16` of the empty sequence is 0x0000. -/
theorem C10_crc_refinement (i crc c : Nat) (data : List Nat)
    (hi : i < 256) (hcrc : crc < 65536) (hc : c < 256)
    (hlen : data.length ≤ 65535) (hbytes : ∀ b ∈ data, b < 256) :
    crc_tabccitt.length = 256
    ∧ crc_tabccitt.getD i 0 = refTableEntry i
    ∧ updateCrcCcitt16 crc c
        = ((crc <<< 8) ^^^ crc_tabccitt.getD ((crc >>> 8) ^^^ c) 0) % 65536
    ∧ updateCrcCcitt16 crc c = refCrcByte crc c
    ∧ crcCcitt16 data (data.length : Int) = .ok (refCrc16 data)
    ∧ crcCcitt16 [] 0 = .ok 0x0000 := by
  refine ⟨by simp [crc_tabccitt], tab_eq_ref i hi, ?_, ?_, ?_, rfl⟩
  · unfold updateCrcCcitt16
    simp only [and_ff, Nat.mod_eq_of_lt hcrc, Nat.mod_eq_of_lt hc]
  · rw [updateCrcCcitt16_eq, Nat.mod_eq_of_lt hcrc, Nat.mod_eq_of_lt hc]
  · unfold crcCcitt16
    rw [toUShort_natCast _ (by omega), if_pos (Nat.le_refl _), List.take_length,
      crcCcitt16Loop_eq_ref data hbytes]

theorem C10_crc_refinement_witness :
    ((0x0B : Nat) < 256 ∧ (0x2F4A : Nat) < 65536
      ∧ ([0x6E, 0x00, 0x00, 0x0B, 0x00, 0x00] : List Nat).length ≤ 65535) ∧
    (crc_tabccitt.length = 256
    ∧ crc_tabccitt.getD 0x0B 0 = refTableEntry 0x0B
    ∧ updateCrcCcitt16 0x2F4A 0x2F
        = ((0x2F4A <<< 8) ^^^ crc_tabccitt.getD ((0x2F4A >>> 8) ^^^ 0x2F) 0) % 65536
    ∧ updateCrcCcitt16 0x2F4A 0x2F = refCrcByte 0x2F4A 0x2F
    ∧ crcCcitt16 [0x6E, 0x00, 0x00, 0x0B, 0x00, 0x00]
        (([0x6E, 0x00, 0x00, 0x0B, 0x00, 0x00] : List Nat).length : Int)
        = .ok (refCrc16 [0x6E, 0x00, 0x00, 0x0B, 0x00, 0x00])
    ∧ crcCcitt16 [] 0 = .ok 0x0000) :=
  ⟨by decide, C10_crc_refinement 0x0B 0x2F4A 0x2F [0x6E, 0x00, 0x00, 0x0B, 0x00, 0x00]
    (by decide) (by decide) (by decide) (by decide) (by decide)⟩

/-! ## C11: the output count after a failed transaction -/

/-- C11 (what the code does instead of zeroing): for every transaction in which `tauDoCmd`
returns a status other than `CAM_OK` (allocation failure, send failure, timeout,
camera-reported status or decode error), the output object and the output count on exit
are exactly what the caller passed in: the count still holds the capacity, it is not set
to 0. -/
theorem C11_count_kept_on_failure (sgn : Bool) (t : Transport) (cmd : Int)
    (input : Option (List Nat)) (input_size : Int) (output : Option (List Nat))
    (output_count : Option Int) (r : Int × Option (List Nat) × Option Int × Transport)
    (h : tauDoCmd sgn t cmd input input_size output output_count = .ok r)
    (hst : r.1 ≠ CAM_OK) :
    r.2.1 = output ∧ r.2.2.1 = output_count := by
  unfold tauDoCmd at h
  simp only at h
  split at h
  · cases h; exact ⟨rfl, rfl⟩
  split at h
  · cases h; exact ⟨rfl, rfl⟩
  obtain ⟨m, -, h⟩ := bind_eq_ok _ _ _ h
  obtain ⟨s, -, h⟩ := bind_eq_ok _ _ _ h
  split at h
  · cases h; exact ⟨rfl, rfl⟩
  obtain ⟨a, -, h⟩ := bind_eq_ok _ _ _ h
  split at h
  · cases h; exact ⟨rfl, rfl⟩
  rcases tauDecodeResponse_split sgn cmd a.2.1 a.2.2.1 with
    ⟨st, _, hall⟩ | ⟨e, hall⟩ | ⟨n, x, _, _, hall⟩
  · rw [hall, ok_bind] at h; cases h; exact ⟨rfl, rfl⟩
  · rw [hall, error_bind] at h; cases h
  · rw [hall] at h
    obtain ⟨d, hd, h⟩ := bind_eq_ok _ _ _ h
    have := tauDecodeResponseData_status _ _ _ _ _ d hd
    cases h
    exact absurd this hst

theorem C11_count_kept_on_failure_witness :
    tauDoCmd false ⟨[10], [.byte 0x6E, .byte 0x00, .byte 0x00, .timeout], [], []⟩
        GET_REVISION none 0 (some (List.replicate 64 0)) (some 64)
      = .ok (CAM_TIMEOUT_ERROR, some (List.replicate 64 0), some 64,
          ⟨[], [], [], [[0x6E, 0x00, 0x00, 0x05, 0x00, 0x00, 0x34, 0x4B, 0x00, 0x00]]⟩)
    ∧ CAM_TIMEOUT_ERROR ≠ CAM_OK
    ∧ (some 64 : Option Int) = some 64 := by
  have h : tauDoCmd false ⟨[10], [.byte 0x6E, .byte 0x00, .byte 0x00, .timeout], [], []⟩
        GET_REVISION none 0 (some (List.replicate 64 0)) (some 64)
      = .ok (CAM_TIMEOUT_ERROR, some (List.replicate 64 0), some 64,
          ⟨[], [], [], [[0x6E, 0x00, 0x00, 0x05, 0x00, 0x00, 0x34, 0x4B, 0x00, 0x00]]⟩) := rfl
  exact ⟨h, by decide, (C11_count_kept_on_failure false _ _ _ _ _ _ _ h (by decide)).2⟩

/-- A camera that answers GetRevision with the status `CAM_BUSY`: `tauDoCmd` returns
`CAM_BUSY` and the count on exit is the capacity 64 that was passed in, not 0. -/
theorem tauDoCmd_count_not_zero :
    tauDoCmd false ⟨[10], [.byte 0x6E, .byte 0x01, .byte 0x00, .byte 0x05, .byte 0x00,
        .byte 0x00, .byte 0x07, .byte 0x7C], [some [0x00, 0x00]], []⟩
        GET_REVISION none 0 (some (List.replicate 64 0)) (some 64)
      = .ok (CAM_BUSY, some (List.replicate 64 0), some 64,
          ⟨[], [], [], [[0x6E, 0x00, 0x00, 0x05, 0x00, 0x00, 0x34, 0x4B, 0x00, 0x00]]⟩) := rfl

/-! ## C12: a reply that announces more than the response buffer holds -/

/-- C12 (as amended): oversized reply.  For every response buffer whose announced capacity
does not exceed its real size and every received 8 byte header whose declared payload
length `N` (big-endian bytes 4..5, `N ≤ 32767`) makes `8 + N + 2` exceed that capacity,
`tauReceiveCmd` stops in an assertion before the payload is read; so does `tauDoCmd`, once
`write` has taken the whole request, when `N` exceeds the capacity announced for the
output (0 when there is no output count).  No run of `tauReceiveCmd` returns
`CAM_BYTE_COUNT_ERROR`: the status is `CAM_OK` or `CAM_TIMEOUT_ERROR`. -/
theorem C12_oversized_reply (t : Transport) (buffer : List Nat) (bufferCount : Int)
    (b0 b1 b2 b3 n1 n2 h1 h2 : Nat) (rest : List ReadEvent)
    (hreads : t.reads = [b0, b1, b2, b3, n1, n2, h1, h2].map .byte ++ rest)
    (hN : n1 * 256 + n2 ≤ 32767) (hobj : toShort bufferCount ≤ (buffer.length : Int))
    (hover : toShort bufferCount < 8 + ((n1 * 256 + n2 : Nat) : Int) + 2) :
    tauReceiveCmd t buffer bufferCount = .error .assertion
    ∧ (∀ (sgn : Bool) (cmd : Int) (input output : Option (List Nat))
        (output_count : Option Int) (ws : List Int),
        (input.getD []).length ≤ 32757 →
        (∀ c, output_count = some c → 0 ≤ c ∧ c ≤ 32757) →
        t.writes = ((10 + (input.getD []).length : Nat) : Int) :: ws →
        output_count.getD 0 < ((n1 * 256 + n2 : Nat) : Int) →
        tauDoCmd sgn t cmd input ((input.getD []).length : Int) output output_count
          = .error .assertion)
    ∧ (∀ (t' : Transport) (buffer' : List Nat) (bufferCount' : Int)
        (r : Int × List Nat × Int × Transport),
        tauReceiveCmd t' buffer' bufferCount' = .ok r →
        (r.1 = CAM_OK ∨ r.1 = CAM_TIMEOUT_ERROR) ∧ r.1 ≠ CAM_BYTE_COUNT_ERROR) := by
  refine ⟨tauReceiveCmd_oversized t buffer bufferCount b0 b1 b2 b3 n1 n2 h1 h2 rest hreads hN
    hobj hover, ?_, ?_⟩
  · intro sgn cmd input output output_count ws hP hoc hw hlt
    obtain ⟨hc0, hc1⟩ := output_count_range output_count hoc
    rw [tauDoCmd_stages sgn t cmd input output output_count _ ws hP hoc hw]
    rw [toInt_of_range _ (by omega) (by omega)]
    have g1 : ¬ ((if ((10 + (input.getD []).length : Nat) : Int)
        ≠ ((10 + (input.getD []).length : Nat) : Int)
        then ((10 + (input.getD []).length : Nat) : Int) else CAM_OK) ≠ 0) := by
      rw [if_neg (by simp)]; decide
    rw [if_neg g1]
    rw [tauReceiveCmd_oversized
      ⟨ws, t.reads, t.bodies, t.sent ++ [frameOf cmd (input.getD [])]⟩
      _ _ b0 b1 b2 b3 n1 n2 h1 h2 rest hreads hN
      (by rw [toShort_of_range _ (by omega) (by omega)]; simp)
      (by rw [toShort_of_range _ (by omega) (by omega)]; omega), error_bind]
  · intro t' buffer' bufferCount' r h
    obtain ⟨hst, _, _⟩ := tauReceiveCmd_frame t' buffer' bufferCount' r h
    refine ⟨hst, ?_⟩
    rcases hst with h | h <;> rw [h] <;> decide

theorem C12_oversized_reply_witness :
    tauReceiveCmd ⟨[], [.byte 0x6E, .byte 0x00, .byte 0x00, .byte 0x05, .byte 0x00, .byte 0x08,
        .byte 0xB5, .byte 0x43], [some [0x0A, 0x00, 0x02, 0x2B, 0x08, 0x00, 0x00, 0x40,
        0x33, 0x70]], []⟩ (List.replicate 14 0) 14
      = .error .assertion :=
  (C12_oversized_reply ⟨[], [.byte 0x6E, .byte 0x00, .byte 0x00, .byte 0x05, .byte 0x00,
      .byte 0x08, .byte 0xB5, .byte 0x43], [some [0x0A, 0x00, 0x02, 0x2B, 0x08, 0x00, 0x00,
      0x40, 0x33, 0x70]], []⟩ (List.replicate 14 0) 14 0x6E 0x00 0x00 0x05 0x00 0x08 0xB5 0x43
    [] rfl (by decide) (by decide) (by decide)).1

/-- C12 (counterexample): the GetRevision reply announces 8 payload bytes; with a response
buffer of capacity 14 `tauReceiveCmd` stops in its assertion, and so does `tauDoCmd` with
an output capacity of 4, instead of returning `CAM_BYTE_COUNT_ERROR`. -/
theorem C12_counterexample :
    tauReceiveCmd ⟨[], [.byte 0x6E, .byte 0x00, .byte 0x00, .byte 0x05, .byte 0x00, .byte 0x08,
        .byte 0xB5, .byte 0x43], [some [0x0A, 0x00, 0x02, 0x2B, 0x08, 0x00, 0x00, 0x40,
        0x33, 0x70]], []⟩ (List.replicate 14 0) 14
      = .error .assertion
    ∧ tauDoCmd false ⟨[10], [.byte 0x6E, .byte 0x00, .byte 0x00, .byte 0x05, .byte 0x00,
        .byte 0x08, .byte 0xB5, .byte 0x43], [some [0x0A, 0x00, 0x02, 0x2B, 0x08, 0x00, 0x00,
        0x40, 0x33, 0x70]], []⟩ GET_REVISION none 0 (some [0, 0, 0, 0]) (some 4)
      = .error .assertion :=
  ⟨rfl, rfl⟩

/-! ## C13: a `write` that does not take the whole request -/

/-- C13 (what the code does on a send failure): for every command, every optional payload
of at most 32757 bytes (request size `s = 10 + N`) and every value `w ≠ s` (an `int`)
returned by `write`, `tauSendCmd` returns `w` itself as the status, so its result is
`CAM_OK` exactly when `w = 0`.  For `w ≠ 0`, `tauDoCmd` returns without reading a
response (the scripts of reads are untouched) and with the output and its count untouched;
its status is `w`, not `CAM_COMMUNICATION_ERROR`, whenever the response buffer can be
allocated (for every output capacity from 0 to 32757 and without an output count), and
`CAM_NOT_READY` with nothing sent otherwise.  For `w = 0`, `tauDoCmd` takes the send for
a success and goes on to receive the response. -/
theorem C13_send_failure (sgn : Bool) (t : Transport) (cmd : Int) (input : Option (List Nat))
    (output : Option (List Nat)) (output_count : Option Int) (w : Int) (ws : List Int)
    (hP : (input.getD []).length ≤ 32757)
    (hw : t.writes = w :: ws) (hw1 : -2147483648 ≤ w) (hw2 : w ≤ 2147483647)
    (hne : w ≠ ((10 + (input.getD []).length : Nat) : Int)) :
    tauSendCmd t (frameOf cmd (input.getD [])) ((10 + (input.getD []).length : Nat) : Int)
        = .ok (w, { t with writes := ws, sent := t.sent ++ [frameOf cmd (input.getD [])] })
    ∧ (w = CAM_OK ↔ w = 0)
    ∧ (w ≠ 0 → ∃ (st : Int) (t' : Transport),
        tauDoCmd sgn t cmd input ((input.getD []).length : Int) output output_count
          = .ok (st, output, output_count, t')
        ∧ (st = w ∨ st = CAM_NOT_READY) ∧ st ≠ CAM_OK
        ∧ t'.reads = t.reads ∧ t'.bodies = t.bodies)
    ∧ (w ≠ 0 → (∀ c, output_count = some c → 0 ≤ c ∧ c ≤ 32757) →
        tauDoCmd sgn t cmd input ((input.getD []).length : Int) output output_count
          = .ok (w, output, output_count,
              { t with writes := ws, sent := t.sent ++ [frameOf cmd (input.getD [])] }))
    ∧ (w = 0 → (∀ c, output_count = some c → 0 ≤ c ∧ c ≤ 32757) →
        tauDoCmd sgn t cmd input ((input.getD []).length : Int) output output_count
          = ((tauReceiveCmd
                { t with writes := ws, sent := t.sent ++ [frameOf cmd (input.getD [])] }
                (List.replicate (10 + (output_count.getD 0).toNat) 0)
                ((10 + (output_count.getD 0).toNat : Nat) : Int)).bind fun r =>
              if r.1 ≠ 0 then .ok (r.1, output, output_count, r.2.2.2) else
              (tauDecodeResponse sgn cmd r.2.1 r.2.2.1 output output_count).bind fun d =>
              .ok (d.1, d.2.1, d.2.2, r.2.2.2))) := by
  have hi : toInt w = w := toInt_of_range w hw1 hw2
  have hlen : (((10 + (input.getD []).length : Nat) : Int)).toNat
      = (frameOf cmd (input.getD [])).length := by
    rw [frameOf_length]; exact Int.toNat_ofNat _
  refine ⟨?_, Iff.rfl, ?_, ?_, ?_⟩
  · rw [tauSendCmd_eq t _ _ w ws hw (by omega) (by omega) (by omega), hlen, List.take_length,
      hi, if_pos hne]
  · intro h0
    rcases tauDoCmd_send_fails sgn t cmd input output output_count w ws hP hw hi hne h0
      with h | h
    · exact ⟨w, _, h, Or.inl rfl, h0, rfl, rfl⟩
    · exact ⟨CAM_NOT_READY, t, h, Or.inr rfl, by decide, rfl, rfl⟩
  · intro h0 hoc
    rw [tauDoCmd_stages sgn t cmd input output output_count w ws hP hoc hw, hi]
    simp only [if_pos hne, if_pos h0]
  · intro h0 hoc
    rw [tauDoCmd_stages sgn t cmd input output output_count w ws hP hoc hw, hi]
    have g : ¬ ((if w ≠ ((10 + (input.getD []).length : Nat) : Int) then w else CAM_OK) ≠ 0) := by
      rw [if_pos hne]; simp [h0]
    rw [if_neg g]

theorem C13_send_failure_witness :
    tauSendCmd ⟨[0], [.timeout, .byte 1], [], []⟩
        [0x6E, 0x00, 0x00, 0x00, 0x00, 0x00, 0xDF, 0xBB, 0x00, 0x00] 10
      = .ok (CAM_OK, ⟨[], [.timeout, .byte 1], [],
          [[0x6E, 0x00, 0x00, 0x00, 0x00, 0x00, 0xDF, 0xBB, 0x00, 0x00]]⟩) :=
  (C13_send_failure false ⟨[0], [.timeout, .byte 1], [], []⟩ NO_OP none none none 0 []
    (by decide) rfl (by decide) (by decide) (by decide)).1

/-- When `write` returns 0 for the 10 byte NO_OP request, `tauDoCmd` goes on to read the
response (the timeout event is taken from the script, the status is
`CAM_TIMEOUT_ERROR`); when `write` returns -1, `tauDoCmd` returns -1, and when it returns
3, `tauDoCmd` returns 3, the value of `CAM_RANGE_ERROR`: never
`CAM_COMMUNICATION_ERROR`. -/
theorem tauDoCmd_write_result :
    tauDoCmd false ⟨[0], [.timeout, .byte 1], [], []⟩ NO_OP none 0 none none
      = .ok (CAM_TIMEOUT_ERROR, none, none, ⟨[], [.byte 1], [],
          [[0x6E, 0x00, 0x00, 0x00, 0x00, 0x00, 0xDF, 0xBB, 0x00, 0x00]]⟩)
    ∧ tauDoCmd false ⟨[-1], [], [], []⟩ NO_OP none 0 none none
      = .ok (-1, none, none, ⟨[], [], [],
          [[0x6E, 0x00, 0x00, 0x00, 0x00, 0x00, 0xDF, 0xBB, 0x00, 0x00]]⟩)
    ∧ tauDoCmd false ⟨[3], [], [], []⟩ NO_OP none 0 none none
      = .ok (CAM_RANGE_ERROR, none, none, ⟨[], [], [],
          [[0x6E, 0x00, 0x00, 0x00, 0x00, 0x00, 0xDF, 0xBB, 0x00, 0x00]]⟩) :=
  ⟨rfl, rfl, rfl⟩

/-! ## C14: a header read that fails -/

/-- C14 (as amended): header read outcome.  For every script in which one of the first 8
reads of `tauReceiveCmd` is not Ok, the earlier ones having delivered bytes, the status
is `CAM_TIMEOUT_ERROR` both when that read timed out and when it reported a transport
error; the reported count is 0, the bytes read so far are in the buffer, and the
transport is left right after the failing read (the rest of the script and the script
of payload reads are untouched).  `tauDoCmd`, once `write` has taken the whole request,
returns `CAM_TIMEOUT_ERROR` with the output and its count untouched. -/
theorem C14_header_read (t : Transport) (buffer bs : List Nat) (bufferCount : Int)
    (e : ReadEvent) (rest : List ReadEvent)
    (hreads : t.reads = bs.map .byte ++ e :: rest) (hl : bs.length < 8)
    (he : e = .timeout ∨ e = .error)
    (hcap : 8 ≤ toShort bufferCount) (hb : 8 ≤ buffer.length) :
    tauReceiveCmd t buffer bufferCount
        = .ok (CAM_TIMEOUT_ERROR, bs ++ buffer.drop bs.length, 0, { t with reads := rest })
    ∧ ∀ (sgn : Bool) (cmd : Int) (input output : Option (List Nat))
        (output_count : Option Int) (ws : List Int),
        (input.getD []).length ≤ 32757 →
        (∀ c, output_count = some c → 0 ≤ c ∧ c ≤ 32757) →
        t.writes = ((10 + (input.getD []).length : Nat) : Int) :: ws →
        tauDoCmd sgn t cmd input ((input.getD []).length : Int) output output_count
          = .ok (CAM_TIMEOUT_ERROR, output, output_count,
              ⟨ws, rest, t.bodies, t.sent ++ [frameOf cmd (input.getD [])]⟩) := by
  refine ⟨tauReceiveCmd_short t buffer bs bufferCount e rest hreads hl he hcap (by omega), ?_⟩
  intro sgn cmd input output output_count ws hP hoc hw
  obtain ⟨hc0, hc1⟩ := output_count_range output_count hoc
  rw [tauDoCmd_stages sgn t cmd input output output_count _ ws hP hoc hw]
  rw [toInt_of_range _ (by omega) (by omega)]
  have h1 : ¬ ((if ((10 + (input.getD []).length : Nat) : Int)
      ≠ ((10 + (input.getD []).length : Nat) : Int)
      then ((10 + (input.getD []).length : Nat) : Int) else CAM_OK) ≠ 0) := by
    rw [if_neg (by simp)]; decide
  rw [if_neg h1]
  rw [tauReceiveCmd_short ⟨ws, t.reads, t.bodies, t.sent ++ [frameOf cmd (input.getD [])]⟩
    _ bs _ e rest hreads hl he
    (by rw [toShort_of_range _ (by omega) (by omega)]; omega) (by simp; omega), ok_bind]
  rfl

theorem C14_header_read_witness :
    tauReceiveCmd ⟨[], [.byte 0x6E, .byte 0x00, .byte 0x00, .timeout, .byte 0x05], [], []⟩
        (List.replicate 10 0) 10
      = .ok (CAM_TIMEOUT_ERROR, [0x6E, 0x00, 0x00] ++ (List.replicate 10 0).drop 3, 0,
          ⟨[], [.byte 0x05], [], []⟩) :=
  (C14_header_read ⟨[], [.byte 0x6E, .byte 0x00, .byte 0x00, .timeout, .byte 0x05], [], []⟩
    (List.replicate 10 0) [0x6E, 0x00, 0x00] 10 .timeout [.byte 0x05] rfl (by decide)
    (Or.inl rfl) (by decide) (by decide)).1

/-- C14 (counterexample): a transport error on the fourth read of the header gives
`CAM_TIMEOUT_ERROR`, not `CAM_COMMUNICATION_ERROR`, from `tauReceiveCmd` and from
`tauDoCmd`. -/
theorem C14_counterexample :
    tauReceiveCmd ⟨[], [.byte 0x6E, .byte 0x00, .byte 0x00, .error, .byte 0x05], [], []⟩
        (List.replicate 10 0) 10
      = .ok (CAM_TIMEOUT_ERROR, [0x6E, 0, 0, 0, 0, 0, 0, 0, 0, 0], 0,
          ⟨[], [.byte 0x05], [], []⟩)
    ∧ tauDoCmd false ⟨[10], [.byte 0x6E, .byte 0x00, .byte 0x00, .error, .byte 0x05], [], []⟩
        GET_REVISION none 0 none none
      = .ok (CAM_TIMEOUT_ERROR, none, none, ⟨[], [.byte 0x05], [],
          [[0x6E, 0x00, 0x00, 0x05, 0x00, 0x00, 0x34, 0x4B, 0x00, 0x00]]⟩)
    ∧ CAM_TIMEOUT_ERROR ≠ CAM_COMMUNICATION_ERROR :=
  ⟨rfl, rfl, by decide⟩

/-! ## C15: `tauVerifyCommunication` -/

/-- C15: verify probe.  For every `k ≥ 0` and every `k` stale bytes queued and followed by a
read timeout, the drain of `tauVerifyCommunication` takes exactly those bytes, stops at
the timeout and reports `CAM_OK`; the function then runs the NO_OP transaction on what is
left of the transport and returns exactly its outcome; whenever it returns, the log shows
one more write, of the 10 bytes `6E 00 00 00 00 00 DF BB 00 00`; and when `write` takes the
10 bytes and the transport then answers with the Ok NO_OP frame of zero payload (8 header
bytes, then the 2 bytes of the frame CRC delivered by the payload read) the result is
`CAM_OK`. -/
theorem C15_verify_probe (sgn : Bool) (t : Transport) (stale : List Nat)
    (rest : List ReadEvent) (hreads : t.reads = stale.map .byte ++ ReadEvent.timeout :: rest) :
    tauFlushReceivedData t = .ok (CAM_OK, { t with reads := rest })
    ∧ tauVerifyCommunication sgn t
        = ((tauDoCmd sgn { t with reads := rest } NO_OP none 0 none none).bind
            fun r => .ok (r.1, r.2.2.2))
    ∧ (∀ (st : Int) (t' : Transport), tauVerifyCommunication sgn t = .ok (st, t') →
        t'.sent = t.sent ++ [[0x6E, 0x00, 0x00, 0x00, 0x00, 0x00, 0xDF, 0xBB, 0x00, 0x00]])
    ∧ (∀ (ws : List Int) (rest' : List ReadEvent) (bs : List (Option (List Nat))),
        t.writes = 10 :: ws →
        rest = [0x6E, 0x00, 0x00, 0x00, 0x00, 0x00, 0xDF, 0xBB].map .byte ++ rest' →
        t.bodies = some [0x00, 0x00] :: bs →
        tauVerifyCommunication sgn t
          = .ok (CAM_OK, ⟨ws, rest', bs,
              t.sent ++ [[0x6E, 0x00, 0x00, 0x00, 0x00, 0x00, 0xDF, 0xBB, 0x00, 0x00]]⟩)) := by
  have hflush := tauFlushReceivedData_bytes t stale .timeout rest (Or.inl rfl) hreads
  have hverify : tauVerifyCommunication sgn t
      = (tauDoCmd sgn { t with reads := rest } NO_OP none 0 none none).bind
          fun r => .ok (r.1, r.2.2.2) := by
    unfold tauVerifyCommunication
    rw [hflush, ok_bind]
    simp only [ne_eq, not_true_eq_false, if_false]
  have hframe : frameOf NO_OP [] = [0x6E, 0x00, 0x00, 0x00, 0x00, 0x00, 0xDF, 0xBB, 0x00, 0x00] :=
    by decide
  have hdo : ∀ u : Transport, tauDoCmd sgn u NO_OP none 0 none none
      = (tauSendCmd u (frameOf NO_OP []) 10).bind fun s =>
          if s.1 ≠ 0 then .ok (s.1, none, none, s.2) else
          (tauReceiveCmd s.2 (List.replicate 10 0) 10).bind fun r =>
          if r.1 ≠ 0 then .ok (r.1, none, none, r.2.2.2) else
          (tauDecodeResponse sgn NO_OP r.2.1 r.2.2.1 none none).bind fun d =>
          .ok (d.1, d.2.1, d.2.2, r.2.2.2) := fun u =>
    tauDoCmd_eq sgn u NO_OP none 0 none none (frameOf NO_OP []) 10 (by decide) rfl
      (tauBuildRequest_malloc NO_OP none (by decide))
  refine ⟨hflush, hverify, ?_, ?_⟩
  · intro st t' h
    rw [hverify, hdo] at h
    obtain ⟨a, ha, h⟩ := bind_eq_ok _ _ _ h
    have ht : t' = a.2.2.2 := (congrArg Prod.snd (Except.ok.inj h)).symm
    rw [ht]
    obtain ⟨s, hs, ha⟩ := bind_eq_ok _ _ _ ha
    obtain ⟨hsent, _, _⟩ := tauSendCmd_frame _ _ _ s hs
    have h10 : (frameOf NO_OP []).take (toShort 10).toNat
        = [0x6E, 0x00, 0x00, 0x00, 0x00, 0x00, 0xDF, 0xBB, 0x00, 0x00] := by decide
    rw [h10] at hsent
    split at ha
    · cases ha; exact hsent
    obtain ⟨r, hr, ha⟩ := bind_eq_ok _ _ _ ha
    obtain ⟨_, _, hrs⟩ := tauReceiveCmd_frame _ _ _ r hr
    split at ha
    · cases ha; exact hrs.trans hsent
    obtain ⟨d, _, ha⟩ := bind_eq_ok _ _ _ ha
    cases ha
    exact hrs.trans hsent
  · intro ws rest' bs hw hrest hbodies
    rw [hverify, hdo]
    rw [tauSendCmd_eq ⟨t.writes, rest, t.bodies, t.sent⟩ (frameOf NO_OP []) 10 10 ws hw
      (by decide) (by decide) (by decide), ok_bind]
    have g1 : ¬ ((if toInt 10 ≠ 10 then toInt 10 else CAM_OK) ≠ 0) := by decide
    rw [if_neg g1]
    rw [tauReceiveCmd_header
      ⟨ws, rest, t.bodies, t.sent ++ [(frameOf NO_OP []).take (10 : Int).toNat]⟩
      (List.replicate 10 0) 10 0x6E 0x00 0x00 0x00 0x00 0x00 0xDF 0xBB
      rest' hrest (by decide) (by decide)]
    have g2 : ¬ ¬ (toShort 10 ≥ TAU_HEADER_SIZE + toShort ((0x00 * 256 + 0x00 : Nat) : Int) + 2) :=
      by decide
    rw [if_neg g2]
    rw [read_some ⟨ws, rest', t.bodies, t.sent ++ [(frameOf NO_OP []).take (10 : Int).toNat]⟩
      _ [0x00, 0x00] _ _ bs hbodies (by decide)]
    have g3 : writeBytes ([0x6E, 0x00, 0x00, 0x00, 0x00, 0x00, 0xDF, 0xBB]
          ++ (List.replicate 10 0).drop 8) TAU_HEADER_SIZE
          ([0x00, 0x00].take (toShort ((0x00 * 256 + 0x00 : Nat) : Int) + 2).toNat)
        = .ok [0x6E, 0x00, 0x00, 0x00, 0x00, 0x00, 0xDF, 0xBB, 0x00, 0x00] := rfl
    rw [g3, ok_bind, ok_bind]
    have g4 : ¬ ((([0x00, 0x00].take (toShort ((0x00 * 256 + 0x00 : Nat) : Int) + 2).toNat).length
        : Int) < 0) := by decide
    have g5 : ¬ ((([0x00, 0x00].take (toShort ((0x00 * 256 + 0x00 : Nat) : Int) + 2).toNat).length
        : Int) ≠ toShort ((0x00 * 256 + 0x00 : Nat) : Int) + 2) := by decide
    simp only [if_neg g4, if_neg g5, ok_bind]
    have g6 : ¬ (CAM_OK ≠ 0) := by decide
    rw [if_neg g6]
    have g7 : tauDecodeResponse sgn NO_OP
        [0x6E, 0x00, 0x00, 0x00, 0x00, 0x00, 0xDF, 0xBB, 0x00, 0x00]
        (toShort (TAU_HEADER_SIZE + toShort ((0x00 * 256 + 0x00 : Nat) : Int) + 2)) none none
        = .ok (CAM_OK, none, none) := by
      cases sgn <;> rfl
    rw [g7, ok_bind, ok_bind]
    have h10 : (frameOf NO_OP []).take (10 : Int).toNat
        = [0x6E, 0x00, 0x00, 0x00, 0x00, 0x00, 0xDF, 0xBB, 0x00, 0x00] := by decide
    rw [h10]

theorem C15_verify_probe_witness :
    tauVerifyCommunication true
        ⟨[10], [.byte 0x11, .byte 0x22, .byte 0x33, .byte 0x44, .byte 0x55, .timeout,
          .byte 0x6E, .byte 0x00, .byte 0x00, .byte 0x00, .byte 0x00, .byte 0x00, .byte 0xDF,
          .byte 0xBB], [some [0x00, 0x00]], []⟩
      = .ok (CAM_OK, ⟨[], [], [],
          [[0x6E, 0x00, 0x00, 0x00, 0x00, 0x00, 0xDF, 0xBB, 0x00, 0x00]]⟩) :=
  (C15_verify_probe true
    ⟨[10], [.byte 0x11, .byte 0x22, .byte 0x33, .byte 0x44, .byte 0x55, .timeout,
      .byte 0x6E, .byte 0x00, .byte 0x00, .byte 0x00, .byte 0x00, .byte 0x00, .byte 0xDF,
      .byte 0xBB], [some [0x00, 0x00]], []⟩
    [0x11, 0x22, 0x33, 0x44, 0x55]
    [.byte 0x6E, .byte 0x00, .byte 0x00, .byte 0x00, .byte 0x00, .byte 0x00, .byte 0xDF,
      .byte 0xBB] rfl).2.2.2 [] [] [] rfl rfl rfl

/-! ## C16: `asciiHexToBinary` and its output bound -/

/-- C16 (what `asciiHexToBinary` stores, and that no bound is applied): for every
`buf_len`, every string of bytes and every buffer object with room for the bytes that
the string denotes, `asciiHexToBinary` stores exactly the successive pairs of hex
digits (either case, blanks skipped, read up to the end of the string or the first
illegal character, a trailing unpaired digit dropped) at the start of the buffer and
returns their number; `buf_len` plays no part, so the count exceeds `buf_len` as soon
as the string holds more than `buf_len` pairs. -/
theorem C16_hex_pairs_unbounded (sgn : Bool) (buffer : List Nat) (buf_len : Int) (s : List Nat)
    (hs : ∀ c ∈ s, c < 256) (hroom : (refHexBytes s).length ≤ buffer.length) :
    asciiHexToBinary sgn buffer buf_len s
      = .ok (refHexBytes s ++ buffer.drop (refHexBytes s).length,
             ((refHexBytes s).length : Int)) := by
  have h := asciiHexToBinaryLoop_spec sgn s hs [] buffer [] (by simp) (by simp)
    (by simpa [refHexBytes] using hroom)
  simp only [List.nil_append, List.length_nil, List.headD_nil, Nat.cast_zero,
    Nat.zero_add] at h
  unfold asciiHexToBinary refHexBytes
  exact h

theorem C16_hex_pairs_unbounded_witness :
    asciiHexToBinary true [0xAA, 0xBB, 0xCC, 0xDD] 1 [0x30, 0x31, 0x20, 0x66, 0x45, 0x37, 0x47]
      = .ok ([0x01, 0xFE, 0xCC, 0xDD], 2) :=
  C16_hex_pairs_unbounded true [0xAA, 0xBB, 0xCC, 0xDD] 1
    [0x30, 0x31, 0x20, 0x66, 0x45, 0x37, 0x47] (by decide) (by decide)

/-- With a buffer object of `buf_len = 1` byte the second pair of "0102" is stored
past the end of the object. -/
theorem asciiHexToBinary_overflow :
    asciiHexToBinary true [0x00] 1 [0x30, 0x31, 0x30, 0x32] = .error .undefined := rfl

/-! ## C17: the CRC of a string followed by its CRC -/

/-- C17 (CRC residue): for every byte sequence `d` of length at most 65533 with
`c = crcCcitt16(d)`, the CRC of `d` followed by the two bytes `c >> 8`, `c & 0xFF` is
`0x0000`; and for every command code `tauBuildRequest` with a payload size of 0
leaves a frame of 10 bytes whose last two bytes, the frame CRC, are `00 00`. -/
theorem C17_crc_residue (d : List Nat) (c : Nat) (hd : d.length ≤ 65533)
    (hc : crcCcitt16 d (d.length : Int) = .ok c) :
    crcCcitt16 (d ++ [c >>> 8, c &&& 0xFF]) ((d.length : Int) + 2) = .ok 0
    ∧ ∀ (cmd : Int) (buffer : List Nat) (bufferCount : Int) (data : Option (List Nat)),
        10 ≤ toShort bufferCount → 10 ≤ buffer.length →
        ∃ header : List Nat, header.length = 8 ∧
          tauBuildRequest cmd buffer bufferCount data 0
            = .ok (header ++ [0x00, 0x00] ++ buffer.drop 10, 10) := by
  constructor
  · have hk : toUShort (d.length : Int) = d.length := by
      unfold toUShort; omega
    have h1 : crcCcitt16 d (d.length : Int) = .ok (crcCcitt16Loop d) := by
      have := crcCcitt16_append d [] (d.length : Int) hk
      rwa [List.append_nil] at this
    rw [h1] at hc
    have hc' : c = crcCcitt16Loop d := (Except.ok.inj hc).symm
    have hlt : c < 65536 := hc' ▸ crcCcitt16Loop_lt d
    have e1 : c >>> 8 = c / 256 % 256 := by
      rw [Nat.shiftRight_eq_div_pow]
      have e : (2 : Nat) ^ 8 = 256 := by norm_num
      rw [e]
      have : c / 256 < 256 := by
        rw [Nat.div_lt_iff_lt_mul (by norm_num)]; omega
      exact (Nat.mod_eq_of_lt this).symm
    have e2 : c &&& 0xFF = c % 256 := by
      rw [Nat.and_comm]; exact and_ff c
    have hk2 : toUShort ((d.length : Int) + 2)
        = (d ++ [c >>> 8, c &&& 0xFF]).length := by
      unfold toUShort; simp; omega
    have h2 := crcCcitt16_append (d ++ [c >>> 8, c &&& 0xFF]) [] ((d.length : Int) + 2) hk2
    rw [List.append_nil] at h2
    rw [h2, e1, e2, hc', crcCcitt16Loop_residue]
  · intro cmd buffer bufferCount data hcap hlen
    refine ⟨frameHeader cmd 0, frameHeader_length cmd 0, ?_⟩
    rw [tauBuildRequest_empty cmd buffer bufferCount data hcap hlen, frameOf_empty]

theorem C17_crc_residue_witness :
    crcCcitt16 [0x6E, 0x00, 0x00, 0x05, 0x00, 0x00] 6 = .ok 0x344B
    ∧ crcCcitt16 ([0x6E, 0x00, 0x00, 0x05, 0x00, 0x00] ++ [0x344B >>> 8, 0x344B &&& 0xFF]) 8
        = .ok 0 :=
  ⟨rfl, (C17_crc_residue [0x6E, 0x00, 0x00, 0x05, 0x00, 0x00] 0x344B (by decide) rfl).1⟩

end Tau
